import Mathlib

/-!
# pygmy-go: default merging, validation and ordering of the service configuration

A shallow embedding of `service/library/setup.go` (`ImportDefaults` and the passes of
`Setup`).  Go maps are association lists whose order is the iteration order, a runtime
panic is `none`, and `os.Exit` is a returned `Fatal` record.  Helpers defined outside
`setup.go` (`getService`, `GetFieldBool`, `GetFieldString`, `GetFieldInt`, the default
providers) are parameters of the embedded functions, collected in `Externals` and
`Providers`; the theorems about `ImportDefaults` and `Setup` hold for every choice of
them.  `specExternals` instantiates them as the spec describes them.  The operating system,
the configuration store (viper) and the container runtime are the fields of `Environment`;
a run of `Setup` ends in an `Outcome`.
-/

namespace Pygmy

/-! ## Go values -/

/-- A Go `error`; `none` is `nil`. -/
abbrev GoError := Option String

/-- A Go `map[string]V`: `nil` is the nil map, `mk l` an initialised map whose entries are
listed in the order a `range` loop visits them. -/
inductive GoMap (V : Type) where
  | nil : GoMap V
  | mk (entries : List (String × V)) : GoMap V
  deriving DecidableEq, Repr

/-- First value stored under `k` in an entry list. -/
def lookupKey {V : Type} (k : String) : List (String × V) → Option V
  | [] => none
  | (k', v) :: rest => if k' = k then some v else lookupKey k rest

/-- Entry list after `m[k] = v`: the slot of `k` is overwritten, or a new entry is added. -/
def assignKey {V : Type} (k : String) (v : V) : List (String × V) → List (String × V)
  | [] => [(k, v)]
  | (k', v') :: rest => if k' = k then (k, v) :: rest else (k', v') :: assignKey k v rest

/-- The comma-ok read `v, ok := m[k]`; `none` is `ok == false`.  Reading a nil map is
allowed in Go and finds nothing. -/
def mapGet {V : Type} (m : GoMap V) (k : String) : Option V :=
  match m with
  | GoMap.nil => none
  | GoMap.mk l => lookupKey k l

/-- The plain read `m[k]`, which yields the zero value `z` for a missing key. -/
def mapIndex {V : Type} (z : V) (m : GoMap V) (k : String) : V :=
  (mapGet m k).getD z

/-- The assignment `m[k] = v`; writing to a nil map panics (`none`). -/
def mapSet {V : Type} (m : GoMap V) (k : String) (v : V) : Option (GoMap V) :=
  match m with
  | GoMap.nil => none
  | GoMap.mk l => some (GoMap.mk (assignKey k v l))

/-- The entries a `range` loop over the map visits, in order; none for a nil map. -/
def mapRange {V : Type} (m : GoMap V) : List (String × V) :=
  match m with
  | GoMap.nil => []
  | GoMap.mk l => l

/-- The keys of the map, in iteration order. -/
def mapKeys {V : Type} (m : GoMap V) : List String :=
  (mapRange m).map Prod.fst

/-- The test `m == nil`. -/
def mapIsNil {V : Type} (m : GoMap V) : Bool :=
  match m with
  | GoMap.nil => true
  | GoMap.mk _ => false

/-! ## Data model -/

/-- One host port binding (`nat.PortBinding`). -/
structure PortBinding where
  HostIP : String
  HostPort : String
  deriving DecidableEq, Repr

/-- Modelled from the spec: `container.Config` is declared outside src; the spec names the
image reference and the labels, the two fields `setup.go` reads. -/
structure ContainerConfig where
  Image : String
  Labels : GoMap String
  deriving DecidableEq, Repr

/-- Modelled from the spec: `container.HostConfig` is declared outside src; the spec names
the host port bindings, the field `setup.go` reads (a `nat.PortMap`, a nil-able map from
port to bindings). -/
structure HostConfig where
  PortBindings : GoMap (List PortBinding)
  deriving DecidableEq, Repr

/-- Modelled from the spec: `model.Service` is declared outside src; it wraps a container
specification (`Config`) and a host configuration (`HostConfig`).  §3: a logical field may
live as a typed field or as a label; `Defaults` is the typed defaults field that §4.1 names
in rule 2 of `ImportDefaults`, `none` while it is not set.  Name and weight are carried by
labels. -/
structure Service where
  Config : ContainerConfig
  HostConfig : HostConfig
  Defaults : Option Bool
  deriving DecidableEq, Repr

/-- The zero value `model.Service{}`. -/
def Service.zero : Service :=
  { Config := { Image := "", Labels := GoMap.nil }, HostConfig := { PortBindings := GoMap.nil },
    Defaults := none }

/-- Modelled from the spec: `types.NetworkResource` is declared outside src; a thin record,
a name plus runtime-reported attributes. -/
structure NetworkResource where
  Name : String
  Attributes : List (String × String)
  deriving DecidableEq, Repr

/-- Modelled from the spec: `types.Volume` is declared outside src; a thin record, a name
plus runtime-reported attributes. -/
structure Volume where
  Name : String
  Attributes : List (String × String)
  deriving DecidableEq, Repr

/-- Modelled from the spec: `Config` is declared outside src; the spec lists these six
fields.  `SortedServices` is a slice, modelled as a list. -/
structure Config where
  Domain : String
  Defaults : Bool
  Services : GoMap Service
  Networks : GoMap NetworkResource
  Volumes : GoMap Volume
  SortedServices : List String
  deriving DecidableEq, Repr

/-- The helpers defined outside `setup.go` that `ImportDefaults` and `Setup` call on services.
`getService s c` merges the override `c` over the default `s`; the three accessors return
a Go pair (value, error). -/
structure Externals where
  getService : Service → Service → Service
  GetFieldBool : Service → String → Bool × GoError
  GetFieldString : Service → String → String × GoError
  GetFieldInt : Service → String → Int × GoError

/-- The default providers `Setup` consults: `agent.New()`, `key.NewAdder()`,
`dnsmasq.New`, `haproxy.New`, `mailhog.New` (each given the domain) and the two
`NewDefaultPorts()` variants. -/
structure Providers where
  agentNew : Service
  keyNewAdder : Service
  dnsmasqNew : String → Service
  haproxyNew : String → Service
  mailhogNew : String → Service
  haproxyNewDefaultPorts : Service
  mailhogNewDefaultPorts : Service

/-! ## ImportDefaults -/

/-- The test `val, ok := s.Config.Labels["pygmy.defaults"]; ok && (val == "1" || val == "true")`
that `ImportDefaults` applies to the existing service and to the provider default. -/
def defaultsLabelSet (s : Service) : Bool :=
  match mapGet s.Config.Labels "pygmy.defaults" with
  | some val => val == "1" || val == "true"
  | none => false

/-- The config with its `Services` field replaced, every other field kept. -/
def withServices (c : Config) (m : GoMap Service) : Config :=
  { c with Services := m }

/-- The statement `c.Services[service] = v`. -/
def setService (c : Config) (service : String) (v : Service) : Option Config :=
  (mapSet c.Services service v).map (withServices c)

/-- The statement `c.Services[service] = getService(importer, c.Services[service])`. -/
def mergeInto (X : Externals) (c : Config) (service : String) (importer : Service) :
    Option Config :=
  setService c service (X.getService importer (mapIndex Service.zero c.Services service))

/-- The call `ImportDefaults(c, service, importer)`: the config after the call and the
returned bool; `none` when the call panics on a write to a nil `Services` map. -/
def ImportDefaults (X : Externals) (c : Config) (service : String) (importer : Service) :
    Option (Config × Bool) :=
  match mapGet c.Services service with
  | some container =>
    if defaultsLabelSet container then
      (setService c service Service.zero).bind fun c1 =>
        (mergeInto X c1 service importer).map fun c2 => (c2, true)
    else if (X.GetFieldBool container "defaults").1 then
      (mergeInto X c service importer).map fun c2 => (c2, true)
    else if defaultsLabelSet importer then
      (mergeInto X c service importer).map fun c2 => (c2, true)
    else some (c, false)
  | none =>
    if (X.GetFieldBool importer "defaults").1 then
      (mergeInto X c service importer).map fun c2 => (c2, true)
    else some (c, false)

/-! ## Setup: generic defaulting pass -/

/-- The guard `if c.Services == nil || len(c.Services) == 0 { c.Services = make(...) }`. -/
def ensureServices (c : Config) : Config :=
  if mapIsNil c.Services || (mapRange c.Services).length == 0 then
    withServices c (GoMap.mk [])
  else c

/-- The five `ImportDefaults` calls of `Setup`, in source order; the returned bools are
discarded. -/
def importPass (X : Externals) (P : Providers) (c : Config) : Option Config :=
  (ImportDefaults X c "amazeeio-ssh-agent" P.agentNew).bind fun r1 =>
  (ImportDefaults X r1.1 "amazeeio-ssh-agent-add-key" P.keyNewAdder).bind fun r2 =>
  (ImportDefaults X r2.1 "amazeeio-dnsmasq" (P.dnsmasqNew r2.1.Domain)).bind fun r3 =>
  (ImportDefaults X r3.1 "amazeeio-haproxy" (P.haproxyNew r3.1.Domain)).bind fun r4 =>
  (ImportDefaults X r4.1 "amazeeio-mailhog" (P.mailhogNew r4.1.Domain)).map fun r5 => r5.1

/-! ## Setup: port-binding backfill -/

/-- One backfill step of `Setup`:
`if c.Services[key].HostConfig.PortBindings == nil { c.Services[key] = getService(defaultPorts, c.Services[key]) }`. -/
def backfillOne (X : Externals) (defaultPorts : Service) (key : String) (c : Config) :
    Option Config :=
  if mapIsNil (mapIndex Service.zero c.Services key).HostConfig.PortBindings then
    mergeInto X c key defaultPorts
  else some c

/-- The port-binding backfill of `Setup`: first "amazeeio-haproxy", then
"amazeeio-mailhog". -/
def backfill (X : Externals) (P : Providers) (c : Config) : Option Config :=
  (backfillOne X P.haproxyNewDefaultPorts "amazeeio-haproxy" c).bind
    (backfillOne X P.mailhogNewDefaultPorts "amazeeio-mailhog")

/-! ## Setup: validation pass -/

/-- Process termination by `os.Exit(status)` after printing `message`. -/
structure Fatal where
  status : Nat
  message : String
  deriving DecidableEq, Repr

/-- The body of the validation loop for one entry: `some f` when the body exits the
process, `none` when it falls through to the next entry. -/
def validateService (X : Externals) (id : String) (service : Service) : Option Fatal :=
  let r := X.GetFieldString service "name"
  if r.2 ≠ none ∧ r.1 ≠ "" then
    some { status := 2,
           message := "service '" ++ id ++ "' does not have have a value for label 'pygmy.name'\n" }
  else if service.Config.Image = "" then
    some { status := 2,
           message := "service '" ++ id ++ "' does not have have a value for \x7b\x7b.Config.Image\x7d\x7d\n" }
  else none

/-- The validation loop `for id, service := range c.Services` over the entries in
iteration order: the first entry whose body exits decides. -/
def validateEntries (X : Externals) : List (String × Service) → Option Fatal
  | [] => none
  | (id, service) :: rest =>
    match validateService X id service with
    | some f => some f
    | none => validateEntries X rest

/-- The validation pass of `Setup` on the services map. -/
def validate (X : Externals) (services : GoMap Service) : Option Fatal :=
  validateEntries X (mapRange services)

/-! ## Setup: ordering pass -/

/-- The decimal digit `d` as a character. -/
def digitChar (d : Nat) : Char :=
  match d with
  | 0 => '0' | 1 => '1' | 2 => '2' | 3 => '3' | 4 => '4'
  | 5 => '5' | 6 => '6' | 7 => '7' | 8 => '8' | _ => '9'

/-- Decimal digits of `n` in front of `acc`, most significant first; `fuel` bounds the
number of digits produced. -/
def decimalAux : Nat → Nat → List Char → List Char
  | 0, _, acc => acc
  | fuel + 1, n, acc =>
    if n / 10 = 0 then digitChar (n % 10) :: acc
    else decimalAux fuel (n / 10) (digitChar (n % 10) :: acc)

/-- The decimal representation of a natural number (`n + 1` digits of fuel always
suffice). -/
def decimal (n : Nat) : List Char :=
  decimalAux (n + 1) n []

/-- Left padding with `0` up to `width` characters. -/
def padZeros (width : Nat) (ds : List Char) : List Char :=
  List.replicate (width - ds.length) '0' ++ ds

/-- The verb `%06d` of `fmt.Sprintf`: minimum width six, zero padded, the sign first and
counted in the width. -/
def fmt06d (w : Int) : List Char :=
  if w < 0 then '-' :: padZeros 5 (decimal w.natAbs) else padZeros 6 (decimal w.toNat)

/-- The sort key `fmt.Sprintf("%06d|%v", weight, key)`. -/
def sortKey (weight : Int) (key : String) : String :=
  String.mk (fmt06d weight ++ '|' :: key.data)

/-- Go's `a < b` on strings as sequences of characters: lexicographic, a proper prefix
first.  (Go compares bytes; on valid UTF-8 that is the order of the code points.) -/
def lessChars : List Char → List Char → Bool
  | _, [] => false
  | [], _ :: _ => true
  | a :: as, b :: bs =>
    if a.toNat < b.toNat then true
    else if b.toNat < a.toNat then false
    else lessChars as bs

/-- Go's `a < b` on strings. -/
def strLess (a b : String) : Bool :=
  lessChars a.data b.data

/-- Insertion of `x` into an ascending list, before the first element greater than it. -/
def insertSorted (x : String) : List String → List String
  | [] => [x]
  | y :: ys => if strLess x y then x :: y :: ys else y :: insertSorted x ys

/-- The call `sort.Strings`: the ascending rearrangement of the slice.  (The order is total
and equal strings are indistinguishable, so every sorting algorithm gives this list.) -/
def sortStrings : List String → List String
  | [] => []
  | x :: xs => insertSorted x (sortStrings xs)

/-- The call `strings.Split(s, sep)` for a one-character separator, on character lists:
the pieces between the occurrences of `sep`; always at least one piece. -/
def splitOn (sep : Char) : List Char → List (List Char)
  | [] => [[]]
  | c :: cs =>
    if c = sep then [] :: splitOn sep cs
    else
      match splitOn sep cs with
      | [] => [[c]]
      | piece :: pieces => (c :: piece) :: pieces

/-- The expression `strings.Split(v, "|")[1]`; `none` is the index-out-of-range panic. -/
def secondField (v : String) : Option String :=
  ((splitOn '|' v.data).get? 1).map String.mk

/-- A loop body applied to every element in turn, stopping at the first panic. -/
def mapOrPanic {α β : Type} (f : α → Option β) : List α → Option (List β)
  | [] => some []
  | x :: xs =>
    match f x with
    | none => none
    | some y => (mapOrPanic f xs).map fun ys => y :: ys

/-- The slice of sort keys built by the loop `for key, service := range c.Services`. -/
def sortKeys (X : Externals) (services : GoMap Service) : List String :=
  (mapRange services).map fun e => sortKey (X.GetFieldInt e.2 "weight").1 e.1

/-- The ordering pass of `Setup`: the value of `c.SortedServices` it leaves, or `none` if
the last loop panics. -/
def orderPass (X : Externals) (services : GoMap Service) : Option (List String) :=
  mapOrPanic secondField (sortStrings (sortKeys X services))

/-! ## The helpers defined outside `setup.go`, modelled from the spec -/

/-- Modelled from the spec: the key-by-key merge of an override map `c` over a default map
`s` that `getService` applies to nested maps (§4.1: override precedence at the key level;
an empty override map leaves the default). -/
def mergeMap {V : Type} (s c : GoMap V) : GoMap V :=
  match mapRange c with
  | [] => s
  | e :: es => GoMap.mk ((e :: es).foldr (fun kv acc => assignKey kv.1 kv.2 acc) (mapRange s))

/-- Modelled from the spec: `getService` is not under src.  §4.1: field by field, the
override `c` wins wherever it has a non-zero value, the provider default `s` fills only
zero or empty fields, nested maps are merged key by key. -/
def getService (s c : Service) : Service :=
  { Config :=
      { Image := if c.Config.Image = "" then s.Config.Image else c.Config.Image,
        Labels := mergeMap s.Config.Labels c.Config.Labels },
    HostConfig :=
      { PortBindings := mergeMap s.HostConfig.PortBindings c.HostConfig.PortBindings },
    Defaults := match c.Defaults with
      | some b => some b
      | none => s.Defaults }

/-- The label `pygmy.<field>` of a service, if present. -/
def labelField (s : Service) (field : String) : Option String :=
  mapGet s.Config.Labels ("pygmy." ++ field)

/-- Modelled from the spec: `GetFieldString` is not under src.  §3, §9: the logical field
is read from the label `pygmy.<field>`; a missing label is reported as an error. -/
def GetFieldString (s : Service) (field : String) : String × GoError :=
  match labelField s field with
  | some v => (v, none)
  | none => ("", some ("could not find field 'pygmy." ++ field ++ "'"))

/-- The typed field of a service for the logical boolean field `field`, if it is set. -/
def typedBool (s : Service) (field : String) : Option Bool :=
  if field = "defaults" then s.Defaults else none

/-- Modelled from the spec: `GetFieldBool` is not under src.  §9: the accessor checks the
typed field first and falls back to the label `pygmy.<field>`; §3: a label value of "1" or
"true" is truthy, every other value reads false.  A field that is neither set nor labelled
reads false and is reported as an error. -/
def GetFieldBool (s : Service) (field : String) : Bool × GoError :=
  match typedBool s field with
  | some b => (b, none)
  | none =>
    match labelField s field with
    | some v => if v = "1" ∨ v = "true" then (true, none) else (false, none)
    | none => (false, some ("could not find field 'pygmy." ++ field ++ "'"))

/-- Value of a string of decimal digits, continuing from `acc`. -/
def parseDigits : List Char → Nat → Option Nat
  | [], acc => some acc
  | c :: cs, acc =>
    if 48 ≤ c.toNat ∧ c.toNat ≤ 57 then parseDigits cs (10 * acc + (c.toNat - 48)) else none

/-- A decimal integer with an optional leading minus sign. -/
def parseInt (s : String) : Option Int :=
  match s.data with
  | [] => none
  | c :: cs =>
    if c = '-' then
      (if cs = [] then none else (parseDigits cs 0).map fun n => -(n : Int))
    else (parseDigits (c :: cs) 0).map fun n => (n : Int)

/-- Modelled from the spec: `GetFieldInt` is not under src.  §3, §9: the logical field is
read from the label `pygmy.<field>` and parsed as an integer; a missing or malformed label
gives zero and an error. -/
def GetFieldInt (s : Service) (field : String) : Int × GoError :=
  match labelField s field with
  | some v =>
    match parseInt v with
    | some n => (n, none)
    | none => (0, some ("could not parse field 'pygmy." ++ field ++ "'"))
  | none => (0, some ("could not find field 'pygmy." ++ field ++ "'"))

/-- Modelled from the spec: the helpers of §3, §4.1 and §9 as one `Externals` record. -/
def specExternals : Externals :=
  { getService := getService,
    GetFieldBool := GetFieldBool,
    GetFieldString := GetFieldString,
    GetFieldInt := GetFieldInt }

/-! ## Auxiliary definitions for the ordering pass -/

/-- The identifier recovered from a sort key, with the panic case mapped to "". -/
def recovered (v : String) : String :=
  (secondField v).getD ""

/-- The six characters `%06d` prints for a weight below one million. -/
def sixDigits (n : Nat) : List Char :=
  [digitChar (n / 100000), digitChar (n / 10000 % 10), digitChar (n / 1000 % 10),
   digitChar (n / 100 % 10), digitChar (n / 10 % 10), digitChar (n % 10)]

/-! ## Concrete inputs -/

/-- A service with the given image and labels and no port bindings. -/
def labelled (image : String) (labels : List (String × String)) : Service :=
  { Config := { Image := image, Labels := GoMap.mk labels },
    HostConfig := { PortBindings := GoMap.nil }, Defaults := none }

/-- A config holding the given services and nothing else. -/
def configOf (services : GoMap Service) : Config :=
  { Domain := "docker.amazee.io", Defaults := true, Services := services,
    Networks := GoMap.nil, Volumes := GoMap.nil, SortedServices := [] }

/-- A provider default in the shape of the compiled-in ones: image, name, weight and a
truthy defaults label. -/
def sampleDefault : Service :=
  labelled "amazeeio/haproxy"
    [("pygmy.defaults", "true"), ("pygmy.name", "amazeeio-haproxy"), ("pygmy.weight", "14")]

/-- A provider default that carries no defaults label. -/
def plainDefault : Service :=
  labelled "amazeeio/haproxy" [("pygmy.name", "amazeeio-haproxy"), ("pygmy.weight", "14")]

/-- An override entry that switches defaults off by label. -/
def optedOut : Service :=
  labelled "custom/image" [("pygmy.defaults", "false")]

/-- An override entry whose typed defaults field is set and which carries no defaults
label: the accessor reads the flag truthy, the label test of rule 1 finds nothing. -/
def flagOnly : Service :=
  { Config := { Image := "custom/image", Labels := GoMap.mk [("custom.label", "kept")] },
    HostConfig := { PortBindings := GoMap.nil }, Defaults := some true }

/-- The reading of "override wins, default fills the gaps" of §4.1 and §8 on the leaves of
a service: the image, the typed defaults field, every label key and every port key.  `r` is
the merge of the override `o` over the default `d`. -/
def OverrideWins (d o r : Service) : Prop :=
  (o.Config.Image ≠ "" → r.Config.Image = o.Config.Image) ∧
  (o.Config.Image = "" → r.Config.Image = d.Config.Image) ∧
  (o.Defaults ≠ none → r.Defaults = o.Defaults) ∧
  (o.Defaults = none → r.Defaults = d.Defaults) ∧
  (∀ k v, mapGet o.Config.Labels k = some v → mapGet r.Config.Labels k = some v) ∧
  (∀ k, mapGet o.Config.Labels k = none →
    mapGet r.Config.Labels k = mapGet d.Config.Labels k) ∧
  (∀ k v, mapGet o.HostConfig.PortBindings k = some v →
    mapGet r.HostConfig.PortBindings k = some v) ∧
  (∀ k, mapGet o.HostConfig.PortBindings k = none →
    mapGet r.HostConfig.PortBindings k = mapGet d.HostConfig.PortBindings k)

/-- A service that carries only a weight label. -/
def weighted (weight : String) : Service :=
  labelled "amazeeio/image" [("pygmy.weight", weight)]

/-! ## The order of §4.4 in the spec's words -/

/-- The order "weight ascending, identifier ascending as tie-break" of §3 and §4.4 on
(weight, identifier) pairs. -/
def pairLess (a b : Int × String) : Bool :=
  decide (a.1 < b.1) || (decide (a.1 = b.1) && strLess a.2 b.2)

/-- Insertion of a pair into a list ascending in `pairLess`. -/
def insertPair (x : Int × String) : List (Int × String) → List (Int × String)
  | [] => [x]
  | y :: ys => if pairLess x y then x :: y :: ys else y :: insertPair x ys

/-- The (weight, identifier) pairs sorted by weight, then identifier. -/
def sortPairs : List (Int × String) → List (Int × String)
  | [] => []
  | x :: xs => insertPair x (sortPairs xs)

/-- The (weight, identifier) pair of every entry of the services map, in iteration order. -/
def weightPairs (X : Externals) (services : GoMap Service) : List (Int × String) :=
  (mapRange services).map fun e => ((X.GetFieldInt e.2 "weight").1, e.1)

/-! ## Setup: the end of a run -/

/-- How a run of `Setup` ends: by a runtime panic, by `os.Exit`, or by returning with the
config it leaves. -/
inductive Outcome where
  | panic : Outcome
  | exit (f : Fatal) : Outcome
  | done (c : Config) : Outcome
  deriving DecidableEq, Repr

/-- The config with its `SortedServices` field replaced, every other field kept. -/
def withSortedServices (c : Config) (l : List String) : Config :=
  { c with SortedServices := l }

/-- The last two passes of `Setup`: the validation loop, then the ordering pass. -/
def validateAndOrder (X : Externals) (c : Config) : Outcome :=
  match validate X c.Services with
  | some f => Outcome.exit f
  | none =>
    match orderPass X c.Services with
    | none => Outcome.panic
    | some l => Outcome.done (withSortedServices c l)

/-! ## Setup: the external inputs and the resolver default -/

/-- A resolver descriptor (`resolv.Resolv`), with the fields `Setup` fills in. -/
structure Resolv where
  Data : String
  Enabled : Bool
  File : String
  Folder : String
  Name : String
  deriving DecidableEq, Repr

/-- The external inputs of a run of `Setup`: the operating system (`runtime.GOOS`), the
values the configuration store (viper) holds for the keys "defaults" and "domain" if the
user set them, the decoding of the store into the config (`viper.Unmarshal`, given the
resolver default registered before it), the network provider and merge, the volume merge
and the runtime volume lookup. -/
structure Environment where
  GOOS : String
  defaults : Option Bool
  domain : Option String
  Unmarshal : Option (List Resolv) → Config → Config
  networkNew : NetworkResource
  getNetwork : NetworkResource → NetworkResource → NetworkResource
  getVolume : Volume → Volume → Volume
  DockerVolumeGet : String → Volume × GoError

/-- The read `viper.GetBool("defaults")` after `viper.SetDefault("defaults", true)`. -/
def viperGetBoolDefaults (E : Environment) : Bool :=
  E.defaults.getD true

/-- The read `viper.GetString("domain")` after
`viper.SetDefault("domain", "docker.amazee.io")`. -/
def viperGetStringDomain (E : Environment) : String :=
  E.domain.getD "docker.amazee.io"

/-- The step `if c.Domain == "" { c.Domain = viper.GetString("domain") }`. -/
def defaultDomain (E : Environment) (c : Config) : Config :=
  if c.Domain = "" then { c with Domain := viperGetStringDomain E } else c

/-- The variable `ResolvMacOS` of `Setup`. -/
def ResolvMacOS (domain : String) : Resolv :=
  { Data := "# Generated by amazeeio pygmy\nnameserver 127.0.0.1\nport 6053\n",
    Enabled := true,
    File := domain,
    Folder := "/etc/resolver",
    Name := "MacOS Resolver" }

/-- The variable `ResolvLinux` of `Setup`; `%s` prints the domain as it is. -/
def ResolvLinux (domain : String) : Resolv :=
  { Data := "# Generated by amazeeio pygmy\n[Resolve]\nDNS=127.0.0.1:6053\nDomains=" ++ domain
      ++ "\n",
    Enabled := true,
    File := domain,
    Folder := "/usr/lib/systemd/resolved.conf.d",
    Name := "Linux Resolver" }

/-- The value the OS branch of `Setup` registers with `viper.SetDefault("resolvers", ...)`,
`none` when no branch matches and nothing is registered. -/
def resolverDefault (goos domain : String) : Option (List Resolv) :=
  if goos = "darwin" then some [ResolvMacOS domain]
  else if goos = "linux" then some [ResolvLinux domain]
  else if goos = "windows" then some []
  else none

/-- The resolver default registered by a run of `Setup` on the config `c` (after the domain
step): the OS branch is taken only `if viper.GetBool("defaults")`. -/
def registeredResolvers (E : Environment) (c : Config) : Option (List Resolv) :=
  if viperGetBoolDefaults E then resolverDefault E.GOOS c.Domain else none

/-! ## Setup: networks, volumes and the whole run -/

/-- The zero value `types.NetworkResource{}`. -/
def NetworkResource.zero : NetworkResource :=
  { Name := "", Attributes := [] }

/-- The zero value `types.Volume{}`. -/
def Volume.zero : Volume :=
  { Name := "", Attributes := [] }

/-- The config with its `Networks` field replaced, every other field kept. -/
def withNetworks (c : Config) (m : GoMap NetworkResource) : Config :=
  { c with Networks := m }

/-- The config with its `Volumes` field replaced, every other field kept. -/
def withVolumes (c : Config) (m : GoMap Volume) : Config :=
  { c with Volumes := m }

/-- The networks step of `Setup`: a nil map is allocated and receives
`getNetwork(network.New(), c.Networks["amazeeio-network"])`, the second argument being the
zero value read from the fresh map. -/
def networksPass (E : Environment) (c : Config) : Config :=
  if mapIsNil c.Networks then
    withNetworks c
      (GoMap.mk [("amazeeio-network", E.getNetwork E.networkNew NetworkResource.zero)])
  else c

/-- The guard `if c.Volumes == nil { c.Volumes = make(...) }`. -/
def ensureVolumes (c : Config) : Config :=
  if mapIsNil c.Volumes then withVolumes c (GoMap.mk []) else c

/-- One iteration of `for _, v := range c.Volumes`, reaching the entry under `key`: `v` is
the value the map holds then, and both statements write the slot `v.Name`:
`c.Volumes[v.Name], _ = docker.DockerVolumeGet(v.Name)` and
`c.Volumes[v.Name] = getVolume(c.Volumes[v.Name], c.Volumes[v.Name])`. -/
def volumeStep (E : Environment) (vols : List (String × Volume)) (key : String) :
    List (String × Volume) :=
  match lookupKey key vols with
  | none => vols
  | some v =>
    let looked := assignKey v.Name (E.DockerVolumeGet v.Name).1 vols
    let current := (lookupKey v.Name looked).getD Volume.zero
    assignKey v.Name (E.getVolume current current) looked

/-- The loop `for _, v := range c.Volumes` on an initialised map: the keys present when the
loop starts are reached in iteration order; an entry the loop creates is not visited (Go
leaves open whether it is). -/
def volumesLoop (E : Environment) (vols : List (String × Volume)) : List (String × Volume) :=
  (vols.map Prod.fst).foldl (volumeStep E) vols

/-- The volumes step of `Setup`: the guard, then the loop. -/
def volumesPass (E : Environment) (c : Config) : Config :=
  withVolumes (ensureVolumes c) (GoMap.mk (volumesLoop E (mapRange (ensureVolumes c).Volumes)))

/-- The block `if c.Defaults { ... }` of `Setup`: the services guard, the five
`ImportDefaults` calls, the port-binding backfill, the networks step and the volumes
step. -/
def defaultsBlock (X : Externals) (P : Providers) (E : Environment) (c : Config) :
    Option Config :=
  if c.Defaults then
    (importPass X P (ensureServices c)).bind fun c1 =>
      (backfill X P c1).map fun c2 => volumesPass E (networksPass E c2)
  else some c

/-- The procedure `Setup(c)`: the domain step, the registration of the resolver default,
`viper.Unmarshal` (its error is only printed), the defaults block, the validation pass and
the ordering pass. -/
def Setup (X : Externals) (P : Providers) (E : Environment) (c : Config) : Outcome :=
  match defaultsBlock X P E
      (E.Unmarshal (registeredResolvers E (defaultDomain E c)) (defaultDomain E c)) with
  | none => Outcome.panic
  | some c3 => validateAndOrder X c3

/-! ## External inputs, modelled from the spec -/

/-- Modelled from the spec: the merge of attribute lists by key, the override `c` winning
(§4.1), as `getNetwork` and `getVolume` apply it. -/
def mergeAttributes (s c : List (String × String)) : List (String × String) :=
  c.foldr (fun kv acc => assignKey kv.1 kv.2 acc) s

/-- Modelled from the spec: `getVolume` is not under src.  §3, §4.1: volumes are merged the
same way as services, the override `c` winning wherever it is non-zero. -/
def getVolume (s c : Volume) : Volume :=
  { Name := if c.Name = "" then s.Name else c.Name,
    Attributes := mergeAttributes s.Attributes c.Attributes }

/-- Modelled from the spec: `getNetwork` is not under src.  §3, §4.1: networks are merged
the same way as services, the override `c` winning wherever it is non-zero. -/
def getNetwork (s c : NetworkResource) : NetworkResource :=
  { Name := if c.Name = "" then s.Name else c.Name,
    Attributes := mergeAttributes s.Attributes c.Attributes }

/-- The decoding of a store that holds nothing but the keys "defaults" and "domain" (no
`Services`, `Networks` or `Volumes`): the two fields are set, every other field of the
config is left as it is. -/
def unmarshalSettings (defaults : Bool) (domain : String) (_ : Option (List Resolv))
    (c : Config) : Config :=
  { c with Defaults := defaults, Domain := domain }

/-- External inputs of a Linux host without a configuration file and without volumes in the
runtime: the store holds only the defaults `Setup` registers, every volume lookup fails
with the zero volume. -/
def sampleEnvironment : Environment :=
  { GOOS := "linux",
    defaults := none,
    domain := none,
    Unmarshal := unmarshalSettings true "docker.amazee.io",
    networkNew := { Name := "amazeeio-network", Attributes := [] },
    getNetwork := getNetwork,
    getVolume := getVolume,
    DockerVolumeGet := fun _ => (Volume.zero, some "no such volume") }

/-- External inputs as `sampleEnvironment`, with a runtime in which every volume exists. -/
def runtimeWithVolumes : Environment :=
  { sampleEnvironment with
    DockerVolumeGet := fun name => ({ Name := name, Attributes := [("Driver", "local")] }, none) }

/-! ## The services the defaults block installs -/

/-- The entries the five `ImportDefaults` calls of `Setup` install on an empty services
map, in the order of the calls: under each known key the provider default merged into the
zero service. -/
def defaultEntries (X : Externals) (P : Providers) (domain : String) :
    List (String × Service) :=
  [("amazeeio-ssh-agent", X.getService P.agentNew Service.zero),
   ("amazeeio-ssh-agent-add-key", X.getService P.keyNewAdder Service.zero),
   ("amazeeio-dnsmasq", X.getService (P.dnsmasqNew domain) Service.zero),
   ("amazeeio-haproxy", X.getService (P.haproxyNew domain) Service.zero),
   ("amazeeio-mailhog", X.getService (P.mailhogNew domain) Service.zero)]

/-- The entry a backfill step leaves: the default ports merged in when the entry has no
port bindings, the entry itself otherwise. -/
def fillPorts (X : Externals) (defaultPorts entry : Service) : Service :=
  if mapIsNil entry.HostConfig.PortBindings then X.getService defaultPorts entry else entry

/-- The entries of `defaultEntries` after the port-binding backfill. -/
def filledEntries (X : Externals) (P : Providers) (domain : String) :
    List (String × Service) :=
  [("amazeeio-ssh-agent", X.getService P.agentNew Service.zero),
   ("amazeeio-ssh-agent-add-key", X.getService P.keyNewAdder Service.zero),
   ("amazeeio-dnsmasq", X.getService (P.dnsmasqNew domain) Service.zero),
   ("amazeeio-haproxy",
     fillPorts X P.haproxyNewDefaultPorts (X.getService (P.haproxyNew domain) Service.zero)),
   ("amazeeio-mailhog",
     fillPorts X P.mailhogNewDefaultPorts (X.getService (P.mailhogNew domain) Service.zero))]

/-- The five provider defaults for a domain, in the order of the calls. -/
def providerList (P : Providers) (domain : String) : List Service :=
  [P.agentNew, P.keyNewAdder, P.dnsmasqNew domain, P.haproxyNew domain, P.mailhogNew domain]

/-- The five known identifiers with the weights read from their provider defaults. -/
def providerWeights (X : Externals) (P : Providers) (domain : String) : List (Int × String) :=
  [((X.GetFieldInt P.agentNew "weight").1, "amazeeio-ssh-agent"),
   ((X.GetFieldInt P.keyNewAdder "weight").1, "amazeeio-ssh-agent-add-key"),
   ((X.GetFieldInt (P.dnsmasqNew domain) "weight").1, "amazeeio-dnsmasq"),
   ((X.GetFieldInt (P.haproxyNew domain) "weight").1, "amazeeio-haproxy"),
   ((X.GetFieldInt (P.mailhogNew domain) "weight").1, "amazeeio-mailhog")]

/-! ## Concrete providers -/

/-- A default-ports variant in the shape of `haproxy.NewDefaultPorts()`: host port bindings
and nothing else. -/
def portsOnly (port hostPort : String) : Service :=
  { Config := { Image := "", Labels := GoMap.nil },
    HostConfig := { PortBindings := GoMap.mk [(port, [PortBinding.mk "" hostPort])] },
    Defaults := none }

/-- A provider default with the given image, name and weight and the defaults label
"true". -/
def providerDefault (image name weight : String) : Service :=
  labelled image [("pygmy.defaults", "true"), ("pygmy.name", name), ("pygmy.weight", weight)]

/-- Providers in the shape of the compiled-in ones, with the given weights for the reverse
proxy and the mail capture. -/
def providersWithWeights (haproxyWeight mailhogWeight : String) : Providers :=
  { agentNew := providerDefault "amazeeio/ssh-agent" "amazeeio-ssh-agent" "30",
    keyNewAdder := providerDefault "amazeeio/ssh-agent" "amazeeio-ssh-agent-add-key" "31",
    dnsmasqNew := fun _ => providerDefault "andyshinn/dnsmasq" "amazeeio-dnsmasq" "13",
    haproxyNew := fun _ => providerDefault "amazeeio/haproxy" "amazeeio-haproxy" haproxyWeight,
    mailhogNew := fun _ => providerDefault "mailhog/mailhog" "amazeeio-mailhog" mailhogWeight,
    haproxyNewDefaultPorts := portsOnly "80/tcp" "80",
    mailhogNewDefaultPorts := portsOnly "1025/tcp" "1025" }

/-- Providers whose defaults carry no defaults label, so that nothing is imported. -/
def quietProviders : Providers :=
  { agentNew := labelled "amazeeio/ssh-agent" [],
    keyNewAdder := labelled "amazeeio/ssh-agent" [],
    dnsmasqNew := fun _ => labelled "andyshinn/dnsmasq" [],
    haproxyNew := fun _ => labelled "amazeeio/haproxy" [],
    mailhogNew := fun _ => labelled "mailhog/mailhog" [],
    haproxyNewDefaultPorts := portsOnly "80/tcp" "80",
    mailhogNewDefaultPorts := portsOnly "1025/tcp" "1025" }

/-- The config a run leaves, if the run returns. -/
def Outcome.config : Outcome → Option Config
  | Outcome.done c => some c
  | _ => none

/-- The five known identifiers, in the order `Setup` imports them. -/
def knownServices : List String :=
  ["amazeeio-ssh-agent", "amazeeio-ssh-agent-add-key", "amazeeio-dnsmasq", "amazeeio-haproxy",
   "amazeeio-mailhog"]

/-- An override config that names the reverse proxy with an image of its own and nothing
else. -/
def customProxy : Config :=
  configOf (GoMap.mk [("amazeeio-haproxy", labelled "custom/image" [])])

/-- An override entry whose port-binding map is declared and empty: the map is not nil and
holds no binding. -/
def emptyPorts : Service :=
  { Config := { Image := "custom/image", Labels := GoMap.nil },
    HostConfig := { PortBindings := GoMap.mk [] }, Defaults := none }

/-- An override config that names the reverse proxy with an empty port-binding map. -/
def portlessProxy : Config :=
  configOf (GoMap.mk [("amazeeio-haproxy", emptyPorts)])

/-! ## A second run, entry by entry -/

/-- The config `Setup` holds after `viper.Unmarshal`: the domain step, the registration of
the resolver default and the decoding of the store. -/
def decoded (E : Environment) (c : Config) : Config :=
  E.Unmarshal (registeredResolvers E (defaultDomain E c)) (defaultDomain E c)

/-- The entry list after an assignment to the slot of `k` that takes place only if there is
a value to assign. -/
def setSlot (k : String) (s : Option Service) (l : List (String × Service)) :
    List (String × Service) :=
  match s with
  | some v => assignKey k v l
  | none => l

/-- What a call of `ImportDefaults` with the provider default `importer` leaves in the slot
of its key, given what the slot held: the three rules and the fall-through on an existing
entry, the install on an absent one. -/
def importSlot (X : Externals) (importer : Service) (slot : Option Service) : Option Service :=
  match slot with
  | some container =>
    if defaultsLabelSet container then some (X.getService importer Service.zero)
    else if (X.GetFieldBool container "defaults").1 then
      some (X.getService importer container)
    else if defaultsLabelSet importer then some (X.getService importer container)
    else some container
  | none =>
    if (X.GetFieldBool importer "defaults").1 then some (X.getService importer Service.zero)
    else none

/-- What a backfill step with the default-ports variant `defaultPorts` leaves in the slot of
its key, given what the slot held. -/
def backfillSlot (X : Externals) (defaultPorts : Service) (slot : Option Service) :
    Option Service :=
  if mapIsNil (slot.getD Service.zero).HostConfig.PortBindings then
    some (X.getService defaultPorts (slot.getD Service.zero))
  else slot

/-- One statement of the services passes on the entry list: the slot of `k` receives what
`f` makes of it. -/
def slotStep (f : Option Service → Option Service) (k : String) (l : List (String × Service)) :
    List (String × Service) :=
  setSlot k (f (lookupKey k l)) l

/-- The entry list the five `ImportDefaults` calls and the two backfill steps of `Setup`
leave, in source order. -/
def servicesList (X : Externals) (P : Providers) (domain : String)
    (l : List (String × Service)) : List (String × Service) :=
  slotStep (backfillSlot X P.mailhogNewDefaultPorts) "amazeeio-mailhog"
    (slotStep (backfillSlot X P.haproxyNewDefaultPorts) "amazeeio-haproxy"
      (slotStep (importSlot X (P.mailhogNew domain)) "amazeeio-mailhog"
        (slotStep (importSlot X (P.haproxyNew domain)) "amazeeio-haproxy"
          (slotStep (importSlot X (P.dnsmasqNew domain)) "amazeeio-dnsmasq"
            (slotStep (importSlot X P.keyNewAdder) "amazeeio-ssh-agent-add-key"
              (slotStep (importSlot X P.agentNew) "amazeeio-ssh-agent" l))))))

/-- What the services passes of `Setup` make of the slot of `k`: a call of `ImportDefaults`
for each known identifier, followed by a backfill step for the reverse proxy and the mail
capture; every other slot is left alone. -/
def finalSlot (X : Externals) (P : Providers) (domain : String) (k : String)
    (slot : Option Service) : Option Service :=
  if k = "amazeeio-ssh-agent" then importSlot X P.agentNew slot
  else if k = "amazeeio-ssh-agent-add-key" then importSlot X P.keyNewAdder slot
  else if k = "amazeeio-dnsmasq" then importSlot X (P.dnsmasqNew domain) slot
  else if k = "amazeeio-haproxy" then
    backfillSlot X P.haproxyNewDefaultPorts (importSlot X (P.haproxyNew domain) slot)
  else if k = "amazeeio-mailhog" then
    backfillSlot X P.mailhogNewDefaultPorts (importSlot X (P.mailhogNew domain) slot)
  else slot

/-- The five known identifiers with their provider defaults for a domain and, where the
port-binding backfill applies, the default-ports variant. -/
def knownProviders (P : Providers) (domain : String) :
    List (String × Service × Option Service) :=
  [("amazeeio-ssh-agent", P.agentNew, none),
   ("amazeeio-ssh-agent-add-key", P.keyNewAdder, none),
   ("amazeeio-dnsmasq", P.dnsmasqNew domain, none),
   ("amazeeio-haproxy", P.haproxyNew domain, some P.haproxyNewDefaultPorts),
   ("amazeeio-mailhog", P.mailhogNew domain, some P.mailhogNewDefaultPorts)]

/-- The backfill step for a known identifier, where there is one. -/
def portsSlot (X : Externals) (defaultPorts : Option Service) (slot : Option Service) :
    Option Service :=
  match defaultPorts with
  | some dp => backfillSlot X dp slot
  | none => slot

/-- The entry a backfill step leaves for a known identifier, where there is such a step:
the default ports merged in when the entry has no port bindings, the entry itself
otherwise. -/
def withPorts (X : Externals) (defaultPorts : Option Service) (entry : Service) : Service :=
  match defaultPorts with
  | some dp => fillPorts X dp entry
  | none => entry

/-- An entry of a known service that a call of `ImportDefaults` and the backfill step write
back as it is.  With a truthy defaults label (rule 1) it is the provider default merged into
the zero service, with the default ports where that has none; opting in by its flag or by the
label of the provider default (rules 2 and 3), it is unchanged by the merge of the provider
default under it and by the backfill; opting into nothing, it is unchanged by the
backfill. -/
def Settled (X : Externals) (importer : Service) (defaultPorts : Option Service)
    (entry : Service) : Prop :=
  (defaultsLabelSet entry = true →
    withPorts X defaultPorts (X.getService importer Service.zero) = entry) ∧
  (defaultsLabelSet entry = false →
    (X.GetFieldBool entry "defaults").1 = true ∨ defaultsLabelSet importer = true →
    withPorts X defaultPorts (X.getService importer entry) = entry) ∧
  (defaultsLabelSet entry = false → (X.GetFieldBool entry "defaults").1 = false →
    defaultsLabelSet importer = false → withPorts X defaultPorts entry = entry)

/-- The slot of a known identifier at the start of the second run (`start2`), against the
slot `start1` the first run started from and the slot `result` it left: the store has
restored what the first run started from; or the slot holds what the first run left, and an
entry it holds is `Settled`. -/
def EntryReproduced (X : Externals) (importer : Service) (defaultPorts : Option Service)
    (start1 start2 result : Option Service) : Prop :=
  start2 = start1 ∨
  (start2 = result ∧ ∀ entry, result = some entry → Settled X importer defaultPorts entry)

/-- The services map at the start of the second run (`c2`), against the map the first run
started from (`c1`) and the config `r` it left: the store has restored the whole map; or
the map has the keys of `r`, the keys the first run started from being distinct, every
known identifier satisfies `EntryReproduced`, and every other entry is as the first run
left it. -/
def ServicesReproduced (X : Externals) (P : Providers) (c1 c2 r : Config) : Prop :=
  c2.Services = c1.Services ∨
  ((mapKeys c1.Services).Nodup ∧ mapIsNil c2.Services = mapIsNil r.Services ∧
    mapKeys c2.Services = mapKeys r.Services ∧
    (∀ kp ∈ knownProviders P c1.Domain,
      EntryReproduced X kp.2.1 kp.2.2 (mapGet c1.Services kp.1) (mapGet c2.Services kp.1)
        (mapGet r.Services kp.1)) ∧
    (∀ k, k ∉ knownServices → mapGet c2.Services k = mapGet r.Services k))

/-- The networks map at the start of the second run: the one the first run started from, or
the one it left. -/
def NetworksReproduced (c1 c2 r : Config) : Prop :=
  c2.Networks = c1.Networks ∨ c2.Networks = r.Networks

/-- The volumes map at the start of the second run: the one the first run started from; or
the one it left, and, where defaulting is enabled, every volume of it finds under its name
the runtime lookup of that name merged with itself. -/
def VolumesReproduced (E : Environment) (c1 c2 r : Config) : Prop :=
  c2.Volumes = c1.Volumes ∨
  (c2.Volumes = r.Volumes ∧
    (c1.Defaults = true →
      ∀ e ∈ mapRange r.Volumes,
        mapGet r.Volumes e.2.Name
          = some (E.getVolume (E.DockerVolumeGet e.2.Name).1 (E.DockerVolumeGet e.2.Name).1)))

/-- Providers as `providersWithWeights "14" "15"`, the default of the DNS service carrying
no defaults label. -/
def mixedProviders : Providers :=
  { providersWithWeights "14" "15" with
    dnsmasqNew := fun _ =>
      labelled "andyshinn/dnsmasq" [("pygmy.name", "amazeeio-dnsmasq"), ("pygmy.weight", "13")] }

/-- A config with a service of the user, an override entry for the reverse proxy that
carries a truthy defaults label, and a volume stored under its name. -/
def overrideConfig : Config :=
  { Domain := "docker.amazee.io", Defaults := true,
    Services := GoMap.mk
      [("web", labelled "nginx" [("pygmy.name", "web"), ("pygmy.weight", "50")]),
       ("amazeeio-haproxy", labelled "custom/image" [("pygmy.defaults", "true")])],
    Networks := GoMap.nil,
    Volumes := GoMap.mk [("data", { Name := "data", Attributes := [] })],
    SortedServices := [] }

/-- External inputs as `runtimeWithVolumes`, with a store that also holds an override entry
for the mail capture, an image of its own and nothing else: decoding writes that entry into
the services map. -/
def storeWithOverride : Environment :=
  { runtimeWithVolumes with
    Unmarshal := fun x c =>
      withServices (unmarshalSettings true "docker.amazee.io" x c)
        (GoMap.mk (assignKey "amazeeio-mailhog" (labelled "custom/mailhog" [])
          (mapRange c.Services))) }

/-- The config a run on `overrideConfig` leaves with `mixedProviders` and
`storeWithOverride`: the service of the user is kept, the entry for the reverse proxy is
replaced by the provider default with the default ports, the entry of the store for the
mail capture keeps its image and takes the rest from the provider default, two more defaults
are installed, and the DNS service, whose default opts into nothing, is absent. -/
def overrideRun : Config :=
  { Domain := "docker.amazee.io", Defaults := true,
    Services := GoMap.mk
      [("web", labelled "nginx" [("pygmy.name", "web"), ("pygmy.weight", "50")]),
       ("amazeeio-haproxy", fillPorts specExternals (portsOnly "80/tcp" "80")
          (providerDefault "amazeeio/haproxy" "amazeeio-haproxy" "14")),
       ("amazeeio-mailhog", fillPorts specExternals (portsOnly "1025/tcp" "1025")
          (getService (providerDefault "mailhog/mailhog" "amazeeio-mailhog" "15")
            (labelled "custom/mailhog" []))),
       ("amazeeio-ssh-agent", providerDefault "amazeeio/ssh-agent" "amazeeio-ssh-agent" "30"),
       ("amazeeio-ssh-agent-add-key",
          providerDefault "amazeeio/ssh-agent" "amazeeio-ssh-agent-add-key" "31")],
    Networks := GoMap.mk [("amazeeio-network", { Name := "amazeeio-network", Attributes := [] })],
    Volumes := GoMap.mk [("data", { Name := "data", Attributes := [("Driver", "local")] })],
    SortedServices := ["amazeeio-haproxy", "amazeeio-mailhog", "amazeeio-ssh-agent",
      "amazeeio-ssh-agent-add-key", "web"] }

/-! # Theorems -/

/-! ## Lemmas on Go maps -/

theorem lookupKey_assignKey_self {V : Type} (k : String) (v : V) (l : List (String × V)) :
    lookupKey k (assignKey k v l) = some v := by
  induction l with
  | nil => simp [assignKey, lookupKey]
  | cons e rest ih =>
    obtain ⟨k', v'⟩ := e
    by_cases h : k' = k
    · simp [assignKey, lookupKey, h]
    · simp [assignKey, lookupKey, h, ih]

theorem lookupKey_assignKey_ne {V : Type} (k k2 : String) (v : V) (l : List (String × V))
    (hne : k2 ≠ k) : lookupKey k2 (assignKey k v l) = lookupKey k2 l := by
  induction l with
  | nil =>
    have h : ¬ k = k2 := fun h => hne h.symm
    simp [assignKey, lookupKey, h]
  | cons e rest ih =>
    obtain ⟨k', v'⟩ := e
    by_cases h : k' = k
    · have h2 : ¬ k = k2 := fun h => hne h.symm
      subst h
      simp [assignKey, lookupKey, h2]
    · by_cases h3 : k' = k2
      · subst h3
        simp [assignKey, lookupKey, h]
      · simp [assignKey, lookupKey, h, h3, ih]

theorem mapGet_eq_some_mk {V : Type} {m : GoMap V} {k : String} {v : V}
    (h : mapGet m k = some v) : ∃ l, m = GoMap.mk l := by
  cases m with
  | nil => simp [mapGet] at h
  | mk l => exact ⟨l, rfl⟩

theorem mergeInto_mk (X : Externals) (c : Config) (l : List (String × Service))
    (service : String) (importer : Service) (hl : c.Services = GoMap.mk l) :
    mergeInto X c service importer
      = some (withServices c (GoMap.mk
          (assignKey service (X.getService importer ((lookupKey service l).getD Service.zero)) l))) := by
  simp [mergeInto, setService, mapSet, mapIndex, mapGet, hl]

/-- The in-place merge on an initialised map returns and leaves the merged entry under the
key. -/
theorem mergeInto_spec (X : Externals) (c : Config) (service : String) (importer : Service)
    (hinit : mapIsNil c.Services = false) :
    ∃ c2, mergeInto X c service importer = some c2 ∧
      mapGet c2.Services service
        = some (X.getService importer (mapIndex Service.zero c.Services service)) ∧
      (∀ k, k ≠ service → mapGet c2.Services k = mapGet c.Services k) := by
  cases hs : c.Services with
  | nil => simp [hs, mapIsNil] at hinit
  | mk l =>
    refine ⟨_, mergeInto_mk X c l service importer hs, ?_, ?_⟩
    · simp [withServices, mapGet, mapIndex, lookupKey_assignKey_self]
    · intro k hk
      simp [withServices, mapGet, lookupKey_assignKey_ne _ _ _ _ hk]

/-! ## ImportDefaults -/

/-- Claim C1: when the services map already holds the key with the label "pygmy.defaults"
equal to "1" or "true", ImportDefaults returns true and the entry under the key becomes
getService(providerDefault, Service{}), whatever the prior entry held. -/
theorem C1_label_forces_full_replacement (X : Externals) (c : Config) (service : String)
    (importer container : Service)
    (hget : mapGet c.Services service = some container)
    (hlabel : mapGet container.Config.Labels "pygmy.defaults" = some "1" ∨
      mapGet container.Config.Labels "pygmy.defaults" = some "true") :
    ∃ c2, ImportDefaults X c service importer = some (c2, true) ∧
      mapGet c2.Services service = some (X.getService importer Service.zero) := by
  obtain ⟨l, hl⟩ := mapGet_eq_some_mk hget
  have hset : defaultsLabelSet container = true := by
    rcases hlabel with h | h <;> simp [defaultsLabelSet, h]
  have h1 : setService c service Service.zero
      = some (withServices c (GoMap.mk (assignKey service Service.zero l))) := by
    simp [setService, mapSet, hl]
  refine ⟨withServices c (GoMap.mk
      (assignKey service (X.getService importer Service.zero)
        (assignKey service Service.zero l))), ?_, ?_⟩
  · have h2 := mergeInto_mk X (withServices c (GoMap.mk (assignKey service Service.zero l)))
      (assignKey service Service.zero l) service importer rfl
    rw [ImportDefaults, hget]
    simp only [hset, if_true, h1, Option.some_bind, h2, Option.map_some']
    simp [withServices, lookupKey_assignKey_self]
  · simp [withServices, mapGet, lookupKey_assignKey_self]

theorem C1_label_forces_full_replacement_witness :
    ∃ c2, ImportDefaults specExternals
        (configOf (GoMap.mk [("amazeeio-haproxy",
          labelled "custom/image" [("pygmy.defaults", "true"), ("custom", "x")])]))
        "amazeeio-haproxy" plainDefault = some (c2, true) ∧
      mapGet c2.Services "amazeeio-haproxy"
        = some (specExternals.getService plainDefault Service.zero) :=
  C1_label_forces_full_replacement specExternals _ "amazeeio-haproxy" plainDefault
    (labelled "custom/image" [("pygmy.defaults", "true"), ("custom", "x")])
    (by decide) (Or.inr (by decide))

/-- Claim C2: when nothing opts into defaults (the existing entry's label is not truthy and
its defaults flag reads false, the provider default's label is not truthy, and for a key
that is absent the provider default's flag reads false), ImportDefaults returns false and
the config is exactly as before. -/
theorem C2_no_opt_in_returns_false_unchanged (X : Externals) (c : Config) (service : String)
    (importer : Service)
    (hexisting : ∀ container, mapGet c.Services service = some container →
      defaultsLabelSet container = false ∧ (X.GetFieldBool container "defaults").1 = false)
    (hprovider : defaultsLabelSet importer = false)
    (habsent : mapGet c.Services service = none →
      (X.GetFieldBool importer "defaults").1 = false) :
    ImportDefaults X c service importer = some (c, false) := by
  cases hget : mapGet c.Services service with
  | none => simp [ImportDefaults, hget, habsent hget]
  | some container =>
    obtain ⟨h1, h2⟩ := hexisting container hget
    simp [ImportDefaults, hget, h1, h2, hprovider]

theorem C2_no_opt_in_returns_false_unchanged_witness :
    ImportDefaults specExternals
        (configOf (GoMap.mk [("amazeeio-haproxy",
          labelled "custom/image" [("pygmy.defaults", "false")])]))
        "amazeeio-haproxy" plainDefault
      = some (configOf (GoMap.mk [("amazeeio-haproxy",
          labelled "custom/image" [("pygmy.defaults", "false")])]), false) :=
  C2_no_opt_in_returns_false_unchanged specExternals _ "amazeeio-haproxy" plainDefault
    (by
      intro container h
      have hc : container = labelled "custom/image" [("pygmy.defaults", "false")] := by
        simp [configOf, mapGet, lookupKey] at h
        exact h.symm
      subst hc
      exact ⟨by decide, by decide⟩)
    (by decide)
    (by
      intro h
      simp [configOf, mapGet, lookupKey] at h)

/-! ## The merge modelled from the spec -/

theorem lookupKey_foldr_assignKey {V : Type} (k : String) (base l : List (String × V)) :
    lookupKey k (l.foldr (fun kv acc => assignKey kv.1 kv.2 acc) base)
      = match lookupKey k l with
        | some v => some v
        | none => lookupKey k base := by
  induction l with
  | nil => simp [lookupKey]
  | cons e rest ih =>
    obtain ⟨k', v'⟩ := e
    by_cases h : k' = k
    · subst h
      simp [lookupKey, lookupKey_assignKey_self]
    · have h2 : k ≠ k' := fun h2 => h h2.symm
      simp only [List.foldr_cons, lookupKey, h, if_false]
      rw [lookupKey_assignKey_ne _ _ _ _ h2, ih]

theorem mapGet_mergeMap {V : Type} (s c : GoMap V) (k : String) :
    mapGet (mergeMap s c) k
      = match mapGet c k with
        | some v => some v
        | none => mapGet s k := by
  cases c with
  | nil => simp [mergeMap, mapRange, mapGet]
  | mk l =>
    cases l with
    | nil => simp [mergeMap, mapRange, mapGet, lookupKey]
    | cons e es =>
      have hs : lookupKey k (mapRange s) = mapGet s k := by
        cases s <;> simp [mapRange, mapGet, lookupKey]
      have hm : mergeMap s (GoMap.mk (e :: es))
          = GoMap.mk ((e :: es).foldr (fun kv acc => assignKey kv.1 kv.2 acc) (mapRange s)) := rfl
      rw [hm]
      show lookupKey k _ = match lookupKey k (e :: es) with
        | some v => some v
        | none => mapGet s k
      rw [lookupKey_foldr_assignKey, hs]

theorem getService_overrideWins (d o : Service) : OverrideWins d o (getService d o) := by
  refine ⟨?_, ?_, ?_, ?_, ?_, ?_, ?_, ?_⟩
  · intro h
    simp [getService, h]
  · intro h
    simp [getService, h]
  · intro h
    cases ho : o.Defaults with
    | none => exact absurd ho h
    | some b => simp [getService, ho]
  · intro h
    simp [getService, h]
  · intro k v h
    simp [getService, mapGet_mergeMap, h]
  · intro k h
    simp [getService, mapGet_mergeMap, h]
  · intro k v h
    simp [getService, mapGet_mergeMap, h]
  · intro k h
    simp [getService, mapGet_mergeMap, h]

theorem getService_zero (d : Service) : getService d Service.zero = d := by
  simp [getService, Service.zero, mergeMap, mapRange]

/-! ## ImportDefaults, continued -/

/-- Through the label alone the flag does not read truthy without rule 1 applying: when the
typed defaults field is not set and the accessor of the spec reads the flag truthy, the
entry carries a truthy defaults label. -/
theorem flag_by_label (s : Service) (htyped : s.Defaults = none)
    (hflag : (GetFieldBool s "defaults").1 = true) : defaultsLabelSet s = true := by
  unfold GetFieldBool typedBool labelField at hflag
  unfold defaultsLabelSet
  simp only [htyped, if_true] at hflag
  have hkey : "pygmy." ++ "defaults" = "pygmy.defaults" := by decide
  rw [hkey] at hflag
  cases hget : mapGet s.Config.Labels "pygmy.defaults" with
  | none => simp [hget] at hflag
  | some v =>
    rw [hget] at hflag
    by_cases hv : v = "1" ∨ v = "true"
    · rcases hv with rfl | rfl <;> rfl
    · simp [hv] at hflag

/-- Claim C8: when the existing entry's defaults flag reads truthy and the full-replacement
rule does not apply (the entry carries no truthy defaults label), ImportDefaults returns true
and the entry becomes getService(providerDefault, existing entry); on the merge of §4.1
every leaf the override sets is unchanged and every leaf it leaves empty takes the provider
default's value. -/
theorem C8_flag_merges_in_place (X : Externals) (c : Config) (service : String)
    (importer container : Service)
    (hget : mapGet c.Services service = some container)
    (hnolabel : defaultsLabelSet container = false)
    (hflag : (X.GetFieldBool container "defaults").1 = true) :
    (∃ c2, ImportDefaults X c service importer = some (c2, true) ∧
      mapGet c2.Services service = some (X.getService importer container)) ∧
    OverrideWins importer container (getService importer container) := by
  refine ⟨?_, getService_overrideWins importer container⟩
  obtain ⟨l, hl⟩ := mapGet_eq_some_mk hget
  obtain ⟨c2, h1, h2, -⟩ := mergeInto_spec X c service importer (by simp [hl, mapIsNil])
  refine ⟨c2, ?_, ?_⟩
  · simp [ImportDefaults, hget, hnolabel, hflag, h1]
  · simpa [mapIndex, hget] using h2

theorem C8_flag_merges_in_place_witness :
    defaultsLabelSet flagOnly = false ∧
    (specExternals.GetFieldBool flagOnly "defaults").1 = true ∧
    (∃ c2, ImportDefaults specExternals (configOf (GoMap.mk [("amazeeio-haproxy", flagOnly)]))
        "amazeeio-haproxy" plainDefault = some (c2, true) ∧
      mapGet c2.Services "amazeeio-haproxy"
        = some (specExternals.getService plainDefault flagOnly)) ∧
    OverrideWins plainDefault flagOnly (getService plainDefault flagOnly) :=
  ⟨by decide, by decide,
    C8_flag_merges_in_place specExternals (configOf (GoMap.mk [("amazeeio-haproxy", flagOnly)]))
      "amazeeio-haproxy" plainDefault flagOnly (by decide) (by decide) (by decide)⟩

/-- Claim C9, as stated, fails: on a config whose services map is nil the key is absent and
the provider default's flag reads truthy, yet the call panics on the map write instead of
returning true. -/
theorem C9_counterexample_nil_map :
    mapGet (configOf GoMap.nil).Services "amazeeio-haproxy" = none ∧
    (specExternals.GetFieldBool sampleDefault "defaults").1 = true ∧
    ImportDefaults specExternals (configOf GoMap.nil) "amazeeio-haproxy" sampleDefault = none := by
  decide

/-- Claim C9, amended: on an initialised services map that does not contain the key,
ImportDefaults returns true and installs getService(providerDefault, Service{}) under the
key when the provider default's defaults flag reads truthy, and otherwise returns false and
leaves the config, in which the key is absent, as it was; on the merge of §4.1 the installed
entry is the provider default itself. -/
theorem C9_absent_key_follows_provider_flag (X : Externals) (c : Config) (service : String)
    (importer : Service)
    (hinit : mapIsNil c.Services = false)
    (habsent : mapGet c.Services service = none) :
    ((X.GetFieldBool importer "defaults").1 = true →
      ∃ c2, ImportDefaults X c service importer = some (c2, true) ∧
        mapGet c2.Services service = some (X.getService importer Service.zero)) ∧
    ((X.GetFieldBool importer "defaults").1 = false →
      ImportDefaults X c service importer = some (c, false)) ∧
    getService importer Service.zero = importer := by
  refine ⟨?_, ?_, getService_zero importer⟩
  · intro hflag
    obtain ⟨c2, h1, h2, -⟩ := mergeInto_spec X c service importer hinit
    refine ⟨c2, ?_, ?_⟩
    · simp [ImportDefaults, habsent, hflag, h1]
    · simpa [mapIndex, habsent] using h2
  · intro hflag
    simp [ImportDefaults, habsent, hflag]

theorem C9_absent_key_follows_provider_flag_witness :
    ((specExternals.GetFieldBool sampleDefault "defaults").1 = true →
      ∃ c2, ImportDefaults specExternals (configOf (GoMap.mk [])) "amazeeio-haproxy"
          sampleDefault = some (c2, true) ∧
        mapGet c2.Services "amazeeio-haproxy"
          = some (specExternals.getService sampleDefault Service.zero)) ∧
    ((specExternals.GetFieldBool sampleDefault "defaults").1 = false →
      ImportDefaults specExternals (configOf (GoMap.mk [])) "amazeeio-haproxy" sampleDefault
        = some (configOf (GoMap.mk []), false)) ∧
    getService sampleDefault Service.zero = sampleDefault :=
  C9_absent_key_follows_provider_flag specExternals (configOf (GoMap.mk []))
    "amazeeio-haproxy" sampleDefault (by decide) (by decide)

/-- Claim C10, as stated, fails: the existing entry has its defaults label set to "false"
and its flag reads false, yet with a provider default whose own label is "true"
ImportDefaults returns true and replaces the entry by the merge. -/
theorem C10_counterexample_provider_label :
    defaultsLabelSet optedOut = false ∧
    (specExternals.GetFieldBool optedOut "defaults").1 = false ∧
    ImportDefaults specExternals (configOf (GoMap.mk [("amazeeio-haproxy", optedOut)]))
        "amazeeio-haproxy" sampleDefault
      = some (configOf (GoMap.mk [("amazeeio-haproxy",
          labelled "custom/image" [("pygmy.defaults", "false"),
            ("pygmy.name", "amazeeio-haproxy"), ("pygmy.weight", "14")])]), true) := by
  decide

/-- Claim C10, amended: for an existing entry whose "pygmy.defaults" label is absent or not
truthy and whose defaults flag reads false, ImportDefaults returns false and leaves the
config unchanged when the provider default's own "pygmy.defaults" label is absent or not
truthy; when that label is "1" or "true" it returns true and the entry becomes
getService(providerDefault, existing entry). -/
theorem C10_opt_out_depends_on_provider_label (X : Externals) (c : Config) (service : String)
    (importer container : Service)
    (hget : mapGet c.Services service = some container)
    (hnolabel : defaultsLabelSet container = false)
    (hflag : (X.GetFieldBool container "defaults").1 = false) :
    (defaultsLabelSet importer = false →
      ImportDefaults X c service importer = some (c, false)) ∧
    (defaultsLabelSet importer = true →
      ∃ c2, ImportDefaults X c service importer = some (c2, true) ∧
        mapGet c2.Services service = some (X.getService importer container)) := by
  constructor
  · intro hp
    simp [ImportDefaults, hget, hnolabel, hflag, hp]
  · intro hp
    obtain ⟨l, hl⟩ := mapGet_eq_some_mk hget
    obtain ⟨c2, h1, h2, -⟩ := mergeInto_spec X c service importer (by simp [hl, mapIsNil])
    refine ⟨c2, ?_, ?_⟩
    · simp [ImportDefaults, hget, hnolabel, hflag, hp, h1]
    · simpa [mapIndex, hget] using h2

theorem C10_opt_out_depends_on_provider_label_witness :
    (defaultsLabelSet plainDefault = false →
      ImportDefaults specExternals (configOf (GoMap.mk [("amazeeio-haproxy", optedOut)]))
        "amazeeio-haproxy" plainDefault
        = some (configOf (GoMap.mk [("amazeeio-haproxy", optedOut)]), false)) ∧
    (defaultsLabelSet plainDefault = true →
      ∃ c2, ImportDefaults specExternals
          (configOf (GoMap.mk [("amazeeio-haproxy", optedOut)]))
          "amazeeio-haproxy" plainDefault = some (c2, true) ∧
        mapGet c2.Services "amazeeio-haproxy"
          = some (specExternals.getService plainDefault optedOut)) :=
  C10_opt_out_depends_on_provider_label specExternals
    (configOf (GoMap.mk [("amazeeio-haproxy", optedOut)])) "amazeeio-haproxy" plainDefault
    optedOut (by decide) (by decide) (by decide)

/-! ## Validation pass -/

theorem validateService_status (X : Externals) (id : String) (service : Service) (f : Fatal)
    (h : validateService X id service = some f) : f.status = 2 := by
  unfold validateService at h
  simp only at h
  split_ifs at h <;> simp at h <;> rw [← h]

theorem validateEntries_status (X : Externals) (l : List (String × Service)) (f : Fatal)
    (h : validateEntries X l = some f) : f.status = 2 := by
  induction l with
  | nil => simp [validateEntries] at h
  | cons e rest ih =>
    obtain ⟨id, service⟩ := e
    simp only [validateEntries] at h
    cases hv : validateService X id service with
    | none =>
      rw [hv] at h
      exact ih h
    | some g =>
      rw [hv] at h
      simp at h
      subst h
      exact validateService_status X id service g hv

theorem validateService_empty_image (X : Externals) (id : String) (service : Service)
    (h : service.Config.Image = "") : ∃ f, validateService X id service = some f := by
  unfold validateService
  simp only
  split_ifs <;> simp

theorem validateEntries_empty_image (X : Externals) (l : List (String × Service))
    (h : ∃ e ∈ l, e.2.Config.Image = "") : ∃ f, validateEntries X l = some f := by
  induction l with
  | nil => simp at h
  | cons e rest ih =>
    obtain ⟨id, service⟩ := e
    simp only [validateEntries]
    cases hv : validateService X id service with
    | some g => exact ⟨g, rfl⟩
    | none =>
      obtain ⟨e2, he2, himg⟩ := h
      rcases List.mem_cons.1 he2 with heq | hmem
      · subst heq
        obtain ⟨f, hf⟩ := validateService_empty_image X id service himg
        rw [hf] at hv
        cases hv
      · exact ih ⟨e2, hmem, himg⟩

theorem validateEntries_none (X : Externals) (l : List (String × Service))
    (h : ∀ e ∈ l, validateService X e.1 e.2 = none) : validateEntries X l = none := by
  induction l with
  | nil => rfl
  | cons e rest ih =>
    obtain ⟨id, service⟩ := e
    have h1 : validateService X id service = none := h (id, service) (List.mem_cons_self _ _)
    simp only [validateEntries, h1]
    exact ih fun e2 he2 => h e2 (List.mem_cons_of_mem _ he2)

/-- Claim C5 is right and the code misses it: a services map in which every image is set
passes the validation pass although the name of every service reads empty, so Setup
completes with services that have no name. -/
theorem C5_empty_name_passes_validation (X : Externals) (services : GoMap Service)
    (himage : ∀ e ∈ mapRange services, e.2.Config.Image ≠ "")
    (hname : ∀ e ∈ mapRange services, (X.GetFieldString e.2 "name").1 = "") :
    validate X services = none := by
  apply validateEntries_none
  intro e he
  simp [validateService, hname e he, himage e he]

theorem C5_empty_name_passes_validation_witness :
    validate specExternals (GoMap.mk [("web", labelled "nginx" [])]) = none :=
  C5_empty_name_passes_validation specExternals (GoMap.mk [("web", labelled "nginx" [])])
    (by decide) (by decide)

/-- Claim C6: a services map that contains a service with an empty image reference makes
the validation pass terminate the process with status 2, and 2 is the only status the
validation pass produces on any services map. -/
theorem C6_empty_image_exits_with_status_two (X : Externals) (services : GoMap Service)
    (h : ∃ e ∈ mapRange services, e.2.Config.Image = "") :
    (∃ f, validate X services = some f ∧ f.status = 2) ∧
    (∀ (others : GoMap Service) (f : Fatal), validate X others = some f → f.status = 2) := by
  constructor
  · obtain ⟨f, hf⟩ := validateEntries_empty_image X (mapRange services) h
    exact ⟨f, hf, validateEntries_status X _ f hf⟩
  · intro others f hf
    exact validateEntries_status X _ f hf

theorem C6_empty_image_exits_with_status_two_witness :
    (∃ f, validate specExternals
        (GoMap.mk [("web", sampleDefault), ("db", labelled "" [("pygmy.name", "db")])])
        = some f ∧ f.status = 2) ∧
    (∀ (others : GoMap Service) (f : Fatal),
      validate specExternals others = some f → f.status = 2) :=
  C6_empty_image_exits_with_status_two specExternals
    (GoMap.mk [("web", sampleDefault), ("db", labelled "" [("pygmy.name", "db")])])
    ⟨("db", labelled "" [("pygmy.name", "db")]), by decide, by decide⟩

/-! ## Port-binding backfill -/

theorem mergeInto_initialised (X : Externals) (c c2 : Config) (service : String)
    (importer : Service) (h : mergeInto X c service importer = some c2) :
    mapIsNil c2.Services = false := by
  cases hs : c.Services with
  | nil => simp [mergeInto, setService, mapSet, hs] at h
  | mk l =>
    rw [mergeInto_mk X c l service importer hs] at h
    simp at h
    subst h
    rfl

theorem backfillOne_spec (X : Externals) (defaultPorts : Service) (key : String) (c : Config)
    (hinit : mapIsNil c.Services = false) :
    ∃ c2, backfillOne X defaultPorts key c = some c2 ∧
      mapIsNil c2.Services = false ∧
      (mapIsNil (mapIndex Service.zero c.Services key).HostConfig.PortBindings = false →
        c2 = c) ∧
      (mapIsNil (mapIndex Service.zero c.Services key).HostConfig.PortBindings = true →
        mapGet c2.Services key
          = some (X.getService defaultPorts (mapIndex Service.zero c.Services key))) ∧
      (∀ k, k ≠ key → mapGet c2.Services k = mapGet c.Services k) := by
  cases hpb : mapIsNil (mapIndex Service.zero c.Services key).HostConfig.PortBindings with
  | false =>
    refine ⟨c, ?_, hinit, fun _ => rfl, fun h => ?_, fun _ _ => rfl⟩
    · simp [backfillOne, hpb]
    · cases h
  | true =>
    obtain ⟨c2, h1, h2, h3⟩ := mergeInto_spec X c key defaultPorts hinit
    refine ⟨c2, ?_, mergeInto_initialised X c c2 key defaultPorts h1, fun h => ?_,
      fun _ => h2, h3⟩
    · simp [backfillOne, hpb, h1]
    · cases h

theorem setService_initialised (c c2 : Config) (service : String) (v : Service)
    (h : setService c service v = some c2) : mapIsNil c2.Services = false := by
  cases hs : c.Services with
  | nil => simp [setService, mapSet, hs] at h
  | mk l =>
    simp [setService, mapSet, hs] at h
    subst h
    rfl

theorem setService_returns (c : Config) (service : String) (v : Service)
    (hinit : mapIsNil c.Services = false) : ∃ c2, setService c service v = some c2 := by
  cases hs : c.Services with
  | nil => simp [hs, mapIsNil] at hinit
  | mk l => simp [setService, mapSet, hs]

/-- On an initialised services map `ImportDefaults` returns, and the map stays
initialised. -/
theorem ImportDefaults_returns (X : Externals) (c : Config) (service : String)
    (importer : Service) (hinit : mapIsNil c.Services = false) :
    ∃ r, ImportDefaults X c service importer = some r ∧ mapIsNil r.1.Services = false := by
  obtain ⟨cm, hm, -, -⟩ := mergeInto_spec X c service importer hinit
  have hmi := mergeInto_initialised X c cm service importer hm
  unfold ImportDefaults
  cases hget : mapGet c.Services service with
  | none =>
    simp only
    split_ifs
    · exact ⟨(cm, true), by simp [hm], hmi⟩
    · exact ⟨(c, false), rfl, hinit⟩
  | some container =>
    simp only
    split_ifs
    · obtain ⟨c1, h1⟩ := setService_returns c service Service.zero hinit
      have hi1 := setService_initialised c c1 service Service.zero h1
      obtain ⟨c2, h2, -, -⟩ := mergeInto_spec X c1 service importer hi1
      exact ⟨(c2, true), by simp [h1, h2], mergeInto_initialised X c1 c2 service importer h2⟩
    · exact ⟨(cm, true), by simp [hm], hmi⟩
    · exact ⟨(cm, true), by simp [hm], hmi⟩
    · exact ⟨(c, false), rfl, hinit⟩

theorem ensureServices_initialised (c : Config) :
    mapIsNil (ensureServices c).Services = false := by
  unfold ensureServices
  split_ifs with h
  · rfl
  · cases hs : c.Services with
    | nil => simp [hs, mapIsNil] at h
    | mk l => rfl

/-- The generic defaulting pass of `Setup` returns and leaves an initialised map. -/
theorem importPass_returns (X : Externals) (P : Providers) (c : Config)
    (hinit : mapIsNil c.Services = false) :
    ∃ c1, importPass X P c = some c1 ∧ mapIsNil c1.Services = false := by
  obtain ⟨r1, e1, i1⟩ := ImportDefaults_returns X c "amazeeio-ssh-agent" P.agentNew hinit
  obtain ⟨r2, e2, i2⟩ :=
    ImportDefaults_returns X r1.1 "amazeeio-ssh-agent-add-key" P.keyNewAdder i1
  obtain ⟨r3, e3, i3⟩ :=
    ImportDefaults_returns X r2.1 "amazeeio-dnsmasq" (P.dnsmasqNew r2.1.Domain) i2
  obtain ⟨r4, e4, i4⟩ :=
    ImportDefaults_returns X r3.1 "amazeeio-haproxy" (P.haproxyNew r3.1.Domain) i3
  obtain ⟨r5, e5, i5⟩ :=
    ImportDefaults_returns X r4.1 "amazeeio-mailhog" (P.mailhogNew r4.1.Domain) i4
  exact ⟨r5.1, by simp [importPass, e1, e2, e3, e4, e5], i5⟩

/-- Claim C7, as stated, fails: the override names the reverse proxy with a port-binding
map that is empty and not nil, and the providers opt into nothing, so the generic defaulting
pass leaves the config as it is; the entry has no host port binding, yet the backfill leaves
it as it was and it does not become getService(default-ports variant, entry). -/
theorem C7_counterexample_empty_port_map :
    importPass specExternals quietProviders (ensureServices portlessProxy) = some portlessProxy ∧
    mapGet portlessProxy.Services "amazeeio-haproxy" = some emptyPorts ∧
    mapRange emptyPorts.HostConfig.PortBindings = [] ∧
    (backfill specExternals quietProviders portlessProxy).bind
        (fun c2 => mapGet c2.Services "amazeeio-haproxy") = some emptyPorts ∧
    emptyPorts ≠ specExternals.getService quietProviders.haproxyNewDefaultPorts emptyPorts := by
  decide

/-- Claim C7, amended: Setup's generic defaulting pass returns a config c1 and the backfill
that follows returns a config c2; for each of "amazeeio-haproxy" and "amazeeio-mailhog" an
entry of c1 whose port-binding map is not nil, be it empty, is left exactly as it was, and
where the map is nil, as it is for an absent entry, the entry becomes
getService(default-ports variant, entry); no other entry is changed. -/
theorem C7_backfill_fills_only_missing_ports (X : Externals) (P : Providers) (c : Config) :
    ∃ c1, importPass X P (ensureServices c) = some c1 ∧
    ∃ c2, backfill X P c1 = some c2 ∧
      (∀ key defaultPorts,
        (key = "amazeeio-haproxy" ∧ defaultPorts = P.haproxyNewDefaultPorts) ∨
          (key = "amazeeio-mailhog" ∧ defaultPorts = P.mailhogNewDefaultPorts) →
        (mapIsNil (mapIndex Service.zero c1.Services key).HostConfig.PortBindings = false →
          mapGet c2.Services key = mapGet c1.Services key) ∧
        (mapIsNil (mapIndex Service.zero c1.Services key).HostConfig.PortBindings = true →
          mapGet c2.Services key
            = some (X.getService defaultPorts (mapIndex Service.zero c1.Services key)))) ∧
      (∀ k, k ≠ "amazeeio-haproxy" → k ≠ "amazeeio-mailhog" →
        mapGet c2.Services k = mapGet c1.Services k) := by
  obtain ⟨c0, e0, hinit⟩ := importPass_returns X P (ensureServices c)
    (ensureServices_initialised c)
  refine ⟨c0, e0, ?_⟩
  obtain ⟨c1, e1, i1, keep1, fill1, other1⟩ :=
    backfillOne_spec X P.haproxyNewDefaultPorts "amazeeio-haproxy" c0 hinit
  obtain ⟨c2, e2, -, keep2, fill2, other2⟩ :=
    backfillOne_spec X P.mailhogNewDefaultPorts "amazeeio-mailhog" c1 i1
  have hne : ("amazeeio-mailhog" : String) ≠ "amazeeio-haproxy" := by decide
  have hm : mapGet c1.Services "amazeeio-mailhog" = mapGet c0.Services "amazeeio-mailhog" :=
    other1 _ hne
  have hh : mapGet c2.Services "amazeeio-haproxy" = mapGet c1.Services "amazeeio-haproxy" :=
    other2 _ hne.symm
  have hidx : mapIndex Service.zero c1.Services "amazeeio-mailhog"
      = mapIndex Service.zero c0.Services "amazeeio-mailhog" := by
    simp [mapIndex, hm]
  refine ⟨c2, ?_, ?_, ?_⟩
  · simp [backfill, e1, e2]
  · intro key defaultPorts hkey
    rcases hkey with ⟨hk, hd⟩ | ⟨hk, hd⟩
    · subst hk hd
      constructor
      · intro hpb
        rw [hh, keep1 hpb]
      · intro hpb
        rw [hh, fill1 hpb]
    · subst hk hd
      constructor
      · intro hpb
        rw [← hidx] at hpb
        rw [keep2 hpb, hm]
      · intro hpb
        rw [← hidx] at hpb
        rw [fill2 hpb, hidx]
  · intro k hk1 hk2
    rw [other2 k hk2, other1 k hk1]

/-! ## Ordering pass: the string order -/

theorem lessChars_irrefl (a : List Char) : lessChars a a = false := by
  induction a with
  | nil => rfl
  | cons x xs ih => simp [lessChars, ih]

theorem lessChars_asymm (a b : List Char) (h : lessChars a b = true) :
    lessChars b a = false := by
  induction a generalizing b with
  | nil => cases b <;> simp [lessChars] at h ⊢
  | cons x xs ih =>
    cases b with
    | nil => simp [lessChars] at h
    | cons y ys =>
      simp only [lessChars] at h ⊢
      split_ifs at h ⊢
      all_goals first
        | rfl
        | omega
        | exact ih ys h

theorem lessChars_trans (a b c : List Char) (hab : lessChars a b = true)
    (hbc : lessChars b c = true) : lessChars a c = true := by
  induction a generalizing b c with
  | nil =>
    cases c with
    | nil => cases b <;> simp [lessChars] at hbc
    | cons z zs => rfl
  | cons x xs ih =>
    cases b with
    | nil => simp [lessChars] at hab
    | cons y ys =>
      cases c with
      | nil => simp [lessChars] at hbc
      | cons z zs =>
        simp only [lessChars] at hab hbc ⊢
        split_ifs at hab hbc ⊢
        all_goals first
          | rfl
          | omega
          | exact ih ys zs hab hbc

theorem strLess_irrefl (a : String) : strLess a a = false :=
  lessChars_irrefl a.data

theorem strLess_asymm (a b : String) (h : strLess a b = true) : strLess b a = false :=
  lessChars_asymm a.data b.data h

theorem strLess_trans (a b c : String) (hab : strLess a b = true) (hbc : strLess b c = true) :
    strLess a c = true :=
  lessChars_trans a.data b.data c.data hab hbc

/-! ## Ordering pass: sort.Strings -/

theorem insertSorted_perm (x : String) (l : List String) :
    (insertSorted x l).Perm (x :: l) := by
  induction l with
  | nil => exact List.Perm.refl _
  | cons y ys ih =>
    simp only [insertSorted]
    split_ifs
    · exact List.Perm.refl _
    · exact (List.Perm.cons y ih).trans (List.Perm.swap x y ys)

theorem sortStrings_perm (l : List String) : (sortStrings l).Perm l := by
  induction l with
  | nil => exact List.Perm.refl _
  | cons x xs ih =>
    exact (insertSorted_perm x (sortStrings xs)).trans (List.Perm.cons x ih)

/-- Ascending: no element is less than one before it. -/
theorem insertSorted_ascending (x : String) (l : List String)
    (h : l.Pairwise fun a b => strLess b a = false) :
    (insertSorted x l).Pairwise fun a b => strLess b a = false := by
  induction l with
  | nil => simp [insertSorted]
  | cons y ys ih =>
    have hy := List.pairwise_cons.1 h
    simp only [insertSorted]
    split_ifs with hxy
    · refine List.pairwise_cons.2 ⟨?_, h⟩
      intro z hz
      rcases List.mem_cons.1 hz with rfl | hz
      · exact strLess_asymm _ _ hxy
      · cases hzx : strLess z x with
        | false => rfl
        | true =>
          have hzy := strLess_trans z x y hzx hxy
          rw [hy.1 z hz] at hzy
          cases hzy
    · refine List.pairwise_cons.2 ⟨?_, ih hy.2⟩
      intro z hz
      rcases List.mem_cons.1 ((insertSorted_perm x ys).mem_iff.1 hz) with rfl | hz
      · simpa using hxy
      · exact hy.1 z hz

theorem sortStrings_ascending (l : List String) :
    (sortStrings l).Pairwise fun a b => strLess b a = false := by
  induction l with
  | nil => exact List.Pairwise.nil
  | cons x xs ih => exact insertSorted_ascending x _ ih

/-- In an ascending list a smaller element stands before a greater one. -/
theorem ascending_sublist (l : List String) (x y : String)
    (h : l.Pairwise fun a b => strLess b a = false)
    (hx : x ∈ l) (hy : y ∈ l) (hxy : strLess x y = true) : [x, y].Sublist l := by
  induction l with
  | nil => cases hx
  | cons z t ih =>
    have hz := List.pairwise_cons.1 h
    rcases List.mem_cons.1 hx with rfl | hxt
    · rcases List.mem_cons.1 hy with rfl | hyt
      · rw [strLess_irrefl] at hxy
        cases hxy
      · exact List.Sublist.cons₂ _ (List.singleton_sublist.2 hyt)
    · rcases List.mem_cons.1 hy with rfl | hyt
      · rw [hz.1 x hxt] at hxy
        cases hxy
      · exact List.Sublist.cons _ (ih hz.2 hxt hyt)

/-! ## Ordering pass: the sort key -/

theorem digitChar_ne_bar (d : Nat) : digitChar d ≠ '|' := by
  unfold digitChar
  split <;> decide

theorem decimalAux_no_bar (fuel n : Nat) (acc : List Char) (hacc : '|' ∉ acc) :
    '|' ∉ decimalAux fuel n acc := by
  induction fuel generalizing n acc with
  | zero => simpa [decimalAux] using hacc
  | succ f ih =>
    have hcons : '|' ∉ digitChar (n % 10) :: acc := by
      intro h
      rcases List.mem_cons.1 h with h | h
      · exact digitChar_ne_bar _ h.symm
      · exact hacc h
    simp only [decimalAux]
    split_ifs
    · exact hcons
    · exact ih _ _ hcons

theorem padZeros_no_bar (width : Nat) (ds : List Char) (h : '|' ∉ ds) :
    '|' ∉ padZeros width ds := by
  intro hmem
  rcases List.mem_append.1 hmem with h1 | h1
  · have := (List.mem_replicate.1 h1).2
    revert this
    decide
  · exact h h1

theorem fmt06d_no_bar (w : Int) : '|' ∉ fmt06d w := by
  have hd : ∀ n, '|' ∉ decimal n := fun n => decimalAux_no_bar _ _ _ (by simp)
  unfold fmt06d
  split_ifs
  · intro h
    rcases List.mem_cons.1 h with h | h
    · revert h
      decide
    · exact padZeros_no_bar _ _ (hd _) h
  · exact padZeros_no_bar _ _ (hd _)

/-- The first piece of a split is the text before the first separator. -/
theorem splitOn_head (sep : Char) (l : List Char) :
    ∃ t, splitOn sep l = l.takeWhile (fun c => !decide (c = sep)) :: t := by
  induction l with
  | nil => exact ⟨[], rfl⟩
  | cons c cs ih =>
    obtain ⟨t, ht⟩ := ih
    by_cases h : c = sep
    · exact ⟨splitOn sep cs, by simp [splitOn, h]⟩
    · exact ⟨t, by simp [splitOn, h, ht]⟩

theorem splitOn_append_sep (sep : Char) (pre rest : List Char) (h : sep ∉ pre) :
    splitOn sep (pre ++ sep :: rest) = pre :: splitOn sep rest := by
  induction pre with
  | nil => simp [splitOn]
  | cons c cs ih =>
    have hc : c ≠ sep := fun e => h (by simp [e])
    have hcs : sep ∉ cs := fun e => h (List.mem_cons_of_mem _ e)
    simp [splitOn, hc, ih hcs]

/-- The identifier a sort key is mapped back to: the text of the key up to its first "|". -/
theorem secondField_sortKey (w : Int) (key : String) :
    secondField (sortKey w key)
      = some (String.mk (key.data.takeWhile fun c => !decide (c = '|'))) := by
  obtain ⟨t, ht⟩ := splitOn_head '|' key.data
  simp [secondField, sortKey, splitOn_append_sep '|' _ _ (fmt06d_no_bar w), ht]

theorem takeWhile_no_bar (l : List Char) (h : '|' ∉ l) :
    l.takeWhile (fun c => !decide (c = '|')) = l := by
  induction l with
  | nil => rfl
  | cons c cs ih =>
    have hc : c ≠ '|' := fun e => h (by simp [e])
    have hcs : '|' ∉ cs := fun e => h (List.mem_cons_of_mem _ e)
    simp [List.takeWhile, hc, ih hcs]

theorem secondField_sortKey_of_no_bar (w : Int) (key : String) (h : '|' ∉ key.data) :
    secondField (sortKey w key) = some key := by
  rw [secondField_sortKey, takeWhile_no_bar _ h]

theorem mapOrPanic_eq_map {α β : Type} (f : α → Option β) (g : α → β) (l : List α)
    (h : ∀ x ∈ l, f x = some (g x)) : mapOrPanic f l = some (l.map g) := by
  induction l with
  | nil => rfl
  | cons x xs ih =>
    have hx := h x (List.mem_cons_self _ _)
    have hxs := ih fun y hy => h y (List.mem_cons_of_mem _ hy)
    simp [mapOrPanic, hx, hxs]

/-- The ordering pass never panics: it returns the sorted keys, each mapped back to an
identifier. -/
theorem orderPass_eq (X : Externals) (services : GoMap Service) :
    orderPass X services = some ((sortStrings (sortKeys X services)).map recovered) := by
  apply mapOrPanic_eq_map
  intro v hv
  have hv2 : v ∈ sortKeys X services := (sortStrings_perm _).mem_iff.1 hv
  obtain ⟨e, -, rfl⟩ := List.mem_map.1 hv2
  simp [recovered, secondField_sortKey]

/-- Mapping the sort keys back gives the keys of the map when no identifier contains
"|". -/
theorem recovered_sortKeys (X : Externals) (services : GoMap Service)
    (hbar : ∀ k ∈ mapKeys services, '|' ∉ k.data) :
    (sortKeys X services).map recovered = mapKeys services := by
  simp only [sortKeys, mapKeys, List.map_map]
  apply List.map_congr_left
  intro e he
  have hk : '|' ∉ e.1.data := hbar e.1 (List.mem_map_of_mem Prod.fst he)
  simp [recovered, secondField_sortKey_of_no_bar _ _ hk]

/-- Claim C3, as stated, fails: an identifier that contains "|" is cut at the "|", so the
result is not a permutation of the keys. -/
theorem C3_counterexample_bar_in_identifier :
    orderPass specExternals (GoMap.mk [("a|b", weighted "5")]) = some ["a"] ∧
    mapKeys (GoMap.mk [("a|b", weighted "5")]) = ["a|b"] ∧
    ¬ (["a"] : List String).Perm ["a|b"] := by
  refine ⟨by decide, by decide, ?_⟩
  intro h
  have hmem : ("a" : String) ∈ ["a|b"] := h.mem_iff.1 (List.mem_singleton_self _)
  revert hmem
  decide

/-- Claim C3, amended: for every services map whose identifiers contain no "|", with any
weights, the ordering pass returns and SortedServices is a permutation of the keys of
Services; the keys of a map being distinct, every key occurs in it exactly once. -/
theorem C3_sorted_services_permutes_keys (X : Externals) (services : GoMap Service)
    (hbar : ∀ k ∈ mapKeys services, '|' ∉ k.data) :
    ∃ l, orderPass X services = some l ∧ l.Perm (mapKeys services) ∧
      ((mapKeys services).Nodup → l.Nodup) := by
  have h1 : ((sortStrings (sortKeys X services)).map recovered).Perm
      ((sortKeys X services).map recovered) := (sortStrings_perm _).map _
  rw [recovered_sortKeys X services hbar] at h1
  exact ⟨_, orderPass_eq X services, h1, fun hn => h1.nodup_iff.2 hn⟩

theorem C3_sorted_services_permutes_keys_witness :
    ∃ l, orderPass specExternals
        (GoMap.mk [("amazeeio-mailhog", weighted "15"), ("amazeeio-haproxy", weighted "14")])
        = some l ∧
      l.Perm (mapKeys
        (GoMap.mk [("amazeeio-mailhog", weighted "15"), ("amazeeio-haproxy", weighted "14")])) ∧
      ((mapKeys (GoMap.mk
          [("amazeeio-mailhog", weighted "15"), ("amazeeio-haproxy", weighted "14")])).Nodup →
        l.Nodup) :=
  C3_sorted_services_permutes_keys specExternals
    (GoMap.mk [("amazeeio-mailhog", weighted "15"), ("amazeeio-haproxy", weighted "14")])
    (by decide)

/-! ## Ordering pass: weights of at most six digits -/

theorem decimalAux_succ (fuel n : Nat) (acc : List Char) :
    decimalAux (fuel + 1) n acc
      = if n / 10 = 0 then digitChar (n % 10) :: acc
        else decimalAux fuel (n / 10) (digitChar (n % 10) :: acc) := rfl

theorem decimalAux_more_fuel (fuel n : Nat) (acc : List Char) (h : n < fuel) :
    decimalAux (fuel + 1) n acc = decimalAux fuel n acc := by
  induction fuel generalizing n acc with
  | zero => omega
  | succ f ih =>
    rw [decimalAux_succ (f + 1) n acc, decimalAux_succ f n acc]
    split_ifs with h0
    · rfl
    · exact ih _ _ (by omega)

theorem decimalAux_step (fuel n : Nat) (acc : List Char) (h : n < fuel) :
    decimalAux fuel n acc
      = if n / 10 = 0 then digitChar (n % 10) :: acc
        else decimalAux fuel (n / 10) (digitChar (n % 10) :: acc) := by
  cases fuel with
  | zero => omega
  | succ f =>
    rw [decimalAux_succ f n acc]
    split_ifs with h0
    · rfl
    · exact (decimalAux_more_fuel f _ _ (by omega)).symm

theorem padZeros_decimal (n : Nat) (h : n < 1000000) :
    padZeros 6 (decimal n) = sixDigits n := by
  have z : digitChar 0 = '0' := rfl
  unfold decimal sixDigits
  rw [decimalAux_step _ _ _ (by omega)]
  split_ifs with h1
  · have e5 : n / 100000 = 0 := by omega
    have e4 : n / 10000 % 10 = 0 := by omega
    have e3 : n / 1000 % 10 = 0 := by omega
    have e2 : n / 100 % 10 = 0 := by omega
    have e1 : n / 10 % 10 = 0 := by omega
    rw [e5, e4, e3, e2, e1]
    rfl
  rw [decimalAux_step _ _ _ (by omega)]
  have d1 : n / 10 / 10 = n / 100 := by omega
  split_ifs with h2
  · have e5 : n / 100000 = 0 := by omega
    have e4 : n / 10000 % 10 = 0 := by omega
    have e3 : n / 1000 % 10 = 0 := by omega
    have e2 : n / 100 % 10 = 0 := by omega
    rw [e5, e4, e3, e2]
    rfl
  rw [d1, decimalAux_step _ _ _ (by omega)]
  have d2 : n / 100 / 10 = n / 1000 := by omega
  split_ifs with h3
  · have e5 : n / 100000 = 0 := by omega
    have e4 : n / 10000 % 10 = 0 := by omega
    have e3 : n / 1000 % 10 = 0 := by omega
    rw [e5, e4, e3]
    rfl
  rw [d2, decimalAux_step _ _ _ (by omega)]
  have d3 : n / 1000 / 10 = n / 10000 := by omega
  split_ifs with h4
  · have e5 : n / 100000 = 0 := by omega
    have e4 : n / 10000 % 10 = 0 := by omega
    rw [e5, e4]
    rfl
  rw [d3, decimalAux_step _ _ _ (by omega)]
  have d4 : n / 10000 / 10 = n / 100000 := by omega
  split_ifs with h5
  · have e5 : n / 100000 = 0 := by omega
    rw [e5]
    rfl
  rw [d4, decimalAux_step _ _ _ (by omega)]
  have h6 : n / 100000 / 10 = 0 := by omega
  have e5 : n / 100000 % 10 = n / 100000 := by omega
  rw [if_pos h6, e5]
  rfl

theorem digitChar_toNat (d : Nat) (h : d < 10) : (digitChar d).toNat = 48 + d := by
  interval_cases d <;> rfl

theorem lessChars_digit_lt (x y : Nat) (hy : y < 10) (hxy : x < y) (as bs : List Char) :
    lessChars (digitChar x :: as) (digitChar y :: bs) = true := by
  simp [lessChars, digitChar_toNat x (by omega), digitChar_toNat y hy, hxy]

theorem lessChars_same (c : Char) (as bs : List Char) :
    lessChars (c :: as) (c :: bs) = lessChars as bs := by
  simp [lessChars]

theorem lessChars_six (a5 a4 a3 a2 a1 a0 b5 b4 b3 b2 b1 b0 : Nat)
    (ha4 : a4 < 10) (ha3 : a3 < 10) (ha2 : a2 < 10) (ha1 : a1 < 10)
    (ha0 : a0 < 10) (hb5 : b5 < 10) (hb4 : b4 < 10) (hb3 : b3 < 10) (hb2 : b2 < 10)
    (hb1 : b1 < 10) (hb0 : b0 < 10)
    (hlt : 100000 * a5 + 10000 * a4 + 1000 * a3 + 100 * a2 + 10 * a1 + a0
      < 100000 * b5 + 10000 * b4 + 1000 * b3 + 100 * b2 + 10 * b1 + b0)
    (r1 r2 : List Char) :
    lessChars (digitChar a5 :: digitChar a4 :: digitChar a3 :: digitChar a2 :: digitChar a1
        :: digitChar a0 :: r1)
      (digitChar b5 :: digitChar b4 :: digitChar b3 :: digitChar b2 :: digitChar b1
        :: digitChar b0 :: r2) = true := by
  rcases Nat.lt_trichotomy a5 b5 with h | h | h
  · exact lessChars_digit_lt _ _ hb5 h _ _
  · subst h
    rw [lessChars_same]
    rcases Nat.lt_trichotomy a4 b4 with h | h | h
    · exact lessChars_digit_lt _ _ hb4 h _ _
    · subst h
      rw [lessChars_same]
      rcases Nat.lt_trichotomy a3 b3 with h | h | h
      · exact lessChars_digit_lt _ _ hb3 h _ _
      · subst h
        rw [lessChars_same]
        rcases Nat.lt_trichotomy a2 b2 with h | h | h
        · exact lessChars_digit_lt _ _ hb2 h _ _
        · subst h
          rw [lessChars_same]
          rcases Nat.lt_trichotomy a1 b1 with h | h | h
          · exact lessChars_digit_lt _ _ hb1 h _ _
          · subst h
            rw [lessChars_same]
            rcases Nat.lt_trichotomy a0 b0 with h | h | h
            · exact lessChars_digit_lt _ _ hb0 h _ _
            · omega
            · omega
          · omega
        · omega
      · omega
    · omega
  · omega

/-- Below one million the six printed digits compare as the numbers do, whatever
follows them. -/
theorem sixDigits_less (n1 n2 : Nat) (h : n1 < n2) (h2 : n2 < 1000000) (r1 r2 : List Char) :
    lessChars (sixDigits n1 ++ r1) (sixDigits n2 ++ r2) = true :=
  lessChars_six (n1 / 100000) (n1 / 10000 % 10) (n1 / 1000 % 10) (n1 / 100 % 10)
    (n1 / 10 % 10) (n1 % 10) (n2 / 100000) (n2 / 10000 % 10) (n2 / 1000 % 10) (n2 / 100 % 10)
    (n2 / 10 % 10) (n2 % 10) (by omega) (by omega) (by omega) (by omega) (by omega)
    (by omega) (by omega) (by omega) (by omega) (by omega) (by omega) (by omega) r1 r2

theorem fmt06d_of_range (w : Int) (h0 : 0 ≤ w) (h1 : w ≤ 999999) :
    fmt06d w = sixDigits w.toNat := by
  unfold fmt06d
  rw [if_neg (by omega)]
  exact padZeros_decimal _ (by omega)

theorem sortKey_less (w1 w2 : Int) (k1 k2 : String) (h0 : 0 ≤ w1) (hlt : w1 < w2)
    (h1 : w2 ≤ 999999) : strLess (sortKey w1 k1) (sortKey w2 k2) = true := by
  unfold strLess sortKey
  rw [fmt06d_of_range w1 h0 (by omega), fmt06d_of_range w2 (by omega) h1]
  exact sixDigits_less _ _ (by omega) (by omega) _ _

/-- Claim C4, as stated, fails: among negative weights and between a six-digit and a
seven-digit weight the service with the lower weight comes second. -/
theorem C4_counterexample_weights_out_of_range :
    ((specExternals.GetFieldInt (weighted "-5") "weight").1 = -5 ∧
      (specExternals.GetFieldInt (weighted "-3") "weight").1 = -3 ∧
      orderPass specExternals (GoMap.mk [("a", weighted "-5"), ("b", weighted "-3")])
        = some ["b", "a"]) ∧
    ((specExternals.GetFieldInt (weighted "999999") "weight").1 = 999999 ∧
      (specExternals.GetFieldInt (weighted "1000000") "weight").1 = 1000000 ∧
      orderPass specExternals (GoMap.mk [("a", weighted "999999"), ("b", weighted "1000000")])
        = some ["b", "a"]) ∧
    ¬ (["a", "b"] : List String).Sublist ["b", "a"] := by
  refine ⟨by decide, by decide, by decide⟩

/-- Claim C4, amended: for every services map whose identifiers contain no "|" and every two
services in it with weights 0 <= w1 < w2 <= 999999, the ordering pass returns,
SortedServices is a permutation of the keys (without repetition, the keys of a map being
distinct), and the identifier of the service with weight w1 stands in it before the
identifier of the service with weight w2. -/
theorem C4_lower_weight_first (X : Externals) (services : GoMap Service)
    (k1 k2 : String) (s1 s2 : Service)
    (hbar : ∀ k ∈ mapKeys services, '|' ∉ k.data)
    (h1 : (k1, s1) ∈ mapRange services) (h2 : (k2, s2) ∈ mapRange services)
    (hlow : 0 ≤ (X.GetFieldInt s1 "weight").1)
    (hlt : (X.GetFieldInt s1 "weight").1 < (X.GetFieldInt s2 "weight").1)
    (hhigh : (X.GetFieldInt s2 "weight").1 ≤ 999999) :
    ∃ l, orderPass X services = some l ∧ l.Perm (mapKeys services) ∧
      ((mapKeys services).Nodup → l.Nodup) ∧ [k1, k2].Sublist l := by
  have hperm : ((sortStrings (sortKeys X services)).map recovered).Perm
      ((sortKeys X services).map recovered) := (sortStrings_perm _).map _
  rw [recovered_sortKeys X services hbar] at hperm
  refine ⟨_, orderPass_eq X services, hperm, fun hn => hperm.nodup_iff.2 hn, ?_⟩
  have m1 : sortKey (X.GetFieldInt s1 "weight").1 k1 ∈ sortStrings (sortKeys X services) :=
    (sortStrings_perm _).mem_iff.2
      (List.mem_map.2 ⟨(k1, s1), h1, rfl⟩)
  have m2 : sortKey (X.GetFieldInt s2 "weight").1 k2 ∈ sortStrings (sortKeys X services) :=
    (sortStrings_perm _).mem_iff.2
      (List.mem_map.2 ⟨(k2, s2), h2, rfl⟩)
  have hsub := ascending_sublist _ _ _ (sortStrings_ascending (sortKeys X services)) m1 m2
    (sortKey_less _ _ k1 k2 hlow hlt hhigh)
  have hk1 : '|' ∉ k1.data := hbar k1 (List.mem_map_of_mem Prod.fst h1)
  have hk2 : '|' ∉ k2.data := hbar k2 (List.mem_map_of_mem Prod.fst h2)
  have hmap := hsub.map recovered
  simp only [List.map_cons, List.map_nil, recovered,
    secondField_sortKey_of_no_bar _ _ hk1, secondField_sortKey_of_no_bar _ _ hk2,
    Option.getD_some] at hmap
  exact hmap

theorem C4_lower_weight_first_witness :
    ∃ l, orderPass specExternals
        (GoMap.mk [("amazeeio-mailhog", weighted "15"), ("amazeeio-haproxy", weighted "14")])
        = some l ∧
      l.Perm (mapKeys
        (GoMap.mk [("amazeeio-mailhog", weighted "15"), ("amazeeio-haproxy", weighted "14")])) ∧
      ((mapKeys (GoMap.mk
          [("amazeeio-mailhog", weighted "15"), ("amazeeio-haproxy", weighted "14")])).Nodup →
        l.Nodup) ∧
      ["amazeeio-haproxy", "amazeeio-mailhog"].Sublist l :=
  C4_lower_weight_first specExternals
    (GoMap.mk [("amazeeio-mailhog", weighted "15"), ("amazeeio-haproxy", weighted "14")])
    "amazeeio-haproxy" "amazeeio-mailhog" (weighted "14") (weighted "15")
    (by decide) (by decide) (by decide) (by decide) (by decide) (by decide)

/-! ## Ordering pass: the string order is total -/

theorem lessChars_total (a b : List Char) (hab : lessChars a b = false)
    (hba : lessChars b a = false) : a = b := by
  induction a generalizing b with
  | nil =>
    cases b with
    | nil => rfl
    | cons y ys => simp [lessChars] at hab
  | cons x xs ih =>
    cases b with
    | nil => simp [lessChars] at hba
    | cons y ys =>
      simp only [lessChars] at hab hba
      by_cases h1 : x.toNat < y.toNat
      · simp [h1] at hab
      · by_cases h2 : y.toNat < x.toNat
        · simp [h2] at hba
        · simp only [h1, h2, if_false] at hab hba
          have hxy : x = y := Char.ext (UInt32.ext (by
            show x.toNat = y.toNat
            omega))
          rw [hxy, ih ys hab hba]

theorem strLess_total (a b : String) (hab : strLess a b = false) (hba : strLess b a = false) :
    a = b := by
  have h := lessChars_total a.data b.data hab hba
  cases a
  cases b
  simp only at h
  rw [h]

/-- Two ascending lists with the same elements are the same list. -/
theorem ascending_unique (l1 l2 : List String) (hp : l1.Perm l2)
    (h1 : l1.Pairwise fun a b => strLess b a = false)
    (h2 : l2.Pairwise fun a b => strLess b a = false) : l1 = l2 := by
  haveI : IsAntisymm String (fun a b => strLess b a = false) :=
    ⟨fun a b hab hba => strLess_total a b hba hab⟩
  exact List.eq_of_perm_of_sorted hp h1 h2

/-- The call `sort.Strings` does not depend on the order of its input. -/
theorem sortStrings_congr (l1 l2 : List String) (hp : l1.Perm l2) :
    sortStrings l1 = sortStrings l2 :=
  ascending_unique _ _
    (((sortStrings_perm l1).trans hp).trans (sortStrings_perm l2).symm)
    (sortStrings_ascending l1) (sortStrings_ascending l2)

theorem sortKeys_eq_weightPairs (X : Externals) (services : GoMap Service) :
    sortKeys X services = (weightPairs X services).map fun p => sortKey p.1 p.2 := by
  simp [sortKeys, weightPairs, List.map_map, Function.comp_def]

theorem lessChars_append_same (p a b : List Char) :
    lessChars (p ++ a) (p ++ b) = lessChars a b := by
  induction p with
  | nil => rfl
  | cons c cs ih => rw [List.cons_append, List.cons_append, lessChars_same, ih]

/-- With one weight the sort keys compare as the identifiers do. -/
theorem sortKey_same_weight (w : Int) (k1 k2 : String) :
    strLess (sortKey w k1) (sortKey w k2) = strLess k1 k2 := by
  unfold strLess sortKey
  show lessChars (fmt06d w ++ '|' :: k1.data) (fmt06d w ++ '|' :: k2.data) = _
  rw [lessChars_append_same, lessChars_same]

/-- Claim C11, as stated, fails: of two services with the same weight the identifier "a|b"
does not appear in SortedServices at all. -/
theorem C11_counterexample_bar_in_identifier :
    (specExternals.GetFieldInt (weighted "5") "weight").1 = 5 ∧
    orderPass specExternals (GoMap.mk [("c", weighted "5"), ("a|b", weighted "5")])
      = some ["a", "c"] ∧
    ("a|b" : String) ∉ (["a", "c"] : List String) := by
  refine ⟨by decide, by decide, by decide⟩

/-- Claim C11, amended: for every services map whose identifiers contain no "|" and every two
services in it that have the same weight (any integer), the ordering pass returns a
permutation of the keys in which the identifier that is smaller in Go's string order stands
before the greater one; two distinct identifiers are always comparable in that order. -/
theorem C11_equal_weight_ordered_by_identifier (X : Externals) (services : GoMap Service)
    (k1 k2 : String) (s1 s2 : Service)
    (hbar : ∀ k ∈ mapKeys services, '|' ∉ k.data)
    (h1 : (k1, s1) ∈ mapRange services) (h2 : (k2, s2) ∈ mapRange services)
    (hw : (X.GetFieldInt s1 "weight").1 = (X.GetFieldInt s2 "weight").1)
    (hlt : strLess k1 k2 = true) :
    (∃ l, orderPass X services = some l ∧ l.Perm (mapKeys services) ∧ [k1, k2].Sublist l) ∧
    (∀ a b : String, a ≠ b → strLess a b = true ∨ strLess b a = true) := by
  constructor
  · have hperm : ((sortStrings (sortKeys X services)).map recovered).Perm
        ((sortKeys X services).map recovered) := (sortStrings_perm _).map _
    rw [recovered_sortKeys X services hbar] at hperm
    refine ⟨_, orderPass_eq X services, hperm, ?_⟩
    have m1 : sortKey (X.GetFieldInt s1 "weight").1 k1 ∈ sortStrings (sortKeys X services) :=
      (sortStrings_perm _).mem_iff.2 (List.mem_map.2 ⟨(k1, s1), h1, rfl⟩)
    have m2 : sortKey (X.GetFieldInt s2 "weight").1 k2 ∈ sortStrings (sortKeys X services) :=
      (sortStrings_perm _).mem_iff.2 (List.mem_map.2 ⟨(k2, s2), h2, rfl⟩)
    have hless : strLess (sortKey (X.GetFieldInt s1 "weight").1 k1)
        (sortKey (X.GetFieldInt s2 "weight").1 k2) = true := by
      rw [hw, sortKey_same_weight]
      exact hlt
    have hsub := ascending_sublist _ _ _ (sortStrings_ascending (sortKeys X services)) m1 m2
      hless
    have hk1 : '|' ∉ k1.data := hbar k1 (List.mem_map_of_mem Prod.fst h1)
    have hk2 : '|' ∉ k2.data := hbar k2 (List.mem_map_of_mem Prod.fst h2)
    have hmap := hsub.map recovered
    simp only [List.map_cons, List.map_nil, recovered,
      secondField_sortKey_of_no_bar _ _ hk1, secondField_sortKey_of_no_bar _ _ hk2,
      Option.getD_some] at hmap
    exact hmap
  · intro a b hne
    cases hab : strLess a b with
    | true => exact Or.inl rfl
    | false =>
      cases hba : strLess b a with
      | true => exact Or.inr rfl
      | false => exact absurd (strLess_total a b hab hba) hne

theorem C11_equal_weight_ordered_by_identifier_witness :
    (∃ l, orderPass specExternals
        (GoMap.mk [("amazeeio-mailhog", weighted "15"), ("amazeeio-haproxy", weighted "15")])
        = some l ∧
      l.Perm (mapKeys
        (GoMap.mk [("amazeeio-mailhog", weighted "15"), ("amazeeio-haproxy", weighted "15")])) ∧
      ["amazeeio-haproxy", "amazeeio-mailhog"].Sublist l) ∧
    (∀ a b : String, a ≠ b → strLess a b = true ∨ strLess b a = true) :=
  C11_equal_weight_ordered_by_identifier specExternals
    (GoMap.mk [("amazeeio-mailhog", weighted "15"), ("amazeeio-haproxy", weighted "15")])
    "amazeeio-haproxy" "amazeeio-mailhog" (weighted "15") (weighted "15")
    (by decide) (by decide) (by decide) (by decide) (by decide)

/-- Claim C12: the ordering pass is a function of the (weight, identifier) pairs alone: two
entry lists whose pairs are rearrangements of each other, in particular two enumeration
orders of one services map, give the identical SortedServices. -/
theorem C12_order_independent_of_enumeration (X : Externals) (l1 l2 : List (String × Service))
    (h : (weightPairs X (GoMap.mk l1)).Perm (weightPairs X (GoMap.mk l2))) :
    orderPass X (GoMap.mk l1) = orderPass X (GoMap.mk l2) ∧
    (l1.Perm l2 → (weightPairs X (GoMap.mk l1)).Perm (weightPairs X (GoMap.mk l2))) := by
  constructor
  · unfold orderPass
    rw [sortKeys_eq_weightPairs, sortKeys_eq_weightPairs,
      sortStrings_congr _ _ (h.map fun p => sortKey p.1 p.2)]
  · intro hp
    exact hp.map _

theorem C12_order_independent_of_enumeration_witness :
    orderPass specExternals
        (GoMap.mk [("amazeeio-mailhog", weighted "15"), ("amazeeio-haproxy", weighted "14")])
      = orderPass specExternals
        (GoMap.mk [("amazeeio-haproxy", weighted "14"), ("amazeeio-mailhog", weighted "15")]) ∧
    (([("amazeeio-mailhog", weighted "15"), ("amazeeio-haproxy", weighted "14")] :
        List (String × Service)).Perm
        [("amazeeio-haproxy", weighted "14"), ("amazeeio-mailhog", weighted "15")] →
      (weightPairs specExternals
        (GoMap.mk [("amazeeio-mailhog", weighted "15"), ("amazeeio-haproxy", weighted "14")])).Perm
      (weightPairs specExternals
        (GoMap.mk [("amazeeio-haproxy", weighted "14"), ("amazeeio-mailhog", weighted "15")]))) :=
  C12_order_independent_of_enumeration specExternals
    [("amazeeio-mailhog", weighted "15"), ("amazeeio-haproxy", weighted "14")]
    [("amazeeio-haproxy", weighted "14"), ("amazeeio-mailhog", weighted "15")]
    (List.Perm.swap _ _ _)

/-- Claim C13: when every service of the final services map has a non-empty name that is
read without error and a non-empty image reference, the validation pass does not terminate
the process and Setup goes on to the ordering pass, which returns SortedServices. -/
theorem C13_valid_services_reach_ordering (X : Externals) (c : Config)
    (h : ∀ e ∈ mapRange c.Services,
      (X.GetFieldString e.2 "name").2 = none ∧ (X.GetFieldString e.2 "name").1 ≠ "" ∧
        e.2.Config.Image ≠ "") :
    validate X c.Services = none ∧
    ∃ l, orderPass X c.Services = some l ∧
      validateAndOrder X c = Outcome.done (withSortedServices c l) := by
  have hv : validate X c.Services = none := by
    apply validateEntries_none
    intro e he
    obtain ⟨h1, -, h3⟩ := h e he
    simp [validateService, h1, h3]
  refine ⟨hv, _, orderPass_eq X c.Services, ?_⟩
  simp [validateAndOrder, hv, orderPass_eq]

theorem C13_valid_services_reach_ordering_witness :
    validate specExternals (configOf (GoMap.mk [("amazeeio-haproxy", sampleDefault)])).Services
      = none ∧
    ∃ l, orderPass specExternals
        (configOf (GoMap.mk [("amazeeio-haproxy", sampleDefault)])).Services = some l ∧
      validateAndOrder specExternals (configOf (GoMap.mk [("amazeeio-haproxy", sampleDefault)]))
        = Outcome.done
          (withSortedServices (configOf (GoMap.mk [("amazeeio-haproxy", sampleDefault)])) l) :=
  C13_valid_services_reach_ordering specExternals
    (configOf (GoMap.mk [("amazeeio-haproxy", sampleDefault)])) (by decide)

/-! ## Ordering pass: the sort keys against the order of §4.4 -/

/-- For weights of at most six digits the sort keys compare as the (weight, identifier)
pairs do. -/
theorem sortKey_pairLess (a b : Int × String) (ha0 : 0 ≤ a.1) (ha1 : a.1 ≤ 999999)
    (hb0 : 0 ≤ b.1) (hb1 : b.1 ≤ 999999) :
    strLess (sortKey a.1 a.2) (sortKey b.1 b.2) = pairLess a b := by
  unfold pairLess
  rcases lt_trichotomy a.1 b.1 with h | h | h
  · rw [sortKey_less _ _ _ _ ha0 h hb1]
    simp [h]
  · rw [h, sortKey_same_weight]
    simp
  · rw [strLess_asymm _ _ (sortKey_less _ _ b.2 a.2 hb0 h ha1)]
    have h1 : ¬ a.1 < b.1 := by omega
    have h2 : ¬ a.1 = b.1 := by omega
    simp [h1, h2]

theorem insertPair_perm (x : Int × String) (l : List (Int × String)) :
    (insertPair x l).Perm (x :: l) := by
  induction l with
  | nil => exact List.Perm.refl _
  | cons y ys ih =>
    simp only [insertPair]
    split_ifs
    · exact List.Perm.refl _
    · exact (List.Perm.cons y ih).trans (List.Perm.swap x y ys)

theorem sortPairs_perm (l : List (Int × String)) : (sortPairs l).Perm l := by
  induction l with
  | nil => exact List.Perm.refl _
  | cons x xs ih => exact (insertPair_perm x (sortPairs xs)).trans (List.Perm.cons x ih)

theorem insertSorted_map (f : Int × String → String) (x : Int × String)
    (l : List (Int × String)) (h : ∀ y ∈ l, strLess (f x) (f y) = pairLess x y) :
    insertSorted (f x) (l.map f) = (insertPair x l).map f := by
  induction l with
  | nil => rfl
  | cons y ys ih =>
    have hy := h y (List.mem_cons_self _ _)
    have hys := ih fun z hz => h z (List.mem_cons_of_mem _ hz)
    simp only [List.map_cons, insertSorted, insertPair, hy]
    split_ifs
    · rfl
    · rw [List.map_cons, hys]

theorem sortStrings_map (f : Int × String → String) (l : List (Int × String))
    (h : ∀ x ∈ l, ∀ y ∈ l, strLess (f x) (f y) = pairLess x y) :
    sortStrings (l.map f) = (sortPairs l).map f := by
  induction l with
  | nil => rfl
  | cons x xs ih =>
    have hxs := ih fun a ha b hb =>
      h a (List.mem_cons_of_mem _ ha) b (List.mem_cons_of_mem _ hb)
    simp only [List.map_cons, sortStrings, sortPairs, hxs]
    apply insertSorted_map
    intro y hy
    exact h x (List.mem_cons_self _ _) y
      (List.mem_cons_of_mem _ ((sortPairs_perm xs).mem_iff.1 hy))

/-- Claim C17: the sort key is the weight as printed by %06d, then "|", then the
identifier, and the identifier recovered from it is the text after the first "|" up to the
next "|".  For a services map with all weights in 0..999999 and no "|" in an identifier,
the key is six zero-padded digits, "|", identifier, the identifier is recovered whole, the
sort keys compare as the (weight, identifier) pairs do, and SortedServices is the
identifiers of the pairs sorted by weight and then identifier (a rearrangement of the pairs
that is ascending in that order). -/
theorem C17_sort_keys_realise_weight_then_identifier (X : Externals) (services : GoMap Service)
    (hw : ∀ e ∈ mapRange services,
      0 ≤ (X.GetFieldInt e.2 "weight").1 ∧ (X.GetFieldInt e.2 "weight").1 ≤ 999999)
    (hbar : ∀ k ∈ mapKeys services, '|' ∉ k.data) :
    (∀ (w : Int) (k : String), sortKey w k = String.mk (fmt06d w ++ '|' :: k.data) ∧
      secondField (sortKey w k)
        = some (String.mk (k.data.takeWhile fun c => !decide (c = '|')))) ∧
    (∀ e ∈ mapRange services,
      sortKey (X.GetFieldInt e.2 "weight").1 e.1
        = String.mk (sixDigits (X.GetFieldInt e.2 "weight").1.toNat ++ '|' :: e.1.data) ∧
      secondField (sortKey (X.GetFieldInt e.2 "weight").1 e.1) = some e.1) ∧
    (∀ a ∈ weightPairs X services, ∀ b ∈ weightPairs X services,
      strLess (sortKey a.1 a.2) (sortKey b.1 b.2) = pairLess a b) ∧
    orderPass X services = some ((sortPairs (weightPairs X services)).map Prod.snd) ∧
    (sortPairs (weightPairs X services)).Perm (weightPairs X services) ∧
    (sortPairs (weightPairs X services)).Pairwise (fun a b => pairLess b a = false) := by
  have hrange : ∀ a ∈ weightPairs X services, 0 ≤ a.1 ∧ a.1 ≤ 999999 := by
    intro a ha
    obtain ⟨e, he, rfl⟩ := List.mem_map.1 ha
    exact hw e he
  have hnobar : ∀ a ∈ weightPairs X services, '|' ∉ a.2.data := by
    intro a ha
    obtain ⟨e, he, rfl⟩ := List.mem_map.1 ha
    exact hbar e.1 (List.mem_map_of_mem Prod.fst he)
  have hcmp : ∀ a ∈ weightPairs X services, ∀ b ∈ weightPairs X services,
      strLess (sortKey a.1 a.2) (sortKey b.1 b.2) = pairLess a b := by
    intro a ha b hb
    exact sortKey_pairLess a b (hrange a ha).1 (hrange a ha).2 (hrange b hb).1 (hrange b hb).2
  have hsort : sortStrings (sortKeys X services)
      = (sortPairs (weightPairs X services)).map fun p => sortKey p.1 p.2 := by
    rw [sortKeys_eq_weightPairs]
    exact sortStrings_map (fun p => sortKey p.1 p.2) _ hcmp
  refine ⟨fun w k => ⟨rfl, secondField_sortKey w k⟩, ?_, hcmp, ?_, sortPairs_perm _, ?_⟩
  · intro e he
    have hk : '|' ∉ e.1.data := hbar e.1 (List.mem_map_of_mem Prod.fst he)
    refine ⟨?_, secondField_sortKey_of_no_bar _ _ hk⟩
    unfold sortKey
    rw [fmt06d_of_range _ (hw e he).1 (hw e he).2]
  · rw [orderPass_eq, hsort, List.map_map]
    congr 1
    apply List.map_congr_left
    intro p hp
    have hk := hnobar p ((sortPairs_perm _).mem_iff.1 hp)
    simp [recovered, secondField_sortKey_of_no_bar _ _ hk]
  · have hasc := sortStrings_ascending (sortKeys X services)
    rw [hsort, List.pairwise_map] at hasc
    refine hasc.imp_of_mem ?_
    intro a b ha hb hab
    rw [← hcmp b ((sortPairs_perm _).mem_iff.1 hb) a ((sortPairs_perm _).mem_iff.1 ha)]
    exact hab

theorem C17_sort_keys_realise_weight_then_identifier_witness :
    (∀ (w : Int) (k : String), sortKey w k = String.mk (fmt06d w ++ '|' :: k.data) ∧
      secondField (sortKey w k)
        = some (String.mk (k.data.takeWhile fun c => !decide (c = '|')))) ∧
    (∀ e ∈ mapRange
        (GoMap.mk [("amazeeio-mailhog", weighted "15"), ("amazeeio-haproxy", weighted "14")]),
      sortKey (specExternals.GetFieldInt e.2 "weight").1 e.1
        = String.mk
          (sixDigits (specExternals.GetFieldInt e.2 "weight").1.toNat ++ '|' :: e.1.data) ∧
      secondField (sortKey (specExternals.GetFieldInt e.2 "weight").1 e.1) = some e.1) ∧
    (∀ a ∈ weightPairs specExternals
        (GoMap.mk [("amazeeio-mailhog", weighted "15"), ("amazeeio-haproxy", weighted "14")]),
      ∀ b ∈ weightPairs specExternals
        (GoMap.mk [("amazeeio-mailhog", weighted "15"), ("amazeeio-haproxy", weighted "14")]),
      strLess (sortKey a.1 a.2) (sortKey b.1 b.2) = pairLess a b) ∧
    orderPass specExternals
        (GoMap.mk [("amazeeio-mailhog", weighted "15"), ("amazeeio-haproxy", weighted "14")])
      = some ((sortPairs (weightPairs specExternals
        (GoMap.mk [("amazeeio-mailhog", weighted "15"),
          ("amazeeio-haproxy", weighted "14")]))).map Prod.snd) ∧
    (sortPairs (weightPairs specExternals
        (GoMap.mk [("amazeeio-mailhog", weighted "15"),
          ("amazeeio-haproxy", weighted "14")]))).Perm
      (weightPairs specExternals
        (GoMap.mk [("amazeeio-mailhog", weighted "15"), ("amazeeio-haproxy", weighted "14")])) ∧
    (sortPairs (weightPairs specExternals
        (GoMap.mk [("amazeeio-mailhog", weighted "15"),
          ("amazeeio-haproxy", weighted "14")]))).Pairwise
      (fun a b => pairLess b a = false) :=
  C17_sort_keys_realise_weight_then_identifier specExternals
    (GoMap.mk [("amazeeio-mailhog", weighted "15"), ("amazeeio-haproxy", weighted "14")])
    (by decide) (by decide)

/-! ## ImportDefaults: the frame -/

theorem keys_assignKey {V : Type} (k k2 : String) (v : V) (l : List (String × V))
    (hne : k2 ≠ k) :
    k2 ∈ (assignKey k v l).map Prod.fst ↔ k2 ∈ l.map Prod.fst := by
  induction l with
  | nil =>
    simp [assignKey, hne]
  | cons e rest ih =>
    obtain ⟨k', v'⟩ := e
    by_cases h : k' = k
    · subst h
      simp [assignKey, hne]
    · simp only [assignKey, h, if_false, List.map_cons, List.mem_cons, ih]

theorem setService_frame (c c2 : Config) (service : String) (v : Service)
    (h : setService c service v = some c2) :
    c2.Domain = c.Domain ∧ c2.Defaults = c.Defaults ∧ c2.Networks = c.Networks ∧
    c2.Volumes = c.Volumes ∧ c2.SortedServices = c.SortedServices ∧
    (∀ k, k ≠ service → mapGet c2.Services k = mapGet c.Services k) ∧
    (∀ k, k ≠ service → (k ∈ mapKeys c2.Services ↔ k ∈ mapKeys c.Services)) := by
  cases hs : c.Services with
  | nil => simp [setService, mapSet, hs] at h
  | mk l =>
    simp [setService, mapSet, hs] at h
    subst h
    refine ⟨rfl, rfl, rfl, rfl, rfl, ?_, ?_⟩
    · intro k hk
      simp [withServices, mapGet, lookupKey_assignKey_ne _ _ _ _ hk]
    · intro k hk
      simp only [withServices, mapKeys, mapRange]
      exact keys_assignKey service k v l hk

/-- Claim C19: whenever ImportDefaults returns, with true or with false, every entry of
Services under another key is unchanged, no other key is added or removed, and Domain,
Defaults, Networks, Volumes and SortedServices are unchanged. -/
theorem C19_importDefaults_touches_one_slot (X : Externals) (c : Config) (service : String)
    (importer : Service) (r : Config × Bool)
    (h : ImportDefaults X c service importer = some r) :
    r.1.Domain = c.Domain ∧ r.1.Defaults = c.Defaults ∧ r.1.Networks = c.Networks ∧
    r.1.Volumes = c.Volumes ∧ r.1.SortedServices = c.SortedServices ∧
    (∀ k, k ≠ service → mapGet r.1.Services k = mapGet c.Services k) ∧
    (∀ k, k ≠ service → (k ∈ mapKeys r.1.Services ↔ k ∈ mapKeys c.Services)) := by
  have hself : c.Domain = c.Domain ∧ c.Defaults = c.Defaults ∧ c.Networks = c.Networks ∧
      c.Volumes = c.Volumes ∧ c.SortedServices = c.SortedServices ∧
      (∀ k, k ≠ service → mapGet c.Services k = mapGet c.Services k) ∧
      (∀ k, k ≠ service → (k ∈ mapKeys c.Services ↔ k ∈ mapKeys c.Services)) :=
    ⟨rfl, rfl, rfl, rfl, rfl, fun _ _ => rfl, fun _ _ => Iff.rfl⟩
  have hmerge : ∀ c2, mergeInto X c service importer = some c2 →
      c2.Domain = c.Domain ∧ c2.Defaults = c.Defaults ∧ c2.Networks = c.Networks ∧
      c2.Volumes = c.Volumes ∧ c2.SortedServices = c.SortedServices ∧
      (∀ k, k ≠ service → mapGet c2.Services k = mapGet c.Services k) ∧
      (∀ k, k ≠ service → (k ∈ mapKeys c2.Services ↔ k ∈ mapKeys c.Services)) :=
    fun c2 h2 => setService_frame c c2 service _ h2
  unfold ImportDefaults at h
  cases hget : mapGet c.Services service with
  | none =>
    rw [hget] at h
    simp only at h
    split_ifs at h
    · cases hm : mergeInto X c service importer with
      | none => simp [hm] at h
      | some c2 =>
        simp [hm] at h
        subst h
        exact hmerge c2 hm
    · simp at h
      subst h
      exact hself
  | some container =>
    rw [hget] at h
    simp only at h
    split_ifs at h
    · cases h1 : setService c service Service.zero with
      | none => simp [h1] at h
      | some c1 =>
        cases h2 : mergeInto X c1 service importer with
        | none => simp [h1, h2] at h
        | some c2 =>
          simp [h1, h2] at h
          subst h
          obtain ⟨a1, a2, a3, a4, a5, a6, a7⟩ := setService_frame c c1 service _ h1
          obtain ⟨b1, b2, b3, b4, b5, b6, b7⟩ := setService_frame c1 c2 service _ h2
          exact ⟨b1.trans a1, b2.trans a2, b3.trans a3, b4.trans a4, b5.trans a5,
            fun k hk => (b6 k hk).trans (a6 k hk), fun k hk => (b7 k hk).trans (a7 k hk)⟩
    · cases hm : mergeInto X c service importer with
      | none => simp [hm] at h
      | some c2 =>
        simp [hm] at h
        subst h
        exact hmerge c2 hm
    · cases hm : mergeInto X c service importer with
      | none => simp [hm] at h
      | some c2 =>
        simp [hm] at h
        subst h
        exact hmerge c2 hm
    · simp at h
      subst h
      exact hself

theorem C19_importDefaults_touches_one_slot_witness :
    ∃ r, ImportDefaults specExternals
        (configOf (GoMap.mk [("amazeeio-haproxy", optedOut), ("web", optedOut)]))
        "amazeeio-haproxy" sampleDefault = some r ∧
      (r.1.Domain
          = (configOf (GoMap.mk [("amazeeio-haproxy", optedOut), ("web", optedOut)])).Domain ∧
        r.1.Defaults
          = (configOf (GoMap.mk [("amazeeio-haproxy", optedOut), ("web", optedOut)])).Defaults ∧
        r.1.Networks
          = (configOf (GoMap.mk [("amazeeio-haproxy", optedOut), ("web", optedOut)])).Networks ∧
        r.1.Volumes
          = (configOf (GoMap.mk [("amazeeio-haproxy", optedOut), ("web", optedOut)])).Volumes ∧
        r.1.SortedServices
          = (configOf
              (GoMap.mk [("amazeeio-haproxy", optedOut), ("web", optedOut)])).SortedServices ∧
        (∀ k, k ≠ "amazeeio-haproxy" →
          mapGet r.1.Services k
            = mapGet (configOf
                (GoMap.mk [("amazeeio-haproxy", optedOut), ("web", optedOut)])).Services k) ∧
        (∀ k, k ≠ "amazeeio-haproxy" →
          (k ∈ mapKeys r.1.Services ↔
            k ∈ mapKeys (configOf
              (GoMap.mk [("amazeeio-haproxy", optedOut), ("web", optedOut)])).Services))) :=
  ⟨(configOf (GoMap.mk [("amazeeio-haproxy", getService sampleDefault optedOut),
      ("web", optedOut)]), true), by decide,
    C19_importDefaults_touches_one_slot specExternals
      (configOf (GoMap.mk [("amazeeio-haproxy", optedOut), ("web", optedOut)]))
      "amazeeio-haproxy" sampleDefault
      (configOf (GoMap.mk [("amazeeio-haproxy", getService sampleDefault optedOut),
        ("web", optedOut)]), true)
      (by decide)⟩

/-! ## Resolver default -/

/-- Claim C16: with global defaulting enabled the resolver default Setup registers is a
function of the OS and the domain d alone and holds at most one record: on macOS exactly
the record with the nameserver and port data, folder "/etc/resolver" and file d; on Linux
exactly the record with the systemd-resolved data naming d, folder
"/usr/lib/systemd/resolved.conf.d" and file d; on any other OS no record. -/
theorem C16_resolver_default_by_os (E : Environment) (c : Config)
    (hdef : viperGetBoolDefaults E = true) :
    registeredResolvers E (defaultDomain E c)
      = resolverDefault E.GOOS (defaultDomain E c).Domain ∧
    ((registeredResolvers E (defaultDomain E c)).getD []).length ≤ 1 ∧
    (E.GOOS = "darwin" →
      registeredResolvers E (defaultDomain E c)
        = some [{ Data := "# Generated by amazeeio pygmy\nnameserver 127.0.0.1\nport 6053\n",
                  Enabled := true,
                  File := (defaultDomain E c).Domain,
                  Folder := "/etc/resolver",
                  Name := "MacOS Resolver" }]) ∧
    (E.GOOS = "linux" →
      registeredResolvers E (defaultDomain E c)
        = some [{ Data := "# Generated by amazeeio pygmy\n[Resolve]\nDNS=127.0.0.1:6053\nDomains="
                    ++ (defaultDomain E c).Domain ++ "\n",
                  Enabled := true,
                  File := (defaultDomain E c).Domain,
                  Folder := "/usr/lib/systemd/resolved.conf.d",
                  Name := "Linux Resolver" }]) ∧
    (E.GOOS ≠ "darwin" → E.GOOS ≠ "linux" →
      (registeredResolvers E (defaultDomain E c)).getD [] = []) := by
  have hreg : registeredResolvers E (defaultDomain E c)
      = resolverDefault E.GOOS (defaultDomain E c).Domain := by
    simp [registeredResolvers, hdef]
  refine ⟨hreg, ?_, ?_, ?_, ?_⟩
  · rw [hreg]
    unfold resolverDefault
    split_ifs <;> simp
  · intro h
    rw [hreg]
    simp [resolverDefault, h, ResolvMacOS]
  · intro h
    rw [hreg]
    simp [resolverDefault, h, ResolvLinux]
  · intro h1 h2
    rw [hreg]
    unfold resolverDefault
    rw [if_neg h1, if_neg h2]
    split_ifs <;> rfl

theorem C16_resolver_default_by_os_witness :
    registeredResolvers sampleEnvironment (defaultDomain sampleEnvironment (configOf GoMap.nil))
      = resolverDefault sampleEnvironment.GOOS
          (defaultDomain sampleEnvironment (configOf GoMap.nil)).Domain ∧
    ((registeredResolvers sampleEnvironment
      (defaultDomain sampleEnvironment (configOf GoMap.nil))).getD []).length ≤ 1 ∧
    (sampleEnvironment.GOOS = "darwin" →
      registeredResolvers sampleEnvironment
          (defaultDomain sampleEnvironment (configOf GoMap.nil))
        = some [{ Data := "# Generated by amazeeio pygmy\nnameserver 127.0.0.1\nport 6053\n",
                  Enabled := true,
                  File := (defaultDomain sampleEnvironment (configOf GoMap.nil)).Domain,
                  Folder := "/etc/resolver",
                  Name := "MacOS Resolver" }]) ∧
    (sampleEnvironment.GOOS = "linux" →
      registeredResolvers sampleEnvironment
          (defaultDomain sampleEnvironment (configOf GoMap.nil))
        = some [{ Data := "# Generated by amazeeio pygmy\n[Resolve]\nDNS=127.0.0.1:6053\nDomains="
                    ++ (defaultDomain sampleEnvironment (configOf GoMap.nil)).Domain ++ "\n",
                  Enabled := true,
                  File := (defaultDomain sampleEnvironment (configOf GoMap.nil)).Domain,
                  Folder := "/usr/lib/systemd/resolved.conf.d",
                  Name := "Linux Resolver" }]) ∧
    (sampleEnvironment.GOOS ≠ "darwin" → sampleEnvironment.GOOS ≠ "linux" →
      (registeredResolvers sampleEnvironment
        (defaultDomain sampleEnvironment (configOf GoMap.nil))).getD [] = []) :=
  C16_resolver_default_by_os sampleEnvironment (configOf GoMap.nil) (by decide)

/-! ## Volumes step -/

theorem assignKey_assignKey {V : Type} (k : String) (a b : V) (l : List (String × V)) :
    assignKey k b (assignKey k a l) = assignKey k b l := by
  induction l with
  | nil => simp [assignKey]
  | cons e rest ih =>
    obtain ⟨k', v'⟩ := e
    by_cases h : k' = k
    · simp [assignKey, h]
    · simp [assignKey, h, ih]

theorem keys_assignKey_present {V : Type} (k : String) (v w : V) (l : List (String × V))
    (h : lookupKey k l = some w) :
    (assignKey k v l).map Prod.fst = l.map Prod.fst := by
  induction l with
  | nil => simp [lookupKey] at h
  | cons e rest ih =>
    obtain ⟨k', v'⟩ := e
    by_cases hk : k' = k
    · simp [assignKey, hk]
    · simp only [lookupKey, hk, if_false] at h
      simp [assignKey, hk, ih h]

theorem lookupKey_of_mem {V : Type} (l : List (String × V)) (k : String) (v : V)
    (hnodup : (l.map Prod.fst).Nodup) (hmem : (k, v) ∈ l) : lookupKey k l = some v := by
  induction l with
  | nil => cases hmem
  | cons e rest ih =>
    obtain ⟨k', v'⟩ := e
    have hnd := List.nodup_cons.1 hnodup
    rcases List.mem_cons.1 hmem with heq | hrest
    · cases heq
      simp [lookupKey]
    · have hne : k' ≠ k := by
        intro h
        subst h
        exact hnd.1 (List.mem_map.2 ⟨(k', v), hrest, rfl⟩)
      simp only [lookupKey, hne, if_false]
      exact ih hnd.2 hrest

/-- An iteration that reaches an entry stored under its own name replaces that entry by the
self-merge of the lookup result. -/
theorem volumeStep_named (E : Environment) (vols : List (String × Volume)) (key : String)
    (v : Volume) (hget : lookupKey key vols = some v) (hname : v.Name = key) :
    volumeStep E vols key
      = assignKey key
          (E.getVolume (E.DockerVolumeGet key).1 (E.DockerVolumeGet key).1) vols := by
  simp only [volumeStep, hget, hname, lookupKey_assignKey_self, Option.getD_some,
    assignKey_assignKey]

theorem volumesFold_named (E : Environment) (keys : List String) (vols : List (String × Volume))
    (hnodup : keys.Nodup)
    (hnamed : ∀ k ∈ keys, ∃ v, lookupKey k vols = some v ∧ v.Name = k) :
    (keys.foldl (volumeStep E) vols).map Prod.fst = vols.map Prod.fst ∧
    (∀ k ∈ keys, lookupKey k (keys.foldl (volumeStep E) vols)
      = some (E.getVolume (E.DockerVolumeGet k).1 (E.DockerVolumeGet k).1)) ∧
    (∀ k, k ∉ keys → lookupKey k (keys.foldl (volumeStep E) vols) = lookupKey k vols) := by
  induction keys generalizing vols with
  | nil => exact ⟨rfl, fun k hk => absurd hk (List.not_mem_nil k), fun _ _ => rfl⟩
  | cons key rest ih =>
    have hnd := List.nodup_cons.1 hnodup
    obtain ⟨v, hget, hname⟩ := hnamed key (List.mem_cons_self _ _)
    have hstep := volumeStep_named E vols key v hget hname
    have hnamed2 : ∀ k ∈ rest, ∃ w, lookupKey k (volumeStep E vols key) = some w ∧ w.Name = k := by
      intro k hk
      have hne : k ≠ key := by
        intro h
        subst h
        exact hnd.1 hk
      rw [hstep, lookupKey_assignKey_ne _ _ _ _ hne]
      exact hnamed k (List.mem_cons_of_mem _ hk)
    obtain ⟨h1, h2, h3⟩ := ih (volumeStep E vols key) hnd.2 hnamed2
    simp only [List.foldl_cons]
    refine ⟨?_, ?_, ?_⟩
    · rw [h1, hstep, keys_assignKey_present key _ v vols hget]
    · intro k hk
      rcases List.mem_cons.1 hk with rfl | hk
      · rw [h3 k hnd.1, hstep, lookupKey_assignKey_self]
      · exact h2 k hk
    · intro k hk
      have hne : k ≠ key := fun h => hk (by simp [h])
      have hrest : k ∉ rest := fun h => hk (List.mem_cons_of_mem _ h)
      rw [h3 k hrest, hstep, lookupKey_assignKey_ne _ _ _ _ hne]

/-- Claim C18, as stated, fails: the volume stored under the key "data" is named "x"; the
pass writes the lookup result under "x", so a key is added and the entry under "data" keeps
its override fields. -/
theorem C18_counterexample_key_differs_from_name :
    (volumesPass runtimeWithVolumes
      (withVolumes (configOf GoMap.nil)
        (GoMap.mk [("data", { Name := "x", Attributes := [("Driver", "nfs")] })]))).Volumes
      = GoMap.mk [("data", { Name := "x", Attributes := [("Driver", "nfs")] }),
          ("x", { Name := "x", Attributes := [("Driver", "local")] })] := by
  decide

/-- Claim C18, amended: the pass writes each looked-up volume under the key given by the
volume's name.  For every Volumes map in which every volume is stored under its own name,
the keys after the pass are the keys before it, and every entry Volumes[k] after the pass
equals getVolume(L, L), L being the lookup result for that name, so no field of the
pre-lookup entry survives. -/
theorem C18_volumes_replaced_by_self_merge (E : Environment) (c : Config)
    (hnodup : (mapKeys c.Volumes).Nodup)
    (hnamed : ∀ e ∈ mapRange c.Volumes, e.2.Name = e.1) :
    mapKeys (volumesPass E c).Volumes = mapKeys c.Volumes ∧
    (∀ e ∈ mapRange c.Volumes,
      mapGet (volumesPass E c).Volumes e.1
        = some (E.getVolume (E.DockerVolumeGet e.2.Name).1 (E.DockerVolumeGet e.2.Name).1)) ∧
    (volumesPass E c).Services = c.Services ∧
    (volumesPass E c).Networks = c.Networks := by
  have hrange : mapRange (ensureVolumes c).Volumes = mapRange c.Volumes := by
    unfold ensureVolumes
    split_ifs with h
    · cases hv : c.Volumes with
      | nil => rfl
      | mk l => simp [hv, mapIsNil] at h
    · rfl
  have hens : (ensureVolumes c).Services = c.Services ∧
      (ensureVolumes c).Networks = c.Networks := by
    unfold ensureVolumes
    split_ifs <;> exact ⟨rfl, rfl⟩
  have hlook : ∀ k ∈ (mapRange c.Volumes).map Prod.fst,
      ∃ v, lookupKey k (mapRange c.Volumes) = some v ∧ v.Name = k := by
    intro k hk
    obtain ⟨e, he, rfl⟩ := List.mem_map.1 hk
    exact ⟨e.2, lookupKey_of_mem _ e.1 e.2 hnodup he, hnamed e he⟩
  obtain ⟨h1, h2, -⟩ :=
    volumesFold_named E ((mapRange c.Volumes).map Prod.fst) (mapRange c.Volumes) hnodup hlook
  have hvol : (volumesPass E c).Volumes
      = GoMap.mk (((mapRange c.Volumes).map Prod.fst).foldl (volumeStep E)
          (mapRange c.Volumes)) := by
    unfold volumesPass volumesLoop
    rw [hrange]
    rfl
  refine ⟨?_, ?_, hens.1, hens.2⟩
  · rw [hvol]
    exact h1
  · intro e he
    rw [hvol, hnamed e he]
    exact h2 e.1 (List.mem_map_of_mem Prod.fst he)

theorem C18_volumes_replaced_by_self_merge_witness :
    mapKeys (volumesPass runtimeWithVolumes
      (withVolumes (configOf GoMap.nil)
        (GoMap.mk [("data", { Name := "data", Attributes := [("Driver", "nfs")] })]))).Volumes
      = mapKeys (withVolumes (configOf GoMap.nil)
        (GoMap.mk [("data", { Name := "data", Attributes := [("Driver", "nfs")] })])).Volumes ∧
    (∀ e ∈ mapRange (withVolumes (configOf GoMap.nil)
        (GoMap.mk [("data", { Name := "data", Attributes := [("Driver", "nfs")] })])).Volumes,
      mapGet (volumesPass runtimeWithVolumes
        (withVolumes (configOf GoMap.nil)
          (GoMap.mk [("data", { Name := "data", Attributes := [("Driver", "nfs")] })]))).Volumes
          e.1
        = some (runtimeWithVolumes.getVolume (runtimeWithVolumes.DockerVolumeGet e.2.Name).1
            (runtimeWithVolumes.DockerVolumeGet e.2.Name).1)) ∧
    (volumesPass runtimeWithVolumes
      (withVolumes (configOf GoMap.nil)
        (GoMap.mk [("data", { Name := "data", Attributes := [("Driver", "nfs")] })]))).Services
      = (withVolumes (configOf GoMap.nil)
        (GoMap.mk [("data", { Name := "data", Attributes := [("Driver", "nfs")] })])).Services ∧
    (volumesPass runtimeWithVolumes
      (withVolumes (configOf GoMap.nil)
        (GoMap.mk [("data", { Name := "data", Attributes := [("Driver", "nfs")] })]))).Networks
      = (withVolumes (configOf GoMap.nil)
        (GoMap.mk [("data", { Name := "data", Attributes := [("Driver", "nfs")] })])).Networks :=
  C18_volumes_replaced_by_self_merge runtimeWithVolumes
    (withVolumes (configOf GoMap.nil)
      (GoMap.mk [("data", { Name := "data", Attributes := [("Driver", "nfs")] })]))
    (by decide) (by decide)

/-! ## The defaults block on the five known services -/

theorem withServices_withServices (c : Config) (m1 m2 : GoMap Service) :
    withServices (withServices c m1) m2 = withServices c m2 := rfl

/-- A call that installs or fully replaces: the key is absent and the provider default's
flag reads truthy, or the key is present with a truthy defaults label. -/
theorem ImportDefaults_sets (X : Externals) (c : Config) (l : List (String × Service))
    (service : String) (importer : Service) (hl : c.Services = GoMap.mk l)
    (h : (lookupKey service l = none ∧ (X.GetFieldBool importer "defaults").1 = true) ∨
      (∃ e, lookupKey service l = some e ∧ defaultsLabelSet e = true)) :
    ImportDefaults X c service importer
      = some (withServices c
          (GoMap.mk (assignKey service (X.getService importer Service.zero) l)), true) := by
  rcases h with ⟨habs, hflag⟩ | ⟨e, hget, hlab⟩
  · have hget : mapGet c.Services service = none := by simp [hl, mapGet, habs]
    rw [ImportDefaults, hget]
    simp only [hflag, if_true, mergeInto_mk X c l service importer hl, habs, Option.map_some',
      Option.getD_none]
  · have hget2 : mapGet c.Services service = some e := by simp [hl, mapGet, hget]
    have h1 : setService c service Service.zero
        = some (withServices c (GoMap.mk (assignKey service Service.zero l))) := by
      simp [setService, mapSet, hl]
    have h2 := mergeInto_mk X (withServices c (GoMap.mk (assignKey service Service.zero l)))
      (assignKey service Service.zero l) service importer rfl
    rw [ImportDefaults, hget2]
    simp only [hlab, if_true, h1, Option.some_bind, h2, Option.map_some',
      lookupKey_assignKey_self, Option.getD_some, withServices_withServices,
      assignKey_assignKey]

/-- The five calls on an empty services map, every provider default reading truthy. -/
theorem importPass_fresh (X : Externals) (P : Providers) (c : Config)
    (hl : c.Services = GoMap.mk [])
    (hflags : ∀ p ∈ providerList P c.Domain, (X.GetFieldBool p "defaults").1 = true) :
    importPass X P c = some (withServices c (GoMap.mk (defaultEntries X P c.Domain))) := by
  have f1 := hflags P.agentNew (by simp [providerList])
  have f2 := hflags P.keyNewAdder (by simp [providerList])
  have f3 := hflags (P.dnsmasqNew c.Domain) (by simp [providerList])
  have f4 := hflags (P.haproxyNew c.Domain) (by simp [providerList])
  have f5 := hflags (P.mailhogNew c.Domain) (by simp [providerList])
  have e1 := ImportDefaults_sets X c [] "amazeeio-ssh-agent" P.agentNew hl (Or.inl ⟨rfl, f1⟩)
  have e2 := ImportDefaults_sets X
    (withServices c (GoMap.mk [("amazeeio-ssh-agent", X.getService P.agentNew Service.zero)]))
    _ "amazeeio-ssh-agent-add-key" P.keyNewAdder rfl (Or.inl ⟨rfl, f2⟩)
  have e3 := ImportDefaults_sets X
    (withServices c (GoMap.mk [("amazeeio-ssh-agent", X.getService P.agentNew Service.zero),
      ("amazeeio-ssh-agent-add-key", X.getService P.keyNewAdder Service.zero)]))
    _ "amazeeio-dnsmasq" (P.dnsmasqNew c.Domain) rfl (Or.inl ⟨rfl, f3⟩)
  have e4 := ImportDefaults_sets X
    (withServices c (GoMap.mk [("amazeeio-ssh-agent", X.getService P.agentNew Service.zero),
      ("amazeeio-ssh-agent-add-key", X.getService P.keyNewAdder Service.zero),
      ("amazeeio-dnsmasq", X.getService (P.dnsmasqNew c.Domain) Service.zero)]))
    _ "amazeeio-haproxy" (P.haproxyNew c.Domain) rfl (Or.inl ⟨rfl, f4⟩)
  have e5 := ImportDefaults_sets X
    (withServices c (GoMap.mk [("amazeeio-ssh-agent", X.getService P.agentNew Service.zero),
      ("amazeeio-ssh-agent-add-key", X.getService P.keyNewAdder Service.zero),
      ("amazeeio-dnsmasq", X.getService (P.dnsmasqNew c.Domain) Service.zero),
      ("amazeeio-haproxy", X.getService (P.haproxyNew c.Domain) Service.zero)]))
    _ "amazeeio-mailhog" (P.mailhogNew c.Domain) rfl (Or.inl ⟨rfl, f5⟩)
  unfold importPass
  rw [e1]
  simp only [Option.some_bind]
  erw [e2]
  simp only [Option.some_bind]
  erw [e3]
  simp only [Option.some_bind]
  erw [e4]
  simp only [Option.some_bind]
  erw [e5]
  rfl

theorem assignKey_same {V : Type} (k : String) (v : V) (l : List (String × V))
    (h : lookupKey k l = some v) : assignKey k v l = l := by
  induction l with
  | nil => simp [lookupKey] at h
  | cons e rest ih =>
    obtain ⟨k', v'⟩ := e
    by_cases hk : k' = k
    · subst hk
      simp only [lookupKey, if_true, Option.some.injEq] at h
      simp [assignKey, h]
    · simp only [lookupKey, hk, if_false] at h
      simp [assignKey, hk, ih h]

theorem withServices_self (c : Config) (m : GoMap Service) (h : c.Services = m) :
    withServices c m = c := by
  cases c
  simp only at h
  simp [withServices, h]

/-- One backfill step on an entry that is present. -/
theorem backfillOne_present (X : Externals) (defaultPorts : Service) (key : String)
    (c : Config) (l : List (String × Service)) (e : Service)
    (hl : c.Services = GoMap.mk l) (hget : lookupKey key l = some e) :
    backfillOne X defaultPorts key c
      = some (withServices c (GoMap.mk (assignKey key (fillPorts X defaultPorts e) l))) := by
  have hidx : mapIndex Service.zero c.Services key = e := by
    simp [mapIndex, mapGet, hl, hget]
  unfold backfillOne fillPorts
  rw [hidx]
  cases hpb : mapIsNil e.HostConfig.PortBindings with
  | true =>
    simp only [if_true]
    rw [mergeInto_mk X c l key defaultPorts hl, hget]
    rfl
  | false =>
    simp only [Bool.false_eq_true, if_false]
    rw [assignKey_same key e l hget, withServices_self c _ hl]

/-- The backfill after the five calls have installed `defaultEntries`. -/
theorem backfill_defaultEntries (X : Externals) (P : Providers) (c : Config) (domain : String)
    (hl : c.Services = GoMap.mk (defaultEntries X P domain)) :
    backfill X P c = some (withServices c (GoMap.mk (filledEntries X P domain))) := by
  have b1 := backfillOne_present X P.haproxyNewDefaultPorts "amazeeio-haproxy" c
    (defaultEntries X P domain) (X.getService (P.haproxyNew domain) Service.zero) hl rfl
  have b2 := backfillOne_present X P.mailhogNewDefaultPorts "amazeeio-mailhog"
    (withServices c (GoMap.mk (assignKey "amazeeio-haproxy"
      (fillPorts X P.haproxyNewDefaultPorts (X.getService (P.haproxyNew domain) Service.zero))
      (defaultEntries X P domain))))
    _ (X.getService (P.mailhogNew domain) Service.zero) rfl rfl
  unfold backfill
  rw [b1]
  simp only [Option.some_bind]
  rw [b2]
  rfl

theorem networksPass_services (E : Environment) (c : Config) :
    (networksPass E c).Services = c.Services := by
  unfold networksPass
  split_ifs <;> rfl

theorem volumesPass_services (E : Environment) (c : Config) :
    (volumesPass E c).Services = c.Services := by
  unfold volumesPass ensureVolumes
  split_ifs <;> rfl

theorem lookupKey_mem {V : Type} (l : List (String × V)) (k : String) (v : V)
    (h : lookupKey k l = some v) : (k, v) ∈ l := by
  induction l with
  | nil => simp [lookupKey] at h
  | cons e rest ih =>
    obtain ⟨k', v'⟩ := e
    by_cases hk : k' = k
    · subst hk
      simp only [lookupKey, if_true, Option.some.injEq] at h
      simp [h]
    · simp only [lookupKey, hk, if_false] at h
      exact List.mem_cons_of_mem _ (ih h)

/-! ## Backfill on an absent service -/

/-- Claim C20: with defaults enabled, if "amazeeio-haproxy" (or "amazeeio-mailhog") is not
in Services after the generic defaulting pass and its default-ports variant carries no
image, the backfill inserts an entry under that key; with the merge of §4.1 the entry has
an empty image reference, and Setup ends in the validation pass with exit status 2. -/
theorem C20_backfill_creates_entry_without_image (X : Externals) (P : Providers)
    (E : Environment) (c c1 : Config) (key : String) (defaultPorts : Service)
    (hkey : (key = "amazeeio-haproxy" ∧ defaultPorts = P.haproxyNewDefaultPorts) ∨
      (key = "amazeeio-mailhog" ∧ defaultPorts = P.mailhogNewDefaultPorts))
    (hdefaults :
      (E.Unmarshal (registeredResolvers E (defaultDomain E c)) (defaultDomain E c)).Defaults
        = true)
    (himport : importPass X P (ensureServices
      (E.Unmarshal (registeredResolvers E (defaultDomain E c)) (defaultDomain E c))) = some c1)
    (habsent : mapGet c1.Services key = none)
    (himage : defaultPorts.Config.Image = "")
    (hmerge : X.getService = getService) :
    ∃ c2, backfill X P c1 = some c2 ∧
      (∃ e, mapGet c2.Services key = some e ∧ e.Config.Image = "") ∧
      ∃ f, Setup X P E c = Outcome.exit f ∧ f.status = 2 := by
  obtain ⟨c1', hc1', hinit⟩ := importPass_returns X P _ (ensureServices_initialised
    (E.Unmarshal (registeredResolvers E (defaultDomain E c)) (defaultDomain E c)))
  rw [himport] at hc1'
  cases hc1'
  obtain ⟨ca, ea, ia, -, filla, othera⟩ :=
    backfillOne_spec X P.haproxyNewDefaultPorts "amazeeio-haproxy" c1 hinit
  obtain ⟨cb, eb, -, -, fillb, otherb⟩ :=
    backfillOne_spec X P.mailhogNewDefaultPorts "amazeeio-mailhog" ca ia
  have hne : ("amazeeio-mailhog" : String) ≠ "amazeeio-haproxy" := by decide
  have hback : backfill X P c1 = some cb := by simp [backfill, ea, eb]
  have hentry : mapGet cb.Services key = some (X.getService defaultPorts Service.zero) := by
    rcases hkey with ⟨hk, hd⟩ | ⟨hk, hd⟩
    · subst hk hd
      have hidx : mapIndex Service.zero c1.Services "amazeeio-haproxy" = Service.zero := by
        simp [mapIndex, habsent]
      rw [otherb _ hne.symm]
      rw [hidx] at filla
      exact filla rfl
    · subst hk hd
      have hidx : mapIndex Service.zero ca.Services "amazeeio-mailhog" = Service.zero := by
        simp [mapIndex, othera _ hne, habsent]
      rw [hidx] at fillb
      exact fillb rfl
  have himg : (X.getService defaultPorts Service.zero).Config.Image = "" := by
    rw [hmerge, getService_zero, himage]
  refine ⟨cb, hback, ⟨_, hentry, himg⟩, ?_⟩
  have hmem : ∃ e ∈ mapRange cb.Services, e.2.Config.Image = "" := by
    cases hs : cb.Services with
    | nil => simp [hs, mapGet] at hentry
    | mk l =>
      rw [hs] at hentry
      exact ⟨(key, X.getService defaultPorts Service.zero), lookupKey_mem l _ _ hentry, himg⟩
  obtain ⟨f, hf⟩ := validateEntries_empty_image X _ hmem
  have hvalid : validate X (volumesPass E (networksPass E cb)).Services = some f := by
    rw [volumesPass_services, networksPass_services]
    exact hf
  refine ⟨f, ?_, validateEntries_status X _ f hf⟩
  have hblock : defaultsBlock X P E
      (E.Unmarshal (registeredResolvers E (defaultDomain E c)) (defaultDomain E c))
      = some (volumesPass E (networksPass E cb)) := by
    simp [defaultsBlock, hdefaults, himport, hback]
  simp [Setup, hblock, validateAndOrder, hvalid]

theorem C20_backfill_creates_entry_without_image_witness :
    ∃ c2, backfill specExternals quietProviders (configOf (GoMap.mk [])) = some c2 ∧
      (∃ e, mapGet c2.Services "amazeeio-haproxy" = some e ∧ e.Config.Image = "") ∧
      ∃ f, Setup specExternals quietProviders sampleEnvironment (configOf GoMap.nil)
          = Outcome.exit f ∧ f.status = 2 :=
  C20_backfill_creates_entry_without_image specExternals quietProviders sampleEnvironment
    (configOf GoMap.nil) (configOf (GoMap.mk [])) "amazeeio-haproxy"
    quietProviders.haproxyNewDefaultPorts (Or.inl ⟨rfl, rfl⟩) (by decide) (by decide)
    (by decide) (by decide) rfl

/-! ## A whole run on a config without services -/

/-- The ordering pass in the words of §4.4, for weights of at most six digits and
identifiers without "|". -/
theorem orderPass_sortPairs (X : Externals) (services : GoMap Service)
    (hw : ∀ a ∈ weightPairs X services, 0 ≤ a.1 ∧ a.1 ≤ 999999)
    (hbar : ∀ a ∈ weightPairs X services, '|' ∉ a.2.data) :
    orderPass X services = some ((sortPairs (weightPairs X services)).map Prod.snd) := by
  have hcmp : ∀ a ∈ weightPairs X services, ∀ b ∈ weightPairs X services,
      strLess (sortKey a.1 a.2) (sortKey b.1 b.2) = pairLess a b := fun a ha b hb =>
    sortKey_pairLess a b (hw a ha).1 (hw a ha).2 (hw b hb).1 (hw b hb).2
  rw [orderPass_eq, sortKeys_eq_weightPairs,
    sortStrings_map (fun p => sortKey p.1 p.2) _ hcmp, List.map_map]
  congr 1
  apply List.map_congr_left
  intro p hp
  have hk := hbar p ((sortPairs_perm _).mem_iff.1 hp)
  simp [recovered, secondField_sortKey_of_no_bar _ _ hk]

/-- With the accessor of the spec the name check of the validation loop never fires: an
error comes with the empty string. -/
theorem GetFieldString_error_empty (s : Service) (field : String)
    (h : (GetFieldString s field).2 ≠ none) : (GetFieldString s field).1 = "" := by
  unfold GetFieldString at h ⊢
  cases hl : labelField s field with
  | none => rfl
  | some v =>
    rw [hl] at h
    exact absurd rfl h

theorem validate_spec_of_images (services : GoMap Service)
    (h : ∀ e ∈ mapRange services, e.2.Config.Image ≠ "") :
    validate specExternals services = none := by
  apply validateEntries_none
  intro e he
  have himg := h e he
  have hn : ¬ ((specExternals.GetFieldString e.2 "name").2 ≠ none ∧
      (specExternals.GetFieldString e.2 "name").1 ≠ "") :=
    fun hc => hc.2 (GetFieldString_error_empty _ _ hc.1)
  unfold validateService
  simp only
  rw [if_neg hn, if_neg himg]

theorem labelField_getService (d o : Service) (field : String) :
    labelField (getService d o) field
      = match labelField o field with
        | some v => some v
        | none => labelField d field := by
  have h := mapGet_mergeMap d.Config.Labels o.Config.Labels ("pygmy." ++ field)
  unfold labelField
  simp only [getService]
  rw [h]
  cases mapGet o.Config.Labels ("pygmy." ++ field) <;> rfl

theorem GetFieldInt_fillPorts (defaultPorts p : Service)
    (h : labelField defaultPorts "weight" = none) :
    GetFieldInt (fillPorts specExternals defaultPorts p) "weight" = GetFieldInt p "weight" := by
  unfold fillPorts
  split_ifs
  · have hl : labelField (getService defaultPorts p) "weight" = labelField p "weight" := by
      rw [labelField_getService, h]
      cases labelField p "weight" <;> rfl
    show GetFieldInt (getService defaultPorts p) "weight" = _
    unfold GetFieldInt
    rw [hl]
  · rfl

theorem image_fillPorts (defaultPorts p : Service) (h : p.Config.Image ≠ "") :
    (fillPorts specExternals defaultPorts p).Config.Image ≠ "" := by
  unfold fillPorts
  split_ifs
  · show (getService defaultPorts p).Config.Image ≠ ""
    simp [getService, h]
  · exact h

theorem ensureServices_of_empty (c : Config) (h : mapRange c.Services = []) :
    ensureServices c = withServices c (GoMap.mk []) := by
  unfold ensureServices
  rw [h]
  simp

theorem filledEntries_spec (P : Providers) (domain : String) :
    filledEntries specExternals P domain
      = [("amazeeio-ssh-agent", P.agentNew),
         ("amazeeio-ssh-agent-add-key", P.keyNewAdder),
         ("amazeeio-dnsmasq", P.dnsmasqNew domain),
         ("amazeeio-haproxy",
           fillPorts specExternals P.haproxyNewDefaultPorts (P.haproxyNew domain)),
         ("amazeeio-mailhog",
           fillPorts specExternals P.mailhogNewDefaultPorts (P.mailhogNew domain))] := by
  simp only [filledEntries, specExternals, getService_zero]

/-- The defaults block on a config without services, every provider default reading
truthy: the services map becomes `filledEntries`. -/
theorem defaultsBlock_fresh (X : Externals) (P : Providers) (E : Environment) (c : Config)
    (hdefaults : c.Defaults = true) (hnone : mapRange c.Services = [])
    (hflags : ∀ p ∈ providerList P c.Domain, (X.GetFieldBool p "defaults").1 = true) :
    defaultsBlock X P E c
      = some (volumesPass E (networksPass E
          (withServices c (GoMap.mk (filledEntries X P c.Domain))))) := by
  have h1 := importPass_fresh X P (withServices c (GoMap.mk [])) rfl hflags
  have h2 := backfill_defaultEntries X P
    (withServices (withServices c (GoMap.mk [])) (GoMap.mk (defaultEntries X P c.Domain)))
    c.Domain rfl
  unfold defaultsBlock
  rw [if_pos hdefaults, ensureServices_of_empty c hnone]
  erw [h1]
  simp only [Option.some_bind]
  erw [h2]
  rfl

theorem sortPairs_ascending (l : List (Int × String))
    (hw : ∀ a ∈ l, 0 ≤ a.1 ∧ a.1 ≤ 999999) :
    (sortPairs l).Pairwise fun a b => pairLess b a = false := by
  have hcmp : ∀ a ∈ l, ∀ b ∈ l,
      strLess (sortKey a.1 a.2) (sortKey b.1 b.2) = pairLess a b := fun a ha b hb =>
    sortKey_pairLess a b (hw a ha).1 (hw a ha).2 (hw b hb).1 (hw b hb).2
  have hasc := sortStrings_ascending (l.map fun p => sortKey p.1 p.2)
  rw [sortStrings_map (fun p => sortKey p.1 p.2) _ hcmp, List.pairwise_map] at hasc
  refine hasc.imp_of_mem ?_
  intro a b ha hb hab
  rw [← hcmp b ((sortPairs_perm _).mem_iff.1 hb) a ((sortPairs_perm _).mem_iff.1 ha)]
  exact hab

theorem knownServices_no_bar : ∀ k ∈ knownServices, '|' ∉ k.data := by
  decide

/-- A whole run with the helpers of the spec on a config that has defaults enabled and no
services after the store is decoded. -/
theorem Setup_fresh (P : Providers) (E : Environment) (c cU : Config)
    (hU : E.Unmarshal (registeredResolvers E (defaultDomain E c)) (defaultDomain E c) = cU)
    (hdefaults : cU.Defaults = true) (hnone : mapRange cU.Services = [])
    (hflags : ∀ p ∈ providerList P cU.Domain, (GetFieldBool p "defaults").1 = true)
    (himages : ∀ p ∈ providerList P cU.Domain, p.Config.Image ≠ "")
    (hweights : ∀ a ∈ providerWeights specExternals P cU.Domain, 0 ≤ a.1 ∧ a.1 ≤ 999999)
    (hports : labelField P.haproxyNewDefaultPorts "weight" = none ∧
      labelField P.mailhogNewDefaultPorts "weight" = none) :
    Setup specExternals P E c
      = Outcome.done (withSortedServices
          (volumesPass E (networksPass E
            (withServices cU (GoMap.mk (filledEntries specExternals P cU.Domain)))))
          ((sortPairs (providerWeights specExternals P cU.Domain)).map Prod.snd)) := by
  have hblock := defaultsBlock_fresh specExternals P E cU hdefaults hnone hflags
  have hserv : (volumesPass E (networksPass E
      (withServices cU (GoMap.mk (filledEntries specExternals P cU.Domain))))).Services
      = GoMap.mk (filledEntries specExternals P cU.Domain) := by
    rw [volumesPass_services, networksPass_services]
    rfl
  have i1 := himages P.agentNew (by simp [providerList])
  have i2 := himages P.keyNewAdder (by simp [providerList])
  have i3 := himages (P.dnsmasqNew cU.Domain) (by simp [providerList])
  have i4 := image_fillPorts P.haproxyNewDefaultPorts _
    (himages (P.haproxyNew cU.Domain) (by simp [providerList]))
  have i5 := image_fillPorts P.mailhogNewDefaultPorts _
    (himages (P.mailhogNew cU.Domain) (by simp [providerList]))
  have hval : validate specExternals (GoMap.mk (filledEntries specExternals P cU.Domain))
      = none := by
    apply validate_spec_of_images
    rw [filledEntries_spec]
    intro e he
    simp only [mapRange, List.mem_cons, List.mem_singleton, List.not_mem_nil, or_false] at he
    rcases he with rfl | rfl | rfl | rfl | rfl
    · exact i1
    · exact i2
    · exact i3
    · exact i4
    · exact i5
  have hpairs : weightPairs specExternals (GoMap.mk (filledEntries specExternals P cU.Domain))
      = providerWeights specExternals P cU.Domain := by
    rw [filledEntries_spec]
    simp only [weightPairs, mapRange, providerWeights, List.map_cons, List.map_nil]
    have w4 := GetFieldInt_fillPorts P.haproxyNewDefaultPorts (P.haproxyNew cU.Domain) hports.1
    have w5 := GetFieldInt_fillPorts P.mailhogNewDefaultPorts (P.mailhogNew cU.Domain) hports.2
    show [_, _, _, ((GetFieldInt _ "weight").1, _), ((GetFieldInt _ "weight").1, _)] = _
    rw [w4, w5]
    rfl
  have hbar : ∀ a ∈ weightPairs specExternals
      (GoMap.mk (filledEntries specExternals P cU.Domain)), '|' ∉ a.2.data := by
    intro a ha
    obtain ⟨e, he, rfl⟩ := List.mem_map.1 ha
    exact knownServices_no_bar e.1 (List.mem_map_of_mem Prod.fst he)
  have hord := orderPass_sortPairs specExternals
    (GoMap.mk (filledEntries specExternals P cU.Domain))
    (by rw [hpairs]; exact hweights) hbar
  rw [hpairs] at hord
  unfold Setup
  rw [hU, hblock]
  simp only [validateAndOrder, hserv, hval, hord]

/-- Claim C15, as stated, fails: with provider weights -5 for the reverse proxy and -3 for
the mail capture, Setup completes with the five services, but the mail capture stands
before the reverse proxy in SortedServices. -/
theorem C15_counterexample_negative_weights :
    (specExternals.GetFieldInt
      ((providersWithWeights "-5" "-3").haproxyNew "docker.amazee.io") "weight").1 = -5 ∧
    (specExternals.GetFieldInt
      ((providersWithWeights "-5" "-3").mailhogNew "docker.amazee.io") "weight").1 = -3 ∧
    (Setup specExternals (providersWithWeights "-5" "-3") sampleEnvironment
        (configOf GoMap.nil)).config.map (fun r => r.SortedServices)
      = some ["amazeeio-mailhog", "amazeeio-haproxy", "amazeeio-dnsmasq", "amazeeio-ssh-agent",
          "amazeeio-ssh-agent-add-key"] := by
  refine ⟨by decide, by decide, by decide⟩

/-- Claim C15, amended: with the helpers as the spec describes them, a config that has
defaults enabled and no services once the store is decoded, provider defaults that each
read truthy for "defaults", carry a non-empty image and have a weight in 0..999999, and
default-ports variants without a weight label: Setup completes, the keys of Services are
exactly the five known identifiers, and SortedServices is those five identifiers sorted by
the provider defaults' weights, ties by identifier. -/
theorem C15_fresh_config_gets_five_services (P : Providers) (E : Environment) (c cU : Config)
    (hU : E.Unmarshal (registeredResolvers E (defaultDomain E c)) (defaultDomain E c) = cU)
    (hdefaults : cU.Defaults = true) (hnone : mapRange cU.Services = [])
    (hflags : ∀ p ∈ providerList P cU.Domain, (GetFieldBool p "defaults").1 = true)
    (himages : ∀ p ∈ providerList P cU.Domain, p.Config.Image ≠ "")
    (hweights : ∀ a ∈ providerWeights specExternals P cU.Domain, 0 ≤ a.1 ∧ a.1 ≤ 999999)
    (hports : labelField P.haproxyNewDefaultPorts "weight" = none ∧
      labelField P.mailhogNewDefaultPorts "weight" = none) :
    ∃ r, Setup specExternals P E c = Outcome.done r ∧
      mapKeys r.Services = knownServices ∧
      r.SortedServices.Perm knownServices ∧
      r.SortedServices
        = (sortPairs (providerWeights specExternals P cU.Domain)).map Prod.snd ∧
      (sortPairs (providerWeights specExternals P cU.Domain)).Pairwise
        (fun a b => pairLess b a = false) := by
  refine ⟨_, Setup_fresh P E c cU hU hdefaults hnone hflags himages hweights hports, ?_, ?_,
    rfl, sortPairs_ascending _ hweights⟩
  · show mapKeys (volumesPass E (networksPass E
      (withServices cU (GoMap.mk (filledEntries specExternals P cU.Domain))))).Services = _
    rw [volumesPass_services, networksPass_services]
    rfl
  · exact (sortPairs_perm (providerWeights specExternals P cU.Domain)).map Prod.snd

theorem C15_fresh_config_gets_five_services_witness :
    ∃ r, Setup specExternals (providersWithWeights "14" "15") sampleEnvironment
        (configOf GoMap.nil) = Outcome.done r ∧
      mapKeys r.Services = knownServices ∧
      r.SortedServices.Perm knownServices ∧
      r.SortedServices
        = (sortPairs (providerWeights specExternals (providersWithWeights "14" "15")
            (configOf GoMap.nil).Domain)).map Prod.snd ∧
      (sortPairs (providerWeights specExternals (providersWithWeights "14" "15")
          (configOf GoMap.nil).Domain)).Pairwise
        (fun a b => pairLess b a = false) :=
  C15_fresh_config_gets_five_services (providersWithWeights "14" "15") sampleEnvironment
    (configOf GoMap.nil) (configOf GoMap.nil) (by decide) (by decide) (by decide) (by decide)
    (by decide) (by decide) (by decide)

/-! ## A second run -/

theorem Config_ext (a b : Config) (h1 : a.Domain = b.Domain) (h2 : a.Defaults = b.Defaults)
    (h3 : a.Services = b.Services) (h4 : a.Networks = b.Networks)
    (h5 : a.Volumes = b.Volumes) (h6 : a.SortedServices = b.SortedServices) : a = b := by
  cases a
  cases b
  simp only at h1 h2 h3 h4 h5 h6
  simp [h1, h2, h3, h4, h5, h6]

theorem networksPass_frame (E : Environment) (c : Config) :
    (networksPass E c).Domain = c.Domain ∧ (networksPass E c).Defaults = c.Defaults ∧
    (networksPass E c).Volumes = c.Volumes ∧
    (networksPass E c).SortedServices = c.SortedServices ∧
    mapIsNil (networksPass E c).Networks = false := by
  unfold networksPass
  split_ifs with h
  · exact ⟨rfl, rfl, rfl, rfl, rfl⟩
  · exact ⟨rfl, rfl, rfl, rfl, by simpa using h⟩

theorem volumesPass_frame (E : Environment) (c : Config) :
    (volumesPass E c).Domain = c.Domain ∧ (volumesPass E c).Defaults = c.Defaults ∧
    (volumesPass E c).Networks = c.Networks ∧
    (volumesPass E c).SortedServices = c.SortedServices := by
  unfold volumesPass ensureVolumes
  split_ifs <;> exact ⟨rfl, rfl, rfl, rfl⟩

/-- What a returning run of the last two passes says about them. -/
theorem validateAndOrder_done (X : Externals) (c r : Config)
    (h : validateAndOrder X c = Outcome.done r) :
    validate X c.Services = none ∧
    ∃ l, orderPass X c.Services = some l ∧ r = withSortedServices c l := by
  unfold validateAndOrder at h
  cases hv : validate X c.Services with
  | some f => simp [hv] at h
  | none =>
    cases ho : orderPass X c.Services with
    | none => simp [hv, ho] at h
    | some l =>
      simp only [hv, ho, Outcome.done.injEq] at h
      exact ⟨rfl, l, rfl, h.symm⟩

/-- Claim C14, as stated, fails: an override entry for the reverse proxy with an image of its
own keeps that image in the first run (the provider default is merged under it) and loses
it in the second, where the merged-in defaults label makes ImportDefaults replace the entry
by the provider default. -/
theorem C14_counterexample_second_run_replaces_override :
    ((Setup specExternals (providersWithWeights "14" "15") sampleEnvironment
        customProxy).config.bind fun r =>
      (mapGet r.Services "amazeeio-haproxy").map fun s => s.Config.Image)
      = some "custom/image" ∧
    (((Setup specExternals (providersWithWeights "14" "15") sampleEnvironment
        customProxy).config.bind fun r =>
      (Setup specExternals (providersWithWeights "14" "15") sampleEnvironment r).config).bind
      fun r2 => (mapGet r2.Services "amazeeio-haproxy").map fun s => s.Config.Image)
      = some "amazeeio/haproxy" := by
  refine ⟨by decide, by decide⟩

/-! ## A second run, entry by entry -/

theorem lookupKey_none_of_not_mem {V : Type} (l : List (String × V)) (k : String)
    (h : k ∉ l.map Prod.fst) : lookupKey k l = none := by
  induction l with
  | nil => rfl
  | cons e rest ih =>
    obtain ⟨k', v'⟩ := e
    have hne : k' ≠ k := fun hk => h (by simp [hk])
    have hrest : k ∉ rest.map Prod.fst := fun hk => h (by simp [hk])
    simp only [lookupKey, hne, if_false]
    exact ih hrest

/-- Two entry lists with the same distinct keys in the same order and the same value under
every key are the same list. -/
theorem entries_ext {V : Type} (l1 l2 : List (String × V))
    (hnodup : (l1.map Prod.fst).Nodup) (hkeys : l1.map Prod.fst = l2.map Prod.fst)
    (hget : ∀ k, lookupKey k l1 = lookupKey k l2) : l1 = l2 := by
  induction l1 generalizing l2 with
  | nil =>
    cases l2 with
    | nil => rfl
    | cons e rest => simp at hkeys
  | cons e rest ih =>
    obtain ⟨k, v⟩ := e
    cases l2 with
    | nil => simp at hkeys
    | cons e2 rest2 =>
      obtain ⟨k2, v2⟩ := e2
      simp only [List.map_cons, List.cons.injEq] at hkeys
      obtain ⟨hk, hrest⟩ := hkeys
      subst hk
      have hnd := List.nodup_cons.1 hnodup
      have hv : v = v2 := by
        have := hget k
        simpa [lookupKey] using this
      subst hv
      have htail : rest = rest2 := by
        apply ih rest2 hnd.2 hrest
        intro k3
        by_cases h3 : k = k3
        · subst h3
          rw [lookupKey_none_of_not_mem rest k hnd.1,
            lookupKey_none_of_not_mem rest2 k (by rw [← hrest]; exact hnd.1)]
        · have := hget k3
          simpa [lookupKey, h3] using this
      rw [htail]

theorem mapGet_eq_lookupKey {V : Type} (m : GoMap V) (k : String) :
    mapGet m k = lookupKey k (mapRange m) := by
  cases m <;> rfl

theorem keys_assignKey_absent {V : Type} (k : String) (v : V) (l : List (String × V))
    (h : lookupKey k l = none) :
    (assignKey k v l).map Prod.fst = l.map Prod.fst ++ [k] := by
  induction l with
  | nil => rfl
  | cons e rest ih =>
    obtain ⟨k', v'⟩ := e
    by_cases hk : k' = k
    · simp [lookupKey, hk] at h
    · simp only [lookupKey, hk, if_false] at h
      simp [assignKey, hk, ih h]

theorem importSlot_some (X : Externals) (importer e : Service) :
    ∃ e2, importSlot X importer (some e) = some e2 := by
  simp only [importSlot]
  split_ifs <;> exact ⟨_, rfl⟩

theorem backfillSlot_some (X : Externals) (defaultPorts : Service) (s : Option Service) :
    ∃ e2, backfillSlot X defaultPorts s = some e2 := by
  cases s with
  | none => exact ⟨X.getService defaultPorts Service.zero, rfl⟩
  | some e =>
    simp only [backfillSlot]
    split_ifs <;> exact ⟨_, rfl⟩

/-- The slot of the key after a statement whose function keeps an existing entry in
place. -/
theorem lookupKey_slotStep_self (f : Option Service → Option Service) (k : String)
    (l : List (String × Service)) (hf : ∀ e, ∃ e2, f (some e) = some e2) :
    lookupKey k (slotStep f k l) = f (lookupKey k l) := by
  unfold slotStep setSlot
  cases hfv : f (lookupKey k l) with
  | some v => exact lookupKey_assignKey_self k v l
  | none =>
    cases hk : lookupKey k l with
    | none => rfl
    | some e =>
      obtain ⟨e2, he2⟩ := hf e
      rw [hk, he2] at hfv
      cases hfv

theorem lookupKey_slotStep_ne (f : Option Service → Option Service) (k k2 : String)
    (l : List (String × Service)) (hne : k2 ≠ k) :
    lookupKey k2 (slotStep f k l) = lookupKey k2 l := by
  unfold slotStep setSlot
  cases f (lookupKey k l) with
  | some v => exact lookupKey_assignKey_ne k k2 v l hne
  | none => rfl

theorem lookupKey_importStep (X : Externals) (importer : Service) (k k2 : String)
    (l : List (String × Service)) :
    lookupKey k2 (slotStep (importSlot X importer) k l)
      = if k2 = k then importSlot X importer (lookupKey k l) else lookupKey k2 l := by
  split_ifs with h
  · subst h
    exact lookupKey_slotStep_self _ _ _ (importSlot_some X importer)
  · exact lookupKey_slotStep_ne _ _ _ _ h

theorem lookupKey_backfillStep (X : Externals) (defaultPorts : Service) (k k2 : String)
    (l : List (String × Service)) :
    lookupKey k2 (slotStep (backfillSlot X defaultPorts) k l)
      = if k2 = k then backfillSlot X defaultPorts (lookupKey k l) else lookupKey k2 l := by
  split_ifs with h
  · subst h
    exact lookupKey_slotStep_self _ _ _ (fun e => backfillSlot_some X defaultPorts (some e))
  · exact lookupKey_slotStep_ne _ _ _ _ h

theorem keys_slotStep (f : Option Service → Option Service) (k : String)
    (l : List (String × Service)) :
    ∃ extra, (slotStep f k l).map Prod.fst = l.map Prod.fst ++ extra := by
  unfold slotStep setSlot
  cases f (lookupKey k l) with
  | none => exact ⟨[], by simp⟩
  | some v =>
    cases hk : lookupKey k l with
    | none => exact ⟨[k], keys_assignKey_absent k v l hk⟩
    | some w => exact ⟨[], by simp [keys_assignKey_present k v w l hk]⟩

theorem nodup_slotStep (f : Option Service → Option Service) (k : String)
    (l : List (String × Service)) (h : (l.map Prod.fst).Nodup) :
    ((slotStep f k l).map Prod.fst).Nodup := by
  unfold slotStep setSlot
  cases f (lookupKey k l) with
  | none => exact h
  | some v =>
    cases hk : lookupKey k l with
    | some w =>
      show ((assignKey k v l).map Prod.fst).Nodup
      rw [keys_assignKey_present k v w l hk]
      exact h
    | none =>
      show ((assignKey k v l).map Prod.fst).Nodup
      rw [keys_assignKey_absent k v l hk]
      apply List.Nodup.append h (List.nodup_singleton k)
      intro a ha hb
      rw [List.mem_singleton] at hb
      subst hb
      obtain ⟨x, hx, hx2⟩ := List.mem_map.1 ha
      obtain ⟨k', v'⟩ := x
      simp only at hx2
      subst hx2
      have : ∃ w, lookupKey k' l = some w := by
        clear hk h ha
        induction l with
        | nil => cases hx
        | cons e rest ih =>
          obtain ⟨k3, v3⟩ := e
          by_cases h3 : k3 = k'
          · exact ⟨v3, by simp [lookupKey, h3]⟩
          · rcases List.mem_cons.1 hx with heq | hrest
            · cases heq
              exact absurd rfl h3
            · obtain ⟨w, hw⟩ := ih hrest
              exact ⟨w, by simp [lookupKey, h3, hw]⟩
      obtain ⟨w, hw⟩ := this
      rw [hk] at hw
      cases hw

/-- A call of `ImportDefaults` on an initialised services map, as a statement on the entry
list. -/
theorem ImportDefaults_list (X : Externals) (c : Config) (l : List (String × Service))
    (k : String) (importer : Service) (hl : c.Services = GoMap.mk l) :
    ∃ b, ImportDefaults X c k importer
      = some (withServices c (GoMap.mk (slotStep (importSlot X importer) k l)), b) := by
  have hget : mapGet c.Services k = lookupKey k l := by
    rw [hl]
    rfl
  cases hk : lookupKey k l with
  | none =>
    by_cases hflag : (X.GetFieldBool importer "defaults").1 = true
    · refine ⟨true, ?_⟩
      rw [ImportDefaults_sets X c l k importer hl (Or.inl ⟨hk, hflag⟩)]
      simp [slotStep, setSlot, importSlot, hk, hflag]
    · refine ⟨false, ?_⟩
      rw [ImportDefaults, hget, hk]
      simp [slotStep, setSlot, importSlot, hk, hflag, withServices_self c _ hl]
  | some e =>
    by_cases hlab : defaultsLabelSet e = true
    · refine ⟨true, ?_⟩
      rw [ImportDefaults_sets X c l k importer hl (Or.inr ⟨e, hk, hlab⟩)]
      simp [slotStep, setSlot, importSlot, hk, hlab]
    · by_cases hflag : (X.GetFieldBool e "defaults").1 = true
      · refine ⟨true, ?_⟩
        rw [ImportDefaults, hget, hk]
        simp [slotStep, setSlot, importSlot, hk, hlab, hflag,
          mergeInto_mk X c l k importer hl]
      · by_cases hlab2 : defaultsLabelSet importer = true
        · refine ⟨true, ?_⟩
          rw [ImportDefaults, hget, hk]
          simp [slotStep, setSlot, importSlot, hk, hlab, hflag, hlab2,
            mergeInto_mk X c l k importer hl]
        · refine ⟨false, ?_⟩
          rw [ImportDefaults, hget, hk]
          simp [slotStep, setSlot, importSlot, hk, hlab, hflag, hlab2,
            assignKey_same k e l hk, withServices_self c _ hl]

/-- A backfill step on an initialised services map, as a statement on the entry list. -/
theorem backfillOne_list (X : Externals) (defaultPorts : Service) (k : String) (c : Config)
    (l : List (String × Service)) (hl : c.Services = GoMap.mk l) :
    backfillOne X defaultPorts k c
      = some (withServices c (GoMap.mk (slotStep (backfillSlot X defaultPorts) k l))) := by
  have hidx : mapIndex Service.zero c.Services k = (lookupKey k l).getD Service.zero := by
    rw [hl]
    rfl
  unfold backfillOne
  rw [hidx]
  by_cases hpb : mapIsNil ((lookupKey k l).getD Service.zero).HostConfig.PortBindings = true
  · simp [slotStep, setSlot, backfillSlot, hpb, mergeInto_mk X c l k defaultPorts hl]
  · cases hk : lookupKey k l with
    | none =>
      rw [hk] at hpb
      exact absurd rfl hpb
    | some e =>
      rw [hk] at hpb
      simp only [Option.getD_some] at hpb
      simp [slotStep, setSlot, backfillSlot, hk, hpb, assignKey_same k e l hk,
        withServices_self c _ hl]

/-- The five calls and the backfill on an initialised services map, as a statement on the
entry list. -/
theorem servicesPass_list (X : Externals) (P : Providers) (c : Config)
    (l : List (String × Service)) (hl : c.Services = GoMap.mk l) :
    (importPass X P c).bind (backfill X P)
      = some (withServices c (GoMap.mk (servicesList X P c.Domain l))) := by
  obtain ⟨l1, hl1⟩ : ∃ l1, l1 = slotStep (importSlot X P.agentNew) "amazeeio-ssh-agent" l :=
    ⟨_, rfl⟩
  obtain ⟨l2, hl2⟩ : ∃ l2,
      l2 = slotStep (importSlot X P.keyNewAdder) "amazeeio-ssh-agent-add-key" l1 := ⟨_, rfl⟩
  obtain ⟨l3, hl3⟩ : ∃ l3,
      l3 = slotStep (importSlot X (P.dnsmasqNew c.Domain)) "amazeeio-dnsmasq" l2 := ⟨_, rfl⟩
  obtain ⟨l4, hl4⟩ : ∃ l4,
      l4 = slotStep (importSlot X (P.haproxyNew c.Domain)) "amazeeio-haproxy" l3 := ⟨_, rfl⟩
  obtain ⟨l5, hl5⟩ : ∃ l5,
      l5 = slotStep (importSlot X (P.mailhogNew c.Domain)) "amazeeio-mailhog" l4 := ⟨_, rfl⟩
  obtain ⟨l6, hl6⟩ : ∃ l6,
      l6 = slotStep (backfillSlot X P.haproxyNewDefaultPorts) "amazeeio-haproxy" l5 := ⟨_, rfl⟩
  obtain ⟨b1, e1⟩ := ImportDefaults_list X c l "amazeeio-ssh-agent" P.agentNew hl
  obtain ⟨b2, e2⟩ := ImportDefaults_list X (withServices c (GoMap.mk l1)) l1
    "amazeeio-ssh-agent-add-key" P.keyNewAdder rfl
  obtain ⟨b3, e3⟩ := ImportDefaults_list X (withServices c (GoMap.mk l2)) l2
    "amazeeio-dnsmasq" (P.dnsmasqNew c.Domain) rfl
  obtain ⟨b4, e4⟩ := ImportDefaults_list X (withServices c (GoMap.mk l3)) l3
    "amazeeio-haproxy" (P.haproxyNew c.Domain) rfl
  obtain ⟨b5, e5⟩ := ImportDefaults_list X (withServices c (GoMap.mk l4)) l4
    "amazeeio-mailhog" (P.mailhogNew c.Domain) rfl
  have e6 := backfillOne_list X P.haproxyNewDefaultPorts "amazeeio-haproxy"
    (withServices c (GoMap.mk l5)) l5 rfl
  have e7 := backfillOne_list X P.mailhogNewDefaultPorts "amazeeio-mailhog"
    (withServices c (GoMap.mk l6)) l6 rfl
  rw [← hl1] at e1
  rw [← hl2, withServices_withServices] at e2
  rw [← hl3, withServices_withServices] at e3
  rw [← hl4, withServices_withServices] at e4
  rw [← hl5, withServices_withServices] at e5
  rw [← hl6, withServices_withServices] at e6
  rw [withServices_withServices] at e7
  have d1 : (withServices c (GoMap.mk l2)).Domain = c.Domain := rfl
  have d2 : (withServices c (GoMap.mk l3)).Domain = c.Domain := rfl
  have d3 : (withServices c (GoMap.mk l4)).Domain = c.Domain := rfl
  unfold importPass backfill
  rw [e1]
  simp only [Option.some_bind]
  rw [e2]
  simp only [Option.some_bind]
  rw [d1, e3]
  simp only [Option.some_bind]
  rw [d2, e4]
  simp only [Option.some_bind]
  rw [d3, e5]
  simp only [Option.map_some', Option.some_bind]
  rw [e6]
  simp only [Option.some_bind]
  rw [e7, hl6, hl5, hl4, hl3, hl2, hl1]
  rfl

/-- The slot of every key after the services passes. -/
theorem lookupKey_servicesList (X : Externals) (P : Providers) (domain : String)
    (l : List (String × Service)) (k : String) :
    lookupKey k (servicesList X P domain l) = finalSlot X P domain k (lookupKey k l) := by
  simp only [servicesList, finalSlot, lookupKey_importStep, lookupKey_backfillStep]
  by_cases h1 : k = "amazeeio-ssh-agent"
  · subst h1
    simp
  · by_cases h2 : k = "amazeeio-ssh-agent-add-key"
    · subst h2
      simp
    · by_cases h3 : k = "amazeeio-dnsmasq"
      · subst h3
        simp
      · by_cases h4 : k = "amazeeio-haproxy"
        · subst h4
          simp
        · by_cases h5 : k = "amazeeio-mailhog"
          · subst h5
            simp
          · simp [h1, h2, h3, h4, h5]

theorem nodup_servicesList (X : Externals) (P : Providers) (domain : String)
    (l : List (String × Service)) (h : (l.map Prod.fst).Nodup) :
    ((servicesList X P domain l).map Prod.fst).Nodup := by
  unfold servicesList
  exact nodup_slotStep _ _ _ (nodup_slotStep _ _ _ (nodup_slotStep _ _ _ (nodup_slotStep _ _ _
    (nodup_slotStep _ _ _ (nodup_slotStep _ _ _ (nodup_slotStep _ _ _ h))))))

theorem keys_servicesList (X : Externals) (P : Providers) (domain : String)
    (l : List (String × Service)) :
    ∃ extra, (servicesList X P domain l).map Prod.fst = l.map Prod.fst ++ extra := by
  unfold servicesList
  obtain ⟨x1, h1⟩ := keys_slotStep (importSlot X P.agentNew) "amazeeio-ssh-agent" l
  obtain ⟨x2, h2⟩ := keys_slotStep (importSlot X P.keyNewAdder) "amazeeio-ssh-agent-add-key"
    (slotStep (importSlot X P.agentNew) "amazeeio-ssh-agent" l)
  obtain ⟨x3, h3⟩ := keys_slotStep (importSlot X (P.dnsmasqNew domain)) "amazeeio-dnsmasq"
    (slotStep (importSlot X P.keyNewAdder) "amazeeio-ssh-agent-add-key"
      (slotStep (importSlot X P.agentNew) "amazeeio-ssh-agent" l))
  obtain ⟨x4, h4⟩ := keys_slotStep (importSlot X (P.haproxyNew domain)) "amazeeio-haproxy"
    (slotStep (importSlot X (P.dnsmasqNew domain)) "amazeeio-dnsmasq"
      (slotStep (importSlot X P.keyNewAdder) "amazeeio-ssh-agent-add-key"
        (slotStep (importSlot X P.agentNew) "amazeeio-ssh-agent" l)))
  obtain ⟨x5, h5⟩ := keys_slotStep (importSlot X (P.mailhogNew domain)) "amazeeio-mailhog"
    (slotStep (importSlot X (P.haproxyNew domain)) "amazeeio-haproxy"
      (slotStep (importSlot X (P.dnsmasqNew domain)) "amazeeio-dnsmasq"
        (slotStep (importSlot X P.keyNewAdder) "amazeeio-ssh-agent-add-key"
          (slotStep (importSlot X P.agentNew) "amazeeio-ssh-agent" l))))
  obtain ⟨x6, h6⟩ := keys_slotStep (backfillSlot X P.haproxyNewDefaultPorts) "amazeeio-haproxy"
    (slotStep (importSlot X (P.mailhogNew domain)) "amazeeio-mailhog"
      (slotStep (importSlot X (P.haproxyNew domain)) "amazeeio-haproxy"
        (slotStep (importSlot X (P.dnsmasqNew domain)) "amazeeio-dnsmasq"
          (slotStep (importSlot X P.keyNewAdder) "amazeeio-ssh-agent-add-key"
            (slotStep (importSlot X P.agentNew) "amazeeio-ssh-agent" l)))))
  obtain ⟨x7, h7⟩ := keys_slotStep (backfillSlot X P.mailhogNewDefaultPorts) "amazeeio-mailhog"
    (slotStep (backfillSlot X P.haproxyNewDefaultPorts) "amazeeio-haproxy"
      (slotStep (importSlot X (P.mailhogNew domain)) "amazeeio-mailhog"
        (slotStep (importSlot X (P.haproxyNew domain)) "amazeeio-haproxy"
          (slotStep (importSlot X (P.dnsmasqNew domain)) "amazeeio-dnsmasq"
            (slotStep (importSlot X P.keyNewAdder) "amazeeio-ssh-agent-add-key"
              (slotStep (importSlot X P.agentNew) "amazeeio-ssh-agent" l))))))
  refine ⟨x1 ++ x2 ++ x3 ++ x4 ++ x5 ++ x6 ++ x7, ?_⟩
  rw [h7, h6, h5, h4, h3, h2, h1]
  simp only [List.append_assoc]

/-- Services passes that add no entry leave the keys as they are. -/
theorem keys_servicesList_of_subset (X : Externals) (P : Providers) (domain : String)
    (l : List (String × Service)) (hnodup : (l.map Prod.fst).Nodup)
    (hsub : ∀ k ∈ (servicesList X P domain l).map Prod.fst, k ∈ l.map Prod.fst) :
    (servicesList X P domain l).map Prod.fst = l.map Prod.fst := by
  obtain ⟨extra, hx⟩ := keys_servicesList X P domain l
  have hnd := nodup_servicesList X P domain l hnodup
  rw [hx] at hnd hsub
  have hempty : extra = [] := by
    cases extra with
    | nil => rfl
    | cons a rest =>
      have ha : a ∈ l.map Prod.fst := hsub a (by simp)
      have hdis := (List.nodup_append.1 hnd).2.2
      exact absurd (List.mem_cons_self a rest) (fun hmem => hdis ha hmem)
  rw [hx, hempty, List.append_nil]

theorem finalSlot_known (X : Externals) (P : Providers) (domain : String)
    (kp : String × Service × Option Service) (hkp : kp ∈ knownProviders P domain)
    (s : Option Service) :
    finalSlot X P domain kp.1 s = portsSlot X kp.2.2 (importSlot X kp.2.1 s) := by
  simp only [knownProviders, List.mem_cons, List.mem_singleton, List.not_mem_nil,
    or_false] at hkp
  rcases hkp with rfl | rfl | rfl | rfl | rfl <;> simp [finalSlot, portsSlot]

theorem portsSlot_some (X : Externals) (defaultPorts : Option Service) (e : Service) :
    ∃ e2, portsSlot X defaultPorts (some e) = some e2 := by
  cases defaultPorts with
  | none => exact ⟨e, rfl⟩
  | some dp => exact backfillSlot_some X dp (some e)

theorem portsSlot_some_eq (X : Externals) (defaultPorts : Option Service) (e : Service) :
    portsSlot X defaultPorts (some e) = some (withPorts X defaultPorts e) := by
  cases defaultPorts with
  | none => rfl
  | some dp =>
    simp only [portsSlot, backfillSlot, withPorts, fillPorts, Option.getD_some]
    split_ifs <;> rfl

/-- An entry is settled exactly when the call and the backfill step leave it in its slot. -/
theorem settled_iff (X : Externals) (importer : Service) (defaultPorts : Option Service)
    (entry : Service) :
    Settled X importer defaultPorts entry
      ↔ portsSlot X defaultPorts (importSlot X importer (some entry)) = some entry := by
  unfold Settled
  by_cases hlab : defaultsLabelSet entry = true
  · simp [importSlot, hlab, portsSlot_some_eq]
  · have hlab2 : defaultsLabelSet entry = false := by simpa using hlab
    by_cases hflag : (X.GetFieldBool entry "defaults").1 = true
    · simp [importSlot, hlab2, hflag, portsSlot_some_eq]
    · have hflag2 : (X.GetFieldBool entry "defaults").1 = false := by simpa using hflag
      by_cases hlab3 : defaultsLabelSet importer = true
      · simp [importSlot, hlab2, hflag2, hlab3, portsSlot_some_eq]
      · have hlab4 : defaultsLabelSet importer = false := by simpa using hlab3
        simp [importSlot, hlab2, hflag2, hlab4, portsSlot_some_eq]

/-- A slot of a known identifier that holds what the first run left, a settled entry or
none, is left as it is by the services passes of a second run. -/
theorem finalSlot_again (X : Externals) (P : Providers) (domain : String)
    (kp : String × Service × Option Service) (hkp : kp ∈ knownProviders P domain)
    (start result : Option Service)
    (hcond : ∀ entry, result = some entry → Settled X kp.2.1 kp.2.2 entry)
    (hres : finalSlot X P domain kp.1 start = result) :
    finalSlot X P domain kp.1 result = result := by
  cases hr : result with
  | some entry =>
    rw [finalSlot_known X P domain kp hkp]
    exact (settled_iff X kp.2.1 kp.2.2 entry).1 (hcond entry hr)
  | none =>
    rw [hr] at hres
    cases hs : start with
    | none =>
      rw [hs] at hres
      exact hres
    | some e =>
      rw [hs, finalSlot_known X P domain kp hkp] at hres
      obtain ⟨e1, h1⟩ := importSlot_some X kp.2.1 e
      obtain ⟨e2, h2⟩ := portsSlot_some X kp.2.2 e1
      rw [h1, h2] at hres
      cases hres

theorem knownProviders_of_mem (P : Providers) (domain : String) (k : String)
    (h : k ∈ knownServices) : ∃ kp ∈ knownProviders P domain, kp.1 = k := by
  simp only [knownServices, List.mem_cons, List.mem_singleton, List.not_mem_nil,
    or_false] at h
  rcases h with rfl | rfl | rfl | rfl | rfl
  · exact ⟨_, List.mem_cons_self _ _, rfl⟩
  · exact ⟨_, List.mem_cons_of_mem _ (List.mem_cons_self _ _), rfl⟩
  · exact ⟨_, List.mem_cons_of_mem _ (List.mem_cons_of_mem _ (List.mem_cons_self _ _)), rfl⟩
  · exact ⟨_, List.mem_cons_of_mem _ (List.mem_cons_of_mem _ (List.mem_cons_of_mem _
      (List.mem_cons_self _ _))), rfl⟩
  · exact ⟨_, List.mem_cons_of_mem _ (List.mem_cons_of_mem _ (List.mem_cons_of_mem _
      (List.mem_cons_of_mem _ (List.mem_cons_self _ _)))), rfl⟩

theorem finalSlot_other (X : Externals) (P : Providers) (domain : String) (k : String)
    (h : k ∉ knownServices) (s : Option Service) : finalSlot X P domain k s = s := by
  simp only [knownServices, List.mem_cons, List.mem_singleton, List.not_mem_nil,
    or_false, not_or] at h
  obtain ⟨h1, h2, h3, h4, h5⟩ := h
  simp [finalSlot, h1, h2, h3, h4, h5]

/-- The services passes of the second run reproduce the entry list the first run left. -/
theorem servicesList_again (X : Externals) (P : Providers) (domain : String)
    (l0 l2 : List (String × Service)) (hnodup : (l0.map Prod.fst).Nodup)
    (hkeys : l2.map Prod.fst = (servicesList X P domain l0).map Prod.fst)
    (hknown : ∀ kp ∈ knownProviders P domain,
      EntryReproduced X kp.2.1 kp.2.2 (lookupKey kp.1 l0) (lookupKey kp.1 l2)
        (lookupKey kp.1 (servicesList X P domain l0)))
    (hother : ∀ k, k ∉ knownServices →
      lookupKey k l2 = lookupKey k (servicesList X P domain l0)) :
    servicesList X P domain l2 = servicesList X P domain l0 := by
  have hslot : ∀ k, finalSlot X P domain k (lookupKey k l2)
      = lookupKey k (servicesList X P domain l0) := by
    intro k
    by_cases hk : k ∈ knownServices
    · obtain ⟨kp, hkp, rfl⟩ := knownProviders_of_mem P domain k hk
      rcases hknown kp hkp with h1 | ⟨h2, hcond⟩
      · rw [h1, lookupKey_servicesList]
      · rw [h2]
        exact finalSlot_again X P domain kp hkp (lookupKey kp.1 l0) _ hcond
          (lookupKey_servicesList X P domain l0 kp.1).symm
    · rw [finalSlot_other X P domain k hk, hother k hk]
  have hnd0 := nodup_servicesList X P domain l0 hnodup
  have hnd2 : (l2.map Prod.fst).Nodup := by rw [hkeys]; exact hnd0
  have hk2 : (servicesList X P domain l2).map Prod.fst = l2.map Prod.fst := by
    apply keys_servicesList_of_subset X P domain l2 hnd2
    intro k hk
    by_contra hnot
    have h1 : lookupKey k (servicesList X P domain l2) = none := by
      rw [lookupKey_servicesList, lookupKey_none_of_not_mem l2 k hnot]
      have := hslot k
      rw [lookupKey_none_of_not_mem l2 k hnot] at this
      rw [this]
      exact lookupKey_none_of_not_mem _ k (by rw [← hkeys]; exact hnot)
    obtain ⟨x, hx, hx2⟩ := List.mem_map.1 hk
    obtain ⟨k', v'⟩ := x
    simp only at hx2
    subst hx2
    have h2 := lookupKey_of_mem _ k' v' (nodup_servicesList X P domain l2 hnd2) hx
    rw [h1] at h2
    cases h2
  apply entries_ext _ _ (by rw [hk2]; exact hnd2) (by rw [hk2, hkeys])
  intro k
  rw [lookupKey_servicesList, hslot k]

theorem goMap_ext {V : Type} (a b : GoMap V) (hnil : mapIsNil a = mapIsNil b)
    (hrange : mapRange a = mapRange b) : a = b := by
  cases a with
  | nil =>
    cases b with
    | nil => rfl
    | mk l => simp [mapIsNil] at hnil
  | mk l =>
    cases b with
    | nil => simp [mapIsNil] at hnil
    | mk l2 =>
      simp only [mapRange] at hrange
      rw [hrange]

theorem ensureServices_services (c : Config) :
    (ensureServices c).Services = GoMap.mk (mapRange c.Services) := by
  unfold ensureServices
  cases hs : c.Services with
  | nil => simp [mapIsNil, mapRange, withServices]
  | mk l =>
    cases l with
    | nil => simp [mapIsNil, mapRange, withServices]
    | cons e es => simp [mapIsNil, mapRange, hs]

theorem withServices_ensureServices (c : Config) (m : GoMap Service) :
    withServices (ensureServices c) m = withServices c m := by
  unfold ensureServices
  split_ifs <;> rfl

theorem ensureServices_domain (c : Config) : (ensureServices c).Domain = c.Domain := by
  unfold ensureServices
  split_ifs <;> rfl

/-- The defaults block of a config on which defaulting is enabled: it returns, and the
services it leaves are those of `servicesList`. -/
theorem defaultsBlock_list (X : Externals) (P : Providers) (E : Environment) (c : Config)
    (hd : c.Defaults = true) :
    defaultsBlock X P E c
      = some (volumesPass E (networksPass E (withServices c
          (GoMap.mk (servicesList X P c.Domain (mapRange c.Services)))))) := by
  have h := servicesPass_list X P (ensureServices c) (mapRange c.Services)
    (ensureServices_services c)
  rw [withServices_ensureServices, ensureServices_domain] at h
  unfold defaultsBlock
  rw [if_pos hd]
  cases hi : importPass X P (ensureServices c) with
  | none =>
    rw [hi] at h
    cases h
  | some c1 =>
    rw [hi] at h
    simp only [Option.some_bind] at h ⊢
    rw [h]
    rfl

theorem networksPass_networks (E : Environment) (c : Config) :
    (networksPass E c).Networks
      = if mapIsNil c.Networks then
          GoMap.mk [("amazeeio-network", E.getNetwork E.networkNew NetworkResource.zero)]
        else c.Networks := by
  unfold networksPass
  split_ifs <;> rfl

theorem volumesPass_volumes (E : Environment) (c : Config) :
    (volumesPass E c).Volumes = GoMap.mk (volumesLoop E (mapRange c.Volumes)) := by
  unfold volumesPass ensureVolumes
  cases hv : c.Volumes with
  | nil => simp [mapIsNil, mapRange, withVolumes]
  | mk l => simp [mapIsNil, mapRange, withVolumes, hv]

/-- An iteration of the volumes loop changes nothing when every volume finds under its name
the runtime lookup of that name merged with itself. -/
theorem volumeStep_settled (E : Environment) (l : List (String × Volume))
    (h : ∀ e ∈ l, lookupKey e.2.Name l
      = some (E.getVolume (E.DockerVolumeGet e.2.Name).1 (E.DockerVolumeGet e.2.Name).1))
    (key : String) : volumeStep E l key = l := by
  unfold volumeStep
  cases hk : lookupKey key l with
  | none => rfl
  | some v =>
    have hv := h (key, v) (lookupKey_mem l key v hk)
    simp only [lookupKey_assignKey_self, Option.getD_some, assignKey_assignKey]
    exact assignKey_same _ _ l hv

theorem volumesLoop_settled (E : Environment) (l : List (String × Volume))
    (h : ∀ e ∈ l, lookupKey e.2.Name l
      = some (E.getVolume (E.DockerVolumeGet e.2.Name).1 (E.DockerVolumeGet e.2.Name).1)) :
    volumesLoop E l = l := by
  unfold volumesLoop
  generalize l.map Prod.fst = keys
  induction keys with
  | nil => rfl
  | cons key rest ih =>
    rw [List.foldl_cons, volumeStep_settled E l h key]
    exact ih

/-- The last two passes depend on the services only: on two configs that agree on every
field but `SortedServices` they end the same way. -/
theorem validateAndOrder_congr (X : Externals) (a b r : Config)
    (h1 : a.Domain = b.Domain) (h2 : a.Defaults = b.Defaults) (h3 : a.Services = b.Services)
    (h4 : a.Networks = b.Networks) (h5 : a.Volumes = b.Volumes)
    (h : validateAndOrder X b = Outcome.done r) : validateAndOrder X a = Outcome.done r := by
  obtain ⟨hv, l, ho, hr⟩ := validateAndOrder_done X b r h
  unfold validateAndOrder
  rw [h3, hv, ho, hr]
  simp only [Outcome.done.injEq]
  exact Config_ext _ _ h1 h2 h3 h4 h5 rfl

theorem block_fields (E : Environment) (w : Config) :
    (volumesPass E (networksPass E w)).Domain = w.Domain ∧
    (volumesPass E (networksPass E w)).Defaults = w.Defaults ∧
    (volumesPass E (networksPass E w)).Services = w.Services ∧
    (volumesPass E (networksPass E w)).Networks
      = (if mapIsNil w.Networks then
          GoMap.mk [("amazeeio-network", E.getNetwork E.networkNew NetworkResource.zero)]
        else w.Networks) ∧
    (volumesPass E (networksPass E w)).Volumes
      = GoMap.mk (volumesLoop E (mapRange w.Volumes)) := by
  obtain ⟨n1, n2, n3, -, -⟩ := networksPass_frame E w
  obtain ⟨v1, v2, v3, -⟩ := volumesPass_frame E (networksPass E w)
  refine ⟨v1.trans n1, v2.trans n2,
    (volumesPass_services E _).trans (networksPass_services E w),
    v3.trans (networksPass_networks E w), ?_⟩
  rw [volumesPass_volumes, n3]

/-- The defaults block of the second run leaves what the defaults block of the first run
left, on every field but `SortedServices`. -/
theorem defaultsBlock_agree (X : Externals) (P : Providers) (E : Environment)
    (c1 c2 r c3 : Config)
    (hblock : defaultsBlock X P E c1 = some c3)
    (hrS : r.Services = c3.Services) (hrN : r.Networks = c3.Networks)
    (hrV : r.Volumes = c3.Volumes)
    (hdef : c2.Defaults = c1.Defaults) (hdom : c2.Domain = c1.Domain)
    (hs : ServicesReproduced X P c1 c2 r) (hn : NetworksReproduced c1 c2 r)
    (hv : VolumesReproduced E c1 c2 r) :
    ∃ c4, defaultsBlock X P E c2 = some c4 ∧ c4.Domain = c3.Domain ∧
      c4.Defaults = c3.Defaults ∧ c4.Services = c3.Services ∧ c4.Networks = c3.Networks ∧
      c4.Volumes = c3.Volumes := by
  cases hd : c1.Defaults with
  | false =>
    have hb1 : defaultsBlock X P E c1 = some c1 := by simp [defaultsBlock, hd]
    have h31 : c1 = c3 := Option.some.inj (hb1.symm.trans hblock)
    subst h31
    refine ⟨c2, by simp [defaultsBlock, hdef, hd], hdom, hdef, ?_, ?_, ?_⟩
    · rcases hs with h | ⟨hnd, hnil, hkeys, hknown, hother⟩
      · exact h
      · have hk21 : (mapRange c2.Services).map Prod.fst = (mapRange c1.Services).map Prod.fst := by
          have := hkeys
          rw [hrS] at this
          exact this
        apply goMap_ext _ _ (by rw [hnil, hrS])
        apply entries_ext _ _ (by rw [hk21]; exact hnd) hk21
        intro k
        rw [← mapGet_eq_lookupKey, ← mapGet_eq_lookupKey]
        by_cases hk : k ∈ knownServices
        · obtain ⟨kp, hkp, rfl⟩ := knownProviders_of_mem P c1.Domain k hk
          rcases hknown kp hkp with h1 | ⟨h2, -⟩
          · exact h1
          · rw [h2, hrS]
        · rw [hother k hk, hrS]
    · rcases hn with h | h
      · exact h
      · exact h.trans hrN
    · rcases hv with h | ⟨h, -⟩
      · exact h
      · exact h.trans hrV
  | true =>
    rw [defaultsBlock_list X P E c1 hd] at hblock
    have h3 := Option.some.inj hblock
    obtain ⟨f1, f2, f3, f4, f5⟩ := block_fields E (withServices c1
      (GoMap.mk (servicesList X P c1.Domain (mapRange c1.Services))))
    rw [h3] at f1 f2 f3 f4 f5
    have g1 : c3.Domain = c1.Domain := f1
    have g2 : c3.Defaults = c1.Defaults := f2
    have g3 : c3.Services = GoMap.mk (servicesList X P c1.Domain (mapRange c1.Services)) := f3
    have g4 : c3.Networks
        = (if mapIsNil c1.Networks then
            GoMap.mk [("amazeeio-network", E.getNetwork E.networkNew NetworkResource.zero)]
          else c1.Networks) := f4
    have g5 : c3.Volumes = GoMap.mk (volumesLoop E (mapRange c1.Volumes)) := f5
    have hd2 : c2.Defaults = true := hdef.trans hd
    obtain ⟨e1, e2, e3, e4, e5⟩ := block_fields E (withServices c2
      (GoMap.mk (servicesList X P c2.Domain (mapRange c2.Services))))
    have k3 : (volumesPass E (networksPass E (withServices c2
        (GoMap.mk (servicesList X P c2.Domain (mapRange c2.Services)))))).Services
        = GoMap.mk (servicesList X P c2.Domain (mapRange c2.Services)) := e3
    have k4 : (volumesPass E (networksPass E (withServices c2
        (GoMap.mk (servicesList X P c2.Domain (mapRange c2.Services)))))).Networks
        = (if mapIsNil c2.Networks then
            GoMap.mk [("amazeeio-network", E.getNetwork E.networkNew NetworkResource.zero)]
          else c2.Networks) := e4
    have k5 : (volumesPass E (networksPass E (withServices c2
        (GoMap.mk (servicesList X P c2.Domain (mapRange c2.Services)))))).Volumes
        = GoMap.mk (volumesLoop E (mapRange c2.Volumes)) := e5
    refine ⟨_, defaultsBlock_list X P E c2 hd2, ?_, ?_, ?_, ?_, ?_⟩
    · rw [g1]
      exact e1.trans hdom
    · rw [g2]
      exact e2.trans hdef
    · rw [k3, g3, hdom]
      rcases hs with h | ⟨hnd, -, hkeys, hknown, hother⟩
      · rw [h]
      · rw [hrS, g3] at hkeys hknown hother
        rw [servicesList_again X P c1.Domain (mapRange c1.Services) (mapRange c2.Services)
          hnd hkeys ?_ ?_]
        · intro kp hkp
          have h := hknown kp hkp
          rw [mapGet_eq_lookupKey, mapGet_eq_lookupKey, mapGet_eq_lookupKey] at h
          exact h
        · intro k hk
          have h := hother k hk
          rw [mapGet_eq_lookupKey, mapGet_eq_lookupKey] at h
          exact h
    · rw [k4, g4]
      rcases hn with h | h
      · rw [h]
      · have h2 : c2.Networks = c3.Networks := h.trans hrN
        have hnn : mapIsNil c2.Networks = false := by
          rw [h2, g4]
          split_ifs with hc
          · rfl
          · simpa using hc
        rw [hnn, ← g4]
        simpa using h2
    · rw [k5, g5]
      rcases hv with h | ⟨h, hcond⟩
      · rw [h]
      · have hset := hcond hd
        rw [hrV] at hset
        have h2 : c2.Volumes = c3.Volumes := h.trans hrV
        rw [h2, ← g5]
        have hloop := volumesLoop_settled E (mapRange c3.Volumes) (by
          intro e he
          rw [← mapGet_eq_lookupKey]
          exact hset e he)
        rw [hloop, g5]
        rfl

/-- The condition on an entry held over is needed: when a second run with defaulting enabled
returns the config it was given, every entry of a known service that it started from and
left is `Settled`. -/
theorem settled_of_second_run (X : Externals) (P : Providers) (E : Environment) (r : Config)
    (hd : (decoded E r).Defaults = true) (hagain : Setup X P E r = Outcome.done r)
    (kp : String × Service × Option Service)
    (hkp : kp ∈ knownProviders P (decoded E r).Domain) (entry : Service)
    (hheld : mapGet (decoded E r).Services kp.1 = some entry)
    (hres : mapGet r.Services kp.1 = some entry) :
    Settled X kp.2.1 kp.2.2 entry := by
  have hS : Setup X P E r
      = match defaultsBlock X P E (decoded E r) with
        | none => Outcome.panic
        | some c3 => validateAndOrder X c3 := rfl
  rw [hS, defaultsBlock_list X P E (decoded E r) hd] at hagain
  simp only at hagain
  obtain ⟨-, l, -, hr⟩ := validateAndOrder_done X _ r hagain
  obtain ⟨-, -, f3, -, -⟩ := block_fields E (withServices (decoded E r)
    (GoMap.mk (servicesList X P (decoded E r).Domain (mapRange (decoded E r).Services))))
  have hrS : r.Services
      = GoMap.mk (servicesList X P (decoded E r).Domain (mapRange (decoded E r).Services)) :=
    (congrArg Config.Services hr).trans f3
  rw [mapGet_eq_lookupKey] at hheld
  rw [settled_iff]
  rw [← finalSlot_known X P (decoded E r).Domain kp hkp, ← hheld, ← lookupKey_servicesList,
    hheld, ← hres, hrS]
  rfl

/-- Claim C14, amended: a second run of Setup on the config a completed run has left
returns that same config (Domain, Defaults, Services, Networks, Volumes and SortedServices)
whenever the store decodes the same Defaults and Domain in both runs and the second run
starts from maps that the store has restored to what the first run started from or that hold
what the first run left, where every entry of a known service held over from the first run
is one that ImportDefaults and the port-binding backfill map to itself, and every volume
held over finds under its name the runtime lookup of that name merged with itself. -/
theorem C14_second_run_reproduces_config (X : Externals) (P : Providers) (E : Environment)
    (c r : Config)
    (hrun : Setup X P E c = Outcome.done r)
    (hsettings : (decoded E r).Defaults = (decoded E c).Defaults ∧
      (decoded E r).Domain = (decoded E c).Domain)
    (hservices : ServicesReproduced X P (decoded E c) (decoded E r) r)
    (hnetworks : NetworksReproduced (decoded E c) (decoded E r) r)
    (hvolumes : VolumesReproduced E (decoded E c) (decoded E r) r) :
    Setup X P E r = Outcome.done r := by
  have hS : ∀ x, Setup X P E x
      = match defaultsBlock X P E (decoded E x) with
        | none => Outcome.panic
        | some c3 => validateAndOrder X c3 := fun _ => rfl
  rw [hS] at hrun
  cases hb : defaultsBlock X P E (decoded E c) with
  | none =>
    rw [hb] at hrun
    cases hrun
  | some c3 =>
    rw [hb] at hrun
    simp only at hrun
    obtain ⟨-, l, -, hr⟩ := validateAndOrder_done X c3 r hrun
    have hrS : r.Services = c3.Services := by rw [hr]; rfl
    have hrN : r.Networks = c3.Networks := by rw [hr]; rfl
    have hrV : r.Volumes = c3.Volumes := by rw [hr]; rfl
    obtain ⟨c4, hb4, f1, f2, f3, f4, f5⟩ := defaultsBlock_agree X P E (decoded E c)
      (decoded E r) r c3 hb hrS hrN hrV hsettings.1 hsettings.2 hservices hnetworks hvolumes
    rw [hS, hb4]
    exact validateAndOrder_congr X c4 c3 r f1 f2 f3 f4 f5 hrun

theorem C14_second_run_reproduces_config_witness :
    Setup specExternals mixedProviders storeWithOverride overrideConfig
      = Outcome.done overrideRun ∧
    Setup specExternals mixedProviders storeWithOverride overrideRun
      = Outcome.done overrideRun :=
  ⟨by decide,
    C14_second_run_reproduces_config specExternals mixedProviders storeWithOverride
      overrideConfig overrideRun (by decide) ⟨rfl, rfl⟩
      (Or.inr ⟨by decide, by decide, by decide,
        by
          intro kp hkp
          simp only [knownProviders, List.mem_cons, List.mem_singleton, List.not_mem_nil,
            or_false] at hkp
          rcases hkp with rfl | rfl | rfl | rfl | rfl
          · refine Or.inr ⟨by decide, fun entry h => ?_⟩
            have h2 : some (providerDefault "amazeeio/ssh-agent" "amazeeio-ssh-agent" "30")
                = some entry := h
            cases h2
            unfold Settled
            decide
          · refine Or.inr ⟨by decide, fun entry h => ?_⟩
            have h2 : some (providerDefault "amazeeio/ssh-agent" "amazeeio-ssh-agent-add-key"
                "31") = some entry := h
            cases h2
            unfold Settled
            decide
          · exact Or.inl (by decide)
          · refine Or.inr ⟨by decide, fun entry h => ?_⟩
            have h2 : some (fillPorts specExternals (portsOnly "80/tcp" "80")
                (providerDefault "amazeeio/haproxy" "amazeeio-haproxy" "14")) = some entry := h
            cases h2
            unfold Settled
            decide
          · exact Or.inl (by decide),
        by
          intro k hk
          simp only [knownServices, List.mem_cons, List.mem_singleton, List.not_mem_nil,
            or_false, not_or] at hk
          show lookupKey k (assignKey "amazeeio-mailhog" _ _) = _
          rw [lookupKey_assignKey_ne _ _ _ _ hk.2.2.2.2]
          rfl⟩)
      (Or.inr rfl)
      (Or.inr ⟨rfl, fun _ => by decide⟩)⟩

end Pygmy
